import Mathlib

/-!
# Galaga clone: the game engine of `galaga-clone/game.js`

A shallow embedding of the update / collision core of the game.

* Numbers are elements of an arbitrary linearly ordered field `α` (exact
  arithmetic): `ℚ` makes every definition executable, `ℝ` gives the real sine.
* `Math.sin` and `Math.random` are parameters: `sin : α → α`, and
  `random : ℕ → α`, the stream of values returned by successive calls of
  `Math.random()`; the state counts the calls made so far.
* Object fields that are assigned once in a constructor to a literal and never
  written again (`width`, `height`, `speed`, `shootInterval`) are constants.
* The effects on the environment are recorded in the state: writes to the
  document, writes to `localStorage`, and the callbacks queued by `setTimeout`.
-/

set_option linter.unusedSectionVars false
set_option linter.unusedVariables false

namespace Galaga

/-! ## Data model -/

/-- Class `Particle` (game.js 5-16). -/
structure Particle (α : Type) where
  x : α
  y : α
  color : String
  size : α
  speedX : α
  speedY : α
  life : α
  decay : α
deriving DecidableEq

/-- Class `Bullet` (game.js 35-44); `width`, `height` and `speed` are constants. -/
structure Bullet (α : Type) where
  x : α
  y : α
  markedForDeletion : Bool
deriving DecidableEq

/-- Class `Player` (game.js 60-70); `width`, `height`, `speed` and
`shootInterval` are constants. -/
structure Player (α : Type) where
  x : α
  y : α
  shootTimer : Nat
deriving DecidableEq

/-- Class `Enemy` (game.js 107-121); `width`, `height`, `speedX` and `speedY`
are constants. -/
structure Enemy (α : Type) where
  x : α
  y : α
  markedForDeletion : Bool
  color : String
  angle : α
  curve : α
  initialX : α
deriving DecidableEq

/-- The keyboard snapshot `Game.keys` (game.js 175-179). -/
structure Keys where
  ArrowLeft : Bool
  ArrowRight : Bool
  Space : Bool
deriving DecidableEq

/-- One write to the page or the console, in the words of the source:
`document.getElementById(id).innerText = v`, `classList.remove`, `classList.add`
and `console.log`. -/
inductive DomEvent where
  | innerText (id : String) (value : Nat)
  | classListRemove (id : String) (cls : String)
  | classListAdd (id : String) (cls : String)
  | consoleLog (msg : String)
deriving DecidableEq

/-- Class `Game` (game.js 153-170), with the environment it writes to:
`randomCalls` counts the calls of `Math.random()` made so far, `storage` lists the
values passed to `localStorage.setItem('galaga_highscore', ·)` (oldest first),
`dom` lists the writes to the page (oldest first) and `timers` is the number of
callbacks queued by `setTimeout` that have not fired yet. -/
structure Game (α : Type) where
  width : α
  height : α
  score : Nat
  highScore : Nat
  gameOver : Bool
  gameActive : Bool
  bullets : List (Bullet α)
  particles : List (Particle α)
  enemies : List (Enemy α)
  player : Player α
  keys : Keys
  randomCalls : Nat
  storage : List Nat
  dom : List DomEvent
  timers : Nat
deriving DecidableEq

variable {α : Type} [LinearOrderedField α]

/-! ## Particle -/

/-- `new Particle(game, x, y, color)` (game.js 6-16). `Math.random()` is called
four times, for `size`, `speedX`, `speedY` and `decay` in this order; `i` is the
number of calls made before. -/
def Particle.new (random : Nat → α) (i : Nat) (x y : α) (color : String) : Particle α :=
  { x := x
    y := y
    color := color
    size := random i * 3 + 1
    speedX := random (i + 1) * 6 - 3
    speedY := random (i + 2) * 6 - 3
    life := 1
    decay := random (i + 3) * (5 / 100) + 2 / 100 }

/-- `Particle.update` (game.js 18-22). -/
def Particle.update (p : Particle α) : Particle α :=
  { p with x := p.x + p.speedX, y := p.y + p.speedY, life := p.life - p.decay }

/-! ## Bullet -/

/-- `this.width = 4` (game.js 40). -/
def Bullet.width (_b : Bullet α) : α := 4

/-- `this.height = 10` (game.js 41). -/
def Bullet.height (_b : Bullet α) : α := 10

/-- `this.speed = 10` (game.js 42). -/
def Bullet.speed (_b : Bullet α) : α := 10

/-- `new Bullet(game, x, y)` (game.js 36-44). -/
def Bullet.new (x y : α) : Bullet α :=
  { x := x, y := y, markedForDeletion := false }

/-- `Bullet.update` (game.js 46-49). -/
def Bullet.update (b : Bullet α) : Bullet α :=
  let b1 : Bullet α := { b with y := b.y - b.speed }
  if b1.y < 0 then { b1 with markedForDeletion := true } else b1

/-! ## Player -/

/-- `this.width = 40` (game.js 63). -/
def Player.width (_p : Player α) : α := 40

/-- `this.height = 40` (game.js 64). -/
def Player.height (_p : Player α) : α := 40

/-- `this.speed = 5` (game.js 67). -/
def Player.speed (_p : Player α) : α := 5

/-- `this.shootInterval = 15` (game.js 69). -/
def Player.shootInterval (_p : Player α) : Nat := 15

/-- `new Player(game)` (game.js 61-70): centred horizontally, 20 pixels above the
bottom edge, cooldown 0. -/
def Player.new (g : Game α) : Player α :=
  { x := g.width / 2 - 40 / 2
    y := g.height - 40 - 20
    shootTimer := 0 }

/-- `Player.update` (game.js 72-87). The method reads `game.keys` and
`game.width` and pushes onto `game.bullets`, so it is a function of the game. -/
def Player.update (g : Game α) : Game α :=
  let p := g.player
  -- Movement
  let p := if g.keys.ArrowLeft then { p with x := p.x - p.speed } else p
  let p := if g.keys.ArrowRight then { p with x := p.x + p.speed } else p
  -- Boundaries
  let p := if p.x < 0 then { p with x := 0 } else p
  let p := if p.x > g.width - p.width then { p with x := g.width - p.width } else p
  -- Shooting
  let p := if p.shootTimer > 0 then { p with shootTimer := p.shootTimer - 1 } else p
  if g.keys.Space && p.shootTimer == 0 then
    { g with
      bullets := g.bullets ++ [Bullet.new (p.x + p.width / 2) p.y]
      player := { p with shootTimer := p.shootInterval } }
  else
    { g with player := p }

/-- The `keydown` and `keyup` handlers (game.js 181-199) have left the snapshot
`k` in `game.keys`. -/
def Game.setKeys (k : Keys) (g : Game α) : Game α :=
  { g with keys := k }

/-- The "Movement" lines of `Player.update` (game.js 74-75) on their own. -/
def Player.move (k : Keys) (p : Player α) : Player α :=
  let p := if k.ArrowLeft then { p with x := p.x - p.speed } else p
  if k.ArrowRight then { p with x := p.x + p.speed } else p

/-- The "Boundaries" lines of `Player.update` (game.js 78-79) on their own. -/
def Player.clamp (gameWidth : α) (p : Player α) : Player α :=
  let p := if p.x < 0 then { p with x := 0 } else p
  if p.x > gameWidth - p.width then { p with x := gameWidth - p.width } else p

/-- The cooldown line of `Player.update` (game.js 82) on its own. -/
def Player.cool (p : Player α) : Player α :=
  if p.shootTimer > 0 then { p with shootTimer := p.shootTimer - 1 } else p

/-- The player is updated once per frame, each time under the keyboard snapshot of
that frame: `ks` lists the snapshots, first frame first. -/
def Player.updates (ks : List Keys) (g : Game α) : Game α :=
  ks.foldl (fun g k => Player.update (g.setKeys k)) g

/-! ## Enemy -/

/-- `this.width = 30` (game.js 112). -/
def Enemy.width (_e : Enemy α) : α := 30

/-- `this.height = 30` (game.js 113). -/
def Enemy.height (_e : Enemy α) : α := 30

/-- `new Enemy(game, x, y)` (game.js 108-121); `Math.random()` is called once, for
`curve`; `i` is the number of calls made before. -/
def Enemy.new (random : Nat → α) (i : Nat) (x y : α) : Enemy α :=
  { x := x
    y := y
    markedForDeletion := false
    color := "#ff00ff"
    angle := 0
    curve := random i * 7
    initialX := x }

/-- `Enemy.update` (game.js 123-127): first the assignment to `x`, then the
advance of `angle`. -/
def Enemy.update (sin : α → α) (e : Enemy α) : Enemy α :=
  let e1 : Enemy α := { e with x := e.initialX + sin e.angle * 20 }
  { e1 with angle := e1.angle + 5 / 100 }

/-! ## Drawing -/

/-- A primitive call on the 2d context: a filled rectangle, a filled closed path
through the listed points, or a filled full circle drawn under `globalAlpha`. -/
inductive DrawOp (α : Type) where
  | fillRect (fillStyle : String) (x y w h : α)
  | fillPath (fillStyle : String) (points : List (α × α))
  | fillArc (fillStyle : String) (globalAlpha : α) (x y radius : α)
deriving DecidableEq

/-- `Particle.draw` (game.js 24-32). -/
def Particle.draw (p : Particle α) : List (DrawOp α) :=
  [DrawOp.fillArc p.color p.life p.x p.y p.size]

/-- `Bullet.draw` (game.js 51-57). -/
def Bullet.draw (b : Bullet α) : List (DrawOp α) :=
  [DrawOp.fillRect "#ff0044" (b.x - b.width / 2) b.y b.width b.height]

/-- `Player.draw` (game.js 89-104). -/
def Player.draw (p : Player α) : List (DrawOp α) :=
  [DrawOp.fillPath "#00f3ff"
    [(p.x + p.width / 2, p.y), (p.x + p.width, p.y + p.height),
     (p.x + p.width / 2, p.y + p.height - 10), (p.x, p.y + p.height)]]

/-- `Enemy.draw` (game.js 129-150). -/
def Enemy.draw (e : Enemy α) : List (DrawOp α) :=
  [DrawOp.fillPath e.color
    [(e.x, e.y), (e.x + e.width, e.y), (e.x + e.width, e.y + e.height * (6 / 10)),
     (e.x + e.width / 2, e.y + e.height), (e.x, e.y + e.height * (6 / 10))],
   DrawOp.fillRect "#000" (e.x + 5) (e.y + 10) 5 5,
   DrawOp.fillRect "#000" (e.x + e.width - 10) (e.y + 10) 5 5]

/-! ## Game -/

/-- `Game.resize` (game.js 217-228); the arguments are the `clientWidth` and
`clientHeight` of the container. -/
def Game.resize (clientWidth clientHeight : α) (g : Game α) : Game α :=
  let g : Game α := { g with width := clientWidth, height := clientHeight }
  let p := g.player
  let p : Player α := { p with y := g.height - p.height - 20 }
  let p : Player α := if p.x > g.width then { p with x := g.width / 2 } else p
  { g with player := p }

/-- `new Game()` (game.js 154-215): `canvasWidth`, `canvasHeight` are the size
of the canvas element before the first `resize`, `clientWidth`, `clientHeight`
the size of the container and `stored` the value kept by `localStorage`, if any. -/
def Game.new (canvasWidth canvasHeight clientWidth clientHeight : α) (stored : Option Nat) :
    Game α :=
  let g : Game α :=
    { width := canvasWidth
      height := canvasHeight
      score := 0
      highScore := stored.getD 0
      gameOver := false
      gameActive := false
      bullets := []
      particles := []
      enemies := []
      player := { x := 0, y := 0, shootTimer := 0 }
      keys := { ArrowLeft := false, ArrowRight := false, Space := false }
      randomCalls := 0
      storage := []
      dom := []
      timers := 0 }
  let g : Game α := { g with player := Player.new g }
  let g : Game α := g.resize clientWidth clientHeight
  { g with dom := g.dom ++ [DomEvent.innerText "high-score" g.highScore] }

/-- `Game.createEnemyGrid` (game.js 230-248): the two nested `for` loops push the
enemies one by one, each constructor drawing one random number. -/
def Game.createEnemyGrid (random : Nat → α) (g : Game α) : Game α :=
  let rows : Nat := 4
  let cols : Nat := 6
  let enemyWidth : α := 30
  let enemyHeight : α := 30
  let padding : α := 30
  let totalWidth : α := cols * enemyWidth + (cols - 1) * padding
  let startX : α := (g.width - totalWidth) / 2
  let startY : α := 80
  (List.range rows).foldl
    (fun g r =>
      (List.range cols).foldl
        (fun g c =>
          let x : α := startX + c * (enemyWidth + padding)
          let y : α := startY + r * (enemyHeight + padding)
          { g with
            enemies := g.enemies ++ [Enemy.new random g.randomCalls x y]
            randomCalls := g.randomCalls + 1 })
        g)
    { g with enemies := [] }

/-- `Game.start` (game.js 250-268). -/
def Game.start (random : Nat → α) (g : Game α) : Game α :=
  let g : Game α :=
    { g with gameActive := true, gameOver := false, score := 0, bullets := [], particles := [] }
  let g : Game α := { g with player := Player.new g }
  let g : Game α := g.createEnemyGrid random
  { g with
    dom := g.dom ++
      [DomEvent.innerText "score" g.score,
       DomEvent.classListRemove "start-screen" "active",
       DomEvent.classListAdd "start-screen" "hidden",
       DomEvent.classListRemove "game-over-screen" "active",
       DomEvent.classListAdd "game-over-screen" "hidden",
       DomEvent.consoleLog "Game Started"] }

/-- `Game.endGame` (game.js 270-282). -/
def Game.endGame (g : Game α) : Game α :=
  let g : Game α := { g with gameActive := false, gameOver := true }
  let g : Game α :=
    if g.score > g.highScore then
      let g : Game α := { g with highScore := g.score }
      { g with
        storage := g.storage ++ [g.highScore]
        dom := g.dom ++ [DomEvent.innerText "high-score" g.highScore] }
    else g
  { g with
    dom := g.dom ++
      [DomEvent.innerText "final-score" g.score,
       DomEvent.classListRemove "game-over-screen" "hidden",
       DomEvent.classListAdd "game-over-screen" "active"] }

/-- The box test of game.js 289-292: the bullet's box `(x, y, width, height)`
against the enemy's, strict on both axes. -/
def Bullet.overlaps (b : Bullet α) (e : Enemy α) : Prop :=
  b.x < e.x + e.width ∧ b.x + b.width > e.x ∧ b.y < e.y + e.height ∧ b.y + b.height > e.y

instance (b : Bullet α) (e : Enemy α) : Decidable (b.overlaps e) := by
  unfold Bullet.overlaps; infer_instance

/-- The box test of game.js 311-314: the enemy's box against the player's. -/
def Enemy.overlapsPlayer (e : Enemy α) (p : Player α) : Prop :=
  e.x < p.x + p.width ∧ e.x + e.width > p.x ∧ e.y < p.y + p.height ∧ e.y + e.height > p.y

instance (e : Enemy α) (p : Player α) : Decidable (e.overlapsPlayer p) := by
  unfold Enemy.overlapsPlayer; infer_instance

/-- The explosion loop of game.js 298-300: eight particles are pushed at the
centre of the enemy, each constructor drawing four random numbers. -/
def Game.explode (random : Nat → α) (e : Enemy α) (g : Game α) : Game α :=
  (List.range 8).foldl
    (fun g _ =>
      { g with
        particles := g.particles ++
          [Particle.new random g.randomCalls (e.x + e.width / 2) (e.y + e.height / 2) e.color]
        randomCalls := g.randomCalls + 4 })
    g

/-- The body of the inner callback of game.js 287-305 for one bullet and one
enemy; the bullet and the enemy are objects mutated in place, so both are
returned next to the game. -/
def Game.hit (random : Nat → α) (g : Game α) (b : Bullet α) (e : Enemy α) :
    Game α × Bullet α × Enemy α :=
  if b.markedForDeletion = false ∧ e.markedForDeletion = false ∧ b.overlaps e then
    let b1 : Bullet α := { b with markedForDeletion := true }
    let e1 : Enemy α := { e with markedForDeletion := true }
    let g1 : Game α := g.explode random e1
    let g2 : Game α := { g1 with score := g1.score + 100 }
    let g3 : Game α := { g2 with dom := g2.dom ++ [DomEvent.innerText "score" g2.score] }
    (g3, b1, e1)
  else (g, b, e)

/-- The inner loop `this.enemies.forEach(enemy => ...)` of game.js 287-305 for
one bullet, over the enemies in collection order. -/
def Game.hitEnemies (random : Nat → α) (g : Game α) (b : Bullet α) :
    List (Enemy α) → Game α × Bullet α × List (Enemy α)
  | [] => (g, b, [])
  | e :: es =>
    let r := Game.hit random g b e
    let rs := Game.hitEnemies random r.1 r.2.1 es
    (rs.1, rs.2.1, r.2.2 :: rs.2.2)

/-- The outer loop `this.bullets.forEach(bullet => ...)` of game.js 286-306, over
the bullets in collection order. -/
def Game.hitBullets (random : Nat → α) (g : Game α) :
    List (Bullet α) → List (Enemy α) → Game α × List (Bullet α) × List (Enemy α)
  | [], es => (g, [], es)
  | b :: bs, es =>
    let r := Game.hitEnemies random g b es
    let rs := Game.hitBullets random r.1 bs r.2.2
    (rs.1, r.2.1 :: rs.2.1, rs.2.2)

/-- "Bullets hit Enemies" (game.js 285-306). -/
def Game.bulletsHitEnemies (random : Nat → α) (g : Game α) : Game α :=
  let r := Game.hitBullets random g g.bullets g.enemies
  { r.1 with bullets := r.2.1, enemies := r.2.2 }

/-- "Enemies hit Player" (game.js 308-318). -/
def Game.enemiesHitPlayer (g : Game α) : Game α :=
  g.enemies.foldl
    (fun g e =>
      if e.markedForDeletion = false ∧ e.overlapsPlayer g.player then g.endGame else g)
    g

/-- "Win condition" (game.js 320-326): the callback is queued by `setTimeout`. -/
def Game.winCondition (g : Game α) : Game α :=
  if g.enemies.length = 0 ∧ g.gameActive = true then { g with timers := g.timers + 1 } else g

/-- The callback passed to `setTimeout` (game.js 323-325). -/
def Game.respawnCallback (random : Nat → α) (g : Game α) : Game α :=
  if g.gameActive = true ∧ g.enemies.length = 0 then g.createEnemyGrid random else g

/-- One queued callback comes due: it leaves the queue and runs. -/
def Game.fireTimer (random : Nat → α) (g : Game α) : Game α :=
  if g.timers = 0 then g else Game.respawnCallback random { g with timers := g.timers - 1 }

/-- `Game.checkCollisions` (game.js 284-327). -/
def Game.checkCollisions (random : Nat → α) (g : Game α) : Game α :=
  ((g.bulletsHitEnemies random).enemiesHitPlayer).winCondition

/-- `Game.update` (game.js 329-347); `deltaTime` is not used by the body. -/
def Game.update (sin : α → α) (random : Nat → α) (_deltaTime : α) (g : Game α) : Game α :=
  if g.gameActive = false then g
  else
    let g : Game α := Player.update g
    -- Update Bullets
    let g : Game α := { g with bullets := g.bullets.map Bullet.update }
    let g : Game α := { g with bullets := g.bullets.filter (fun b => !b.markedForDeletion) }
    -- Update Enemies
    let g : Game α := { g with enemies := g.enemies.map (Enemy.update sin) }
    let g : Game α := { g with enemies := g.enemies.filter (fun e => !e.markedForDeletion) }
    -- Update Particles
    let g : Game α := { g with particles := g.particles.map Particle.update }
    let g : Game α := { g with particles := g.particles.filter (fun p => decide (p.life > 0)) }
    g.checkCollisions random

/-- The lines of `Game.update` before the call of `checkCollisions` (game.js
332-344) on their own: the entities advance and the collections are filtered. -/
def Game.advance (sin : α → α) (g : Game α) : Game α :=
  let g : Game α := Player.update g
  let g : Game α := { g with bullets := g.bullets.map Bullet.update }
  let g : Game α := { g with bullets := g.bullets.filter (fun b => !b.markedForDeletion) }
  let g : Game α := { g with enemies := g.enemies.map (Enemy.update sin) }
  let g : Game α := { g with enemies := g.enemies.filter (fun e => !e.markedForDeletion) }
  let g : Game α := { g with particles := g.particles.map Particle.update }
  { g with particles := g.particles.filter (fun p => decide (p.life > 0)) }

/-- `Game.draw` (game.js 349-360): the calls made on the 2d context, in order. -/
def Game.draw (g : Game α) : List (DrawOp α) :=
  DrawOp.fillRect "#050510" 0 0 g.width g.height ::
    (if g.gameActive = true then
      g.player.draw ++ g.enemies.flatMap Enemy.draw ++ g.bullets.flatMap Bullet.draw ++
        g.particles.flatMap Particle.draw
    else [])

/-- Frames in sequence: before each `update` the key handlers have left the
snapshot of that frame in `keys`; `ks` lists the snapshots, first frame first. -/
def Game.updates (sin : α → α) (random : Nat → α) (ks : List Keys) (g : Game α) : Game α :=
  ks.foldl (fun g k => Game.update sin random 0 (g.setKeys k)) g

/-- A game in play on which the definitions are evaluated: constructed in a
container of 800 by 600 pixels, nothing stored, and started. -/
def Game.sample : Game ℚ :=
  (Game.new 300 150 800 600 none).start (fun _ => 1 / 2)

/-- The snapshot with only the fire key held. -/
def Keys.fire : Keys :=
  { ArrowLeft := false, ArrowRight := false, Space := true }

/-- A state in play on a surface 280 high, score 300 over a high score of 100: one
enemy of the third row is left and it overlaps the player's box. -/
def Game.caught : Game ℚ :=
  { Game.sample with
    height := 280
    score := 300
    highScore := 100
    player := { x := 375, y := 220, shootTimer := 0 }
    enemies := [Enemy.new (fun _ => 1 / 2) 14 355 200] }

/-- A state in play late in a wave, on a surface of 800 by 600: the enemy of row
0, column 3 is the last one left, 1280 frames after the grid was created (angle
`1280 * 0.05 = 64`), the player stands at `x = 415` and a bullet fired from there
has reached `y = 110`. -/
def Game.aimed (sin : α → α) : Game α :=
  { width := 800
    height := 600
    score := 2300
    highScore := 0
    gameOver := false
    gameActive := true
    bullets := [Bullet.new 435 110]
    particles := []
    enemies :=
      [{ x := 415 + sin (1279 / 20) * 20
         y := 80
         markedForDeletion := false
         color := "#ff00ff"
         angle := 64
         curve := 7 / 2
         initialX := 415 }]
    player := { x := 415, y := 540, shootTimer := 0 }
    keys := { ArrowLeft := false, ArrowRight := false, Space := false }
    randomCalls := 760
    storage := []
    dom := []
    timers := 0 }

/-- The enemy of row 2, column 2 of the grid on a surface 800 wide, as its
update leaves it in the frame that advances its angle from 64. -/
def Enemy.straggler (sin : α → α) : Enemy α :=
  { x := 355 + sin 64 * 20
    y := 200
    markedForDeletion := false
    color := "#ff00ff"
    angle := 64 + 5 / 100
    curve := 7 / 2
    initialX := 355 }

/-- The state handed to `checkCollisions` in a frame late in a wave, after the
surface was resized to a height of 280: the last enemy left overlaps the player's
box, and a bullet overlaps the enemy. -/
def Game.grazed (sin : α → α) : Game α :=
  { Game.aimed sin with
    height := 280
    bullets := [Bullet.new 380 220]
    enemies := [Enemy.straggler sin]
    player := { x := 375, y := 220, shootTimer := 0 } }

/-- A state in play late in a wave, after the surface was resized to a height of
280: the enemies of row 2, columns 1 and 2 are left, 1280 frames after the grid
was created, the player stands under the second one, and a bullet fired before
the resize is one frame away from the first one. -/
def Game.cornered (sin : α → α) : Game α :=
  { Game.aimed sin with
    height := 280
    score := 2200
    randomCalls := 728
    bullets := [Bullet.new 320 230]
    enemies :=
      [{ x := 295 + sin (1279 / 20) * 20
         y := 200
         markedForDeletion := false
         color := "#ff00ff"
         angle := 64
         curve := 7 / 2
         initialX := 295 },
       { x := 355 + sin (1279 / 20) * 20
         y := 200
         markedForDeletion := false
         color := "#ff00ff"
         angle := 64
         curve := 7 / 2
         initialX := 355 }]
    player := { x := 375, y := 220, shootTimer := 0 } }

/-- A state in play whose wave has just been cleared: no enemy is left and the
frame that emptied the collection has queued one callback. -/
def Game.cleared : Game α :=
  { (Game.new 300 150 800 600 none).start (fun _ => 1 / 2) with
    enemies := []
    score := 2400
    timers := 1 }

/-- A state in play with no enemy left and one particle of an explosion, just
created: life 1, decay `0.6 * 0.05 + 0.02 = 0.05`. -/
def Game.sparked : Game α :=
  { (Game.cleared : Game α) with
    particles := [Particle.new (fun _ => 3 / 5) 0 250 95 "#ff00ff"] }

/-! ## Runs -/

/-- What moves a game in play from one state to the next: a frame (the key
handlers have left the snapshot `keys`, then `update(deltaTime)` runs), or a
callback queued by `setTimeout` coming due. -/
inductive Tick (α : Type) where
  | frame (keys : Keys) (deltaTime : α)
  | timer
deriving DecidableEq

/-- One tick of a game. -/
def Game.tick (sin : α → α) (random : Nat → α) (t : Tick α) (g : Game α) : Game α :=
  match t with
  | Tick.frame keys deltaTime => (g.setKeys keys).update sin random deltaTime
  | Tick.timer => g.fireTimer random

/-- A game played through a list of ticks, first tick first. -/
def Game.play (sin : α → α) (random : Nat → α) (ts : List (Tick α)) (g : Game α) : Game α :=
  ts.foldl (fun g t => g.tick sin random t) g

/-- Everything that changes the state of a game: a tick, a call of `start()` (from
the key and click handlers), a call of `endGame()`, or a `resize` of the window to
a container of the given size. -/
inductive Event (α : Type) where
  | tick (t : Tick α)
  | start
  | endGame
  | resize (clientWidth clientHeight : α)
deriving DecidableEq

/-- One event on a game. -/
def Game.step (sin : α → α) (random : Nat → α) (ev : Event α) (g : Game α) : Game α :=
  match ev with
  | Event.tick t => g.tick sin random t
  | Event.start => g.start random
  | Event.endGame => g.endGame
  | Event.resize clientWidth clientHeight => g.resize clientWidth clientHeight

/-- A game run through a list of events, first event first. -/
def Game.run (sin : α → α) (random : Nat → α) (evs : List (Event α)) (g : Game α) : Game α :=
  evs.foldl (fun g ev => g.step sin random ev) g

/-! ## Reference matching

The bullet-enemy phase in the words of the specification: scan the bullets in
collection order and, for each bullet not yet marked, mark it together with the
first enemy in collection order that is not yet marked and whose box overlaps it. -/

/-- The destruction of enemy `e`: eight particles at its centre in its colour, 100
points, and the score published to the page. -/
def Game.destroy (random : Nat → α) (e : Enemy α) (g : Game α) : Game α :=
  { g with
    particles := g.particles ++ (List.range 8).map fun i =>
      Particle.new random (g.randomCalls + 4 * i) (e.x + 15) (e.y + 15) e.color
    randomCalls := g.randomCalls + 32
    score := g.score + 100
    dom := g.dom ++ [DomEvent.innerText "score" (g.score + 100)] }

/-- The first enemy in collection order that is not yet marked and whose box
overlaps the bullet is marked together with the bullet and destroyed; the scan
stops there. Without such an enemy nothing changes. -/
def Game.markFirst (random : Nat → α) (g : Game α) (b : Bullet α) :
    List (Enemy α) → Game α × Bullet α × List (Enemy α)
  | [] => (g, b, [])
  | e :: es =>
    if e.markedForDeletion = false ∧ b.overlaps e then
      (g.destroy random e, { b with markedForDeletion := true },
        { e with markedForDeletion := true } :: es)
    else
      ((Game.markFirst random g b es).1, (Game.markFirst random g b es).2.1,
        e :: (Game.markFirst random g b es).2.2)

/-- The greedy reference matching over the bullets in collection order: a bullet
already marked is passed over. -/
def Game.greedyMatching (random : Nat → α) (g : Game α) :
    List (Bullet α) → List (Enemy α) → Game α × List (Bullet α) × List (Enemy α)
  | [], es => (g, [], es)
  | b :: bs, es =>
    let r := if b.markedForDeletion = false then Game.markFirst random g b es else (g, b, es)
    let rs := Game.greedyMatching random r.1 bs r.2.2
    (rs.1, r.2.1 :: rs.2.1, rs.2.2)

/-! ## Vocabulary of the statements -/

/-- What a particle shows of its origin: position, colour and life. -/
def Particle.origin (p : Particle α) : α × α × String × α :=
  (p.x, p.y, p.color, p.life)

/-- The origins of the eight particles of the explosion of enemy `e`: its centre
`(x + 15, y + 15)`, its colour, life 1. -/
def Enemy.burst (e : Enemy α) : List (α × α × String × α) :=
  List.replicate 8 (e.x + 15, e.y + 15, e.color, 1)

/-- Bullet `b1` is bullet `b` with, at most, the deletion flag raised. -/
def Bullet.MarkedFrom (b b1 : Bullet α) : Prop :=
  b1 = { b with markedForDeletion := b1.markedForDeletion } ∧
    (b.markedForDeletion = true → b1.markedForDeletion = true)

/-- Enemy `e1` is enemy `e` with, at most, the deletion flag raised. -/
def Enemy.MarkedFrom (e e1 : Enemy α) : Prop :=
  e1 = { e with markedForDeletion := e1.markedForDeletion } ∧
    (e.markedForDeletion = true → e1.markedForDeletion = true)

/-- The enemies of the collection `es` whose deletion flag is raised in `es1`, the
same collection after a pass: flag clear in `es`, set at the same index in `es1`;
in collection order, as they were in `es`. -/
def Enemy.raised (es es1 : List (Enemy α)) : List (Enemy α) :=
  ((es.zip es1).filter (fun p => !p.1.markedForDeletion && p.2.markedForDeletion)).map Prod.fst

/-- The number of bullets of a collection that are marked for deletion. -/
def Bullet.marked (bs : List (Bullet α)) : Nat :=
  bs.countP (fun b => b.markedForDeletion)

/-- The number of enemies of a collection that are marked for deletion. -/
def Enemy.marked (es : List (Enemy α)) : Nat :=
  es.countP (fun e => e.markedForDeletion)

/-- Game `g1` is game `g` after the destruction of the enemies `kills`, in this
order: 100 points and eight particles each, one write of the score to the page
each, and nothing else changed but the count of random numbers drawn. -/
def Game.Destroyed (g g1 : Game α) (kills : List (Enemy α)) : Prop :=
  g1.score = g.score + 100 * kills.length ∧
  (∃ ps : List (Particle α), g1.particles = g.particles ++ ps ∧
    ps.map Particle.origin = kills.flatMap Enemy.burst) ∧
  g1.dom = g.dom ++
    (List.range kills.length).map (fun i => DomEvent.innerText "score" (g.score + 100 * (i + 1))) ∧
  g1.randomCalls = g.randomCalls + 32 * kills.length ∧
  g1.width = g.width ∧ g1.height = g.height ∧ g1.highScore = g.highScore ∧
  g1.gameOver = g.gameOver ∧ g1.gameActive = g.gameActive ∧ g1.player = g.player ∧
  g1.keys = g.keys ∧ g1.storage = g.storage ∧ g1.timers = g.timers

/-- Game `r` is game `g` after the game has ended: the state is Over, the high
score is the larger of the old one and the score, `localStorage` received the
score exactly when it beat the old high score, and the entities, the score, the
surface and the timers are as in `g`. -/
def Game.Ended (g r : Game α) : Prop :=
  r.gameActive = false ∧ r.gameOver = true ∧
  r.highScore = max g.highScore g.score ∧
  r.storage = g.storage ++ (if g.score > g.highScore then [g.score] else []) ∧
  r.score = g.score ∧ r.bullets = g.bullets ∧ r.particles = g.particles ∧
  r.enemies = g.enemies ∧ r.player = g.player ∧ r.width = g.width ∧ r.height = g.height ∧
  r.keys = g.keys ∧ r.randomCalls = g.randomCalls ∧ r.timers = g.timers

/-- The state of a game in play on a surface of height `h` that no enemy can
end: Active, not Over, the player 60 pixels above the bottom edge, every enemy on
one of the four rows of the grid, and the store as it was (`stored`). -/
def Game.Safe (h : α) (stored : List Nat) (g : Game α) : Prop :=
  g.gameActive = true ∧ g.gameOver = false ∧ g.height = h ∧ g.player.y = h - 60 ∧
  g.storage = stored ∧
  ∀ e ∈ g.enemies, e.y = 80 ∨ e.y = 140 ∨ e.y = 200 ∨ e.y = 260

/-- Enemies `e1` and `e2`, in this order in the collection, move in lockstep (same
angle, same offset from their anchors) and their anchors are one grid pitch apart:
`e2` is at least 60 pixels to the right of `e1`, or at least 60 pixels below. -/
def Enemy.Apart (e1 e2 : Enemy α) : Prop :=
  e1.angle = e2.angle ∧ e1.x - e1.initialX = e2.x - e2.initialX ∧
    (e1.initialX + 60 ≤ e2.initialX ∨ e1.y + 60 ≤ e2.y)

/-! ## Theorems -/

/-! ### Player movement -/

/-- `Player.update` is movement, then the boundaries, then the cooldown, then
the shot. -/
theorem Player.update_stages (g : Game α) :
    Player.update g =
      let p := ((g.player.move g.keys).clamp g.width).cool
      if g.keys.Space && p.shootTimer == 0 then
        { g with
          bullets := g.bullets ++ [Bullet.new (p.x + p.width / 2) p.y]
          player := { p with shootTimer := p.shootInterval } }
      else
        { g with player := p } := rfl

theorem Player.cool_x (p : Player α) : p.cool.x = p.x := by
  unfold Player.cool; split <;> rfl

theorem Player.cool_y (p : Player α) : p.cool.y = p.y := by
  unfold Player.cool; split <;> rfl

theorem Player.move_y (k : Keys) (p : Player α) : (p.move k).y = p.y := by
  unfold Player.move; simp only; split_ifs <;> rfl

theorem Player.clamp_y (w : α) (p : Player α) : (p.clamp w).y = p.y := by
  unfold Player.clamp; simp only; split_ifs <;> rfl

theorem Player.move_shootTimer (k : Keys) (p : Player α) :
    (p.move k).shootTimer = p.shootTimer := by
  unfold Player.move; simp only; split_ifs <;> rfl

theorem Player.clamp_shootTimer (w : α) (p : Player α) :
    (p.clamp w).shootTimer = p.shootTimer := by
  unfold Player.clamp; simp only; split_ifs <;> rfl

theorem Player.clamp_x_le (w : α) (p : Player α) : (p.clamp w).x ≤ w - 40 := by
  unfold Player.clamp
  simp only [Player.width]
  split_ifs with h1 h2 h2
  · exact le_refl _
  · exact not_lt.mp h2
  · exact le_refl _
  · exact not_lt.mp h2

theorem Player.clamp_x_nonneg (w : α) (p : Player α) (hw : 40 ≤ w) : 0 ≤ (p.clamp w).x := by
  unfold Player.clamp
  simp only [Player.width]
  split_ifs with h1 h2 h2
  · show (0 : α) ≤ w - 40
    linarith
  · exact le_refl _
  · show (0 : α) ≤ w - 40
    linarith
  · exact not_lt.mp h1

theorem Player.update_player_x (g : Game α) :
    (Player.update g).player.x = ((g.player.move g.keys).clamp g.width).x := by
  rw [Player.update_stages]
  simp only
  split
  · simp [Player.cool_x]
  · simp [Player.cool_x]

theorem Player.update_player_y (g : Game α) : (Player.update g).player.y = g.player.y := by
  rw [Player.update_stages]
  simp only
  split <;> simp [Player.cool_y, Player.clamp_y, Player.move_y]

theorem Player.update_width (g : Game α) : (Player.update g).width = g.width := by
  rw [Player.update_stages]
  simp only
  split <;> rfl

theorem Player.update_x_le (g : Game α) : (Player.update g).player.x ≤ g.width - 40 := by
  rw [Player.update_player_x]
  exact Player.clamp_x_le _ _

theorem Player.update_x_nonneg (g : Game α) (hW : 40 ≤ g.width) :
    0 ≤ (Player.update g).player.x := by
  rw [Player.update_player_x]
  exact Player.clamp_x_nonneg _ _ hW

theorem Player.updates_append (ks : List Keys) (k : Keys) (g : Game α) :
    Player.updates (ks ++ [k]) g = Player.update ((Player.updates ks g).setKeys k) := by
  simp [Player.updates, List.foldl_append]

theorem Player.updates_width (ks : List Keys) (g : Game α) :
    (Player.updates ks g).width = g.width := by
  induction ks using List.reverseRecOn with
  | nil => rfl
  | append_singleton ks k ih => rw [Player.updates_append, Player.update_width]; exact ih

/-! ### The enemy grid and `start` -/

/-- The grid in closed form: enemy `i` of 24 sits in row `i / 6`, column `i % 6`. -/
theorem Game.createEnemyGrid_eq (random : Nat → α) (g : Game α) :
    g.createEnemyGrid random =
      { g with
        enemies := (List.range 24).map fun i =>
          Enemy.new random (g.randomCalls + i)
            ((g.width - 330) / 2 + ((i % 6 : Nat) : α) * 60) (80 + ((i / 6 : Nat) : α) * 60)
        randomCalls := g.randomCalls + 24 } := by
  simp [Game.createEnemyGrid, List.range, List.range.loop]
  norm_num [Nat.add_assoc]

/-- The enemy list of a fresh grid on a surface of width `w`, the first of the
24 constructors being call number `n` of `Math.random()`. -/
theorem Game.createEnemyGrid_enemies (random : Nat → α) (g : Game α) :
    (g.createEnemyGrid random).enemies =
      (List.range 24).map fun i =>
        Enemy.new random (g.randomCalls + i)
          ((g.width - 330) / 2 + ((i % 6 : Nat) : α) * 60) (80 + ((i / 6 : Nat) : α) * 60) := by
  rw [Game.createEnemyGrid_eq]

theorem Game.start_eq (random : Nat → α) (g : Game α) :
    g.start random =
      { g with
        gameActive := true
        gameOver := false
        score := 0
        bullets := []
        particles := []
        player := { x := g.width / 2 - 40 / 2, y := g.height - 40 - 20, shootTimer := 0 }
        enemies := (List.range 24).map fun i =>
          Enemy.new random (g.randomCalls + i)
            ((g.width - 330) / 2 + ((i % 6 : Nat) : α) * 60) (80 + ((i / 6 : Nat) : α) * 60)
        randomCalls := g.randomCalls + 24
        dom := g.dom ++
          [DomEvent.innerText "score" 0,
           DomEvent.classListRemove "start-screen" "active",
           DomEvent.classListAdd "start-screen" "hidden",
           DomEvent.classListRemove "game-over-screen" "active",
           DomEvent.classListAdd "game-over-screen" "hidden",
           DomEvent.consoleLog "Game Started"] } := by
  unfold Game.start
  simp only [Game.createEnemyGrid_eq, Player.new]

/-- C5. Start postcondition: after `start()` the state is Active with score 0, no
bullets and no particles, the player is fresh at `(W/2 - 20, H - 60)` with
cooldown 0 on the unchanged surface `(W, H)`, and the enemy collection holds
exactly 24 enemies in row-major order: the enemy at index `6 r + c` is unmarked, at
angle 0, with `x = initialX = (W - 330)/2 + 60 c` and `y = 80 + 60 r`. -/
theorem C5_start_postcondition (random : Nat → α) (g : Game α) :
    (g.start random).gameActive = true ∧ (g.start random).gameOver = false ∧
    (g.start random).score = 0 ∧ (g.start random).bullets = [] ∧
    (g.start random).particles = [] ∧
    (g.start random).width = g.width ∧ (g.start random).height = g.height ∧
    (g.start random).player = { x := g.width / 2 - 20, y := g.height - 60, shootTimer := 0 } ∧
    (g.start random).enemies.length = 24 ∧
    ∀ (r : Fin 4) (c : Fin 6), ∃ e : Enemy α,
      (g.start random).enemies[6 * r.val + c.val]? = some e ∧
      e.markedForDeletion = false ∧ e.angle = 0 ∧
      e.x = (g.width - 330) / 2 + 60 * (c.val : α) ∧ e.initialX = e.x ∧
      e.y = 80 + 60 * (r.val : α) := by
  rw [Game.start_eq]
  refine ⟨rfl, rfl, rfl, rfl, rfl, rfl, rfl, ?_, by simp, ?_⟩
  · have h1 : (40 : α) / 2 = 20 := by norm_num
    have h2 : g.height - 40 - 20 = g.height - 60 := by ring
    simp only [h1, h2]
  · intro r c
    have hr := r.isLt
    have hc := c.isLt
    have hlt : 6 * r.val + c.val < 24 := by omega
    have hmod : (6 * r.val + c.val) % 6 = c.val := by omega
    have hdiv : (6 * r.val + c.val) / 6 = r.val := by omega
    refine ⟨Enemy.new random (g.randomCalls + (6 * r.val + c.val))
      ((g.width - 330) / 2 + (c.val : α) * 60) (80 + (r.val : α) * 60), ?_, rfl, rfl, ?_, rfl, ?_⟩
    · simp [List.getElem?_map, List.getElem?_range, hlt, hmod, hdiv]
    · simp only [Enemy.new]; ring
    · simp only [Enemy.new]; ring

theorem Game.sample_width : Game.sample.width = 800 := by
  simp [Game.sample, Game.start_eq, Game.new, Game.resize]

/-! ### C1: boundary clamp -/

/-- C1 (amended). Boundary clamp: on a surface at least as wide as the player
(`40 <= W`), after `Player.update` the player's x satisfies `0 <= x <= W - 40`, for
every earlier x and every combination of key flags, hence also after every
non-empty sequence of updates under any key snapshots. -/
theorem C1_boundary_clamp (g : Game α) (hW : 40 ≤ g.width) :
    (0 ≤ (Player.update g).player.x ∧ (Player.update g).player.x ≤ g.width - 40) ∧
    ∀ (ks : List Keys) (k : Keys),
      0 ≤ (Player.updates (ks ++ [k]) g).player.x ∧
        (Player.updates (ks ++ [k]) g).player.x ≤ g.width - 40 := by
  refine ⟨⟨Player.update_x_nonneg g hW, Player.update_x_le g⟩, ?_⟩
  intro ks k
  rw [Player.updates_append]
  have hw : ((Player.updates ks g).setKeys k).width = g.width :=
    Player.updates_width ks g
  constructor
  · exact Player.update_x_nonneg _ (by rw [hw]; exact hW)
  · have := Player.update_x_le ((Player.updates ks g).setKeys k)
    rw [hw] at this
    exact this

/-- C1, witness: the sample game, on a surface 800 wide. -/
theorem C1_boundary_clamp_witness :
    (40 : ℚ) ≤ Game.sample.width ∧
    ((0 ≤ (Player.update Game.sample).player.x ∧
        (Player.update Game.sample).player.x ≤ Game.sample.width - 40) ∧
      ∀ (ks : List Keys) (k : Keys),
        0 ≤ (Player.updates (ks ++ [k]) Game.sample).player.x ∧
          (Player.updates (ks ++ [k]) Game.sample).player.x ≤ Game.sample.width - 40) :=
  ⟨by norm_num [Game.sample_width], C1_boundary_clamp Game.sample (by norm_num [Game.sample_width])⟩

/-- C1, counterexample: a game constructed in a container 30 pixels wide and
started has its player at `x = -5`; the next `Player.update` clamps it to 0 and
then to `W - 40 = -10`, outside `[0, W - 40]`. -/
theorem C1_counterexample :
    (Player.update ((Game.new 300 150 30 150 none : Game ℚ).start (fun _ => 0))).player.x
        = -10 ∧
      ¬ (0 ≤ (Player.update
          ((Game.new 300 150 30 150 none : Game ℚ).start (fun _ => 0))).player.x) := by
  have h : (Player.update
      ((Game.new 300 150 30 150 none : Game ℚ).start (fun _ => 0))).player.x = -10 := by
    rw [Player.update_player_x, Game.start_eq]
    simp [Game.new, Game.resize, Player.move, Player.clamp, Player.width, Player.speed]
    norm_num
  rw [h]
  exact ⟨rfl, by norm_num⟩


/-! ### C2: shoot cadence -/

theorem Player.cool_shootTimer (p : Player α) : p.cool.shootTimer = p.shootTimer - 1 := by
  unfold Player.cool
  split
  · rfl
  · show p.shootTimer = p.shootTimer - 1
    omega

/-- One `Player.update` with the fire key held: a shot leaves exactly when the
cooldown read at the start of the frame is 0 or 1. -/
theorem Player.update_space (g : Game α) (hS : g.keys.Space = true) :
    (Player.update g).player.shootTimer =
        (if g.player.shootTimer ≤ 1 then 15 else g.player.shootTimer - 1) ∧
      (Player.update g).bullets = g.bullets ++
        (if g.player.shootTimer ≤ 1 then
          [Bullet.new ((Player.update g).player.x + 20) (Player.update g).player.y]
        else []) := by
  have hx := Player.update_player_x g
  have hy := Player.update_player_y g
  rw [hx, hy]
  rw [Player.update_stages]
  simp only [hS, Bool.true_and, Player.cool_shootTimer, Player.clamp_shootTimer,
    Player.move_shootTimer, beq_iff_eq, Player.cool_x, Player.cool_y, Player.clamp_y,
    Player.move_y, Player.width, Player.shootInterval]
  by_cases h : g.player.shootTimer ≤ 1
  · have h' : g.player.shootTimer - 1 = 0 := by omega
    simp only [h, h', if_true]
    norm_num
  · have h' : ¬ (g.player.shootTimer - 1 = 0) := by omega
    simp only [h, h', if_false, Player.cool_shootTimer, Player.clamp_shootTimer,
      Player.move_shootTimer, List.append_nil, and_self]

/-- The cooldown left after `n` frames of continuous fire from cooldown 0. -/
theorem Player.updates_fire (ks : List Keys) (g : Game α) (h0 : g.player.shootTimer = 0)
    (hS : ∀ k ∈ ks, k.Space = true) :
    (Player.updates ks g).player.shootTimer =
        (if ks.length = 0 then 0 else 15 - (ks.length - 1) % 15) ∧
      (Player.updates ks g).bullets.length = g.bullets.length + (ks.length + 14) / 15 := by
  induction ks using List.reverseRecOn with
  | nil => exact ⟨h0, rfl⟩
  | append_singleton ks k ih =>
    have ihk := ih (fun k hk => hS k (List.mem_append_left _ hk))
    have hk : k.Space = true := hS k (by simp)
    rw [Player.updates_append]
    obtain ⟨s1, s2⟩ := Player.update_space ((Player.updates ks g).setKeys k) hk
    have t1 : ((Player.updates ks g).setKeys k).player.shootTimer =
        (if ks.length = 0 then 0 else 15 - (ks.length - 1) % 15) := ihk.1
    have t2 : ((Player.updates ks g).setKeys k).bullets.length =
        g.bullets.length + (ks.length + 14) / 15 := ihk.2
    rw [s1, s2, t1]
    simp only [List.length_append, List.length_singleton, t2]
    clear s1 s2 t1 t2 ihk ih hS
    generalize ks.length = n
    obtain ⟨t, e, h1, h2⟩ : ∃ t, (if n = 0 then 0 else 15 - (n - 1) % 15) = t ∧
        (n = 0 → t = 0) ∧ (n ≠ 0 → t = 15 - (n - 1) % 15) := by
      refine ⟨_, rfl, ?_, ?_⟩ <;> intro h <;> simp [h]
    rw [e, if_neg (Nat.succ_ne_zero n)]
    constructor
    · by_cases c : t ≤ 1
      · rw [if_pos c]; omega
      · rw [if_neg c]; omega
    · by_cases c : t ≤ 1
      · rw [if_pos c, List.length_singleton]; omega
      · rw [if_neg c, List.length_nil]; omega

theorem Game.sample_shootTimer : Game.sample.player.shootTimer = 0 := by
  simp [Game.sample, Game.start_eq]

theorem Game.sample_bullets : Game.sample.bullets = [] := by
  simp [Game.sample, Game.start_eq]

/-- C2 (amended). Shoot cadence: from cooldown 0 (a freshly constructed Player)
with the fire key held on every frame, `N` consecutive `Player.update` calls
(frames numbered from 0) push exactly `ceil(N/15) = floor((N + 14)/15)` bullets,
one on each of the frames 0, 15, 30, ... below `N` and none on any other frame;
each push adds exactly one unmarked Bullet at `(player.x + 20, player.y)` and
resets the cooldown to 15. -/
theorem C2_shoot_cadence (g : Game α) (ks : List Keys) (h0 : g.player.shootTimer = 0)
    (hS : ∀ k ∈ ks, k.Space = true) :
    (Player.updates ks g).bullets.length = g.bullets.length + (ks.length + 14) / 15 ∧
    ∀ i : Nat, i < ks.length →
      (Player.updates (ks.take (i + 1)) g).bullets =
          (Player.updates (ks.take i) g).bullets ++
            (if i % 15 = 0 then
              [Bullet.new ((Player.updates (ks.take (i + 1)) g).player.x + 20)
                (Player.updates (ks.take (i + 1)) g).player.y]
            else []) ∧
        (i % 15 = 0 → (Player.updates (ks.take (i + 1)) g).player.shootTimer = 15) := by
  refine ⟨(Player.updates_fire ks g h0 hS).2, ?_⟩
  intro i hi
  have hpre := (Player.updates_fire (ks.take i) g h0
    (fun k hk => hS k (List.mem_of_mem_take hk))).1
  have hlen : (ks.take i).length = i := by
    rw [List.length_take]; omega
  rw [hlen] at hpre
  have htake : ks.take (i + 1) = ks.take i ++ [ks[i]] := by
    rw [List.take_succ, List.getElem?_eq_getElem hi]; rfl
  have hk : (ks[i]).Space = true := hS _ (List.getElem_mem hi)
  rw [htake, Player.updates_append]
  obtain ⟨s1, s2⟩ := Player.update_space ((Player.updates (ks.take i) g).setKeys ks[i]) hk
  have t1 : ((Player.updates (ks.take i) g).setKeys ks[i]).player.shootTimer =
      (if i = 0 then 0 else 15 - (i - 1) % 15) := hpre
  have hiff : ((if i = 0 then 0 else 15 - (i - 1) % 15) ≤ 1) ↔ i % 15 = 0 := by
    split_ifs with hz
    · subst hz; simp
    · omega
  rw [s1, s2, t1]
  constructor
  · by_cases c : i % 15 = 0
    · rw [if_pos (hiff.mpr c), if_pos c]; rfl
    · rw [if_neg (fun h => c (hiff.mp h)), if_neg c]; rfl
  · intro c
    rw [if_pos (hiff.mpr c)]

/-- C2, witness: the sample game and sixteen frames of fire. -/
theorem C2_shoot_cadence_witness :
    Game.sample.player.shootTimer = 0 ∧
    (∀ k ∈ List.replicate 16 Keys.fire, k.Space = true) ∧
    ((Player.updates (List.replicate 16 Keys.fire) Game.sample).bullets.length =
        Game.sample.bullets.length + ((List.replicate 16 Keys.fire).length + 14) / 15 ∧
      ∀ i : Nat, i < (List.replicate 16 Keys.fire).length →
        (Player.updates ((List.replicate 16 Keys.fire).take (i + 1)) Game.sample).bullets =
            (Player.updates ((List.replicate 16 Keys.fire).take i) Game.sample).bullets ++
              (if i % 15 = 0 then
                [Bullet.new
                  ((Player.updates ((List.replicate 16 Keys.fire).take (i + 1))
                    Game.sample).player.x + 20)
                  (Player.updates ((List.replicate 16 Keys.fire).take (i + 1))
                    Game.sample).player.y]
              else []) ∧
          (i % 15 = 0 →
            (Player.updates ((List.replicate 16 Keys.fire).take (i + 1))
              Game.sample).player.shootTimer = 15)) :=
  ⟨Game.sample_shootTimer, fun k hk => by rw [List.eq_of_mem_replicate hk]; rfl,
    C2_shoot_cadence Game.sample (List.replicate 16 Keys.fire) Game.sample_shootTimer
      (fun k hk => by rw [List.eq_of_mem_replicate hk]; rfl)⟩

/-- C2, counterexample: fifteen `Player.update` calls with the fire key held,
from the fresh player of the sample game, push one bullet (on frame 0), not
`floor(15/15) + 1 = 2`. -/
theorem C2_counterexample :
    (Player.updates (List.replicate 15 Keys.fire) Game.sample).bullets.length
        = Game.sample.bullets.length + 1 ∧
      (Player.updates (List.replicate 15 Keys.fire) Game.sample).bullets.length
        ≠ Game.sample.bullets.length + (15 / 15 + 1) := by
  have h := (Player.updates_fire (List.replicate 15 Keys.fire) Game.sample
    Game.sample_shootTimer (fun k hk => by rw [List.eq_of_mem_replicate hk]; rfl)).2
  rw [h]
  simp

/-! ### C9: the enemy's sway -/

/-- C9 (amended). `Enemy.update` postcondition: after one `Enemy.update` the
angle is `angle + 0.05` and `x = initialX + 20 sin(angle)` for the angle BEFORE
the advance (the assignment to `x` comes first); `y`, `initialX`, colour, the
deletion flag and `curve` are unchanged. -/
theorem C9_enemy_update (sin : α → α) (e : Enemy α) :
    (e.update sin).angle = e.angle + 5 / 100 ∧
    (e.update sin).x = e.initialX + 20 * sin e.angle ∧
    (e.update sin).y = e.y ∧ (e.update sin).initialX = e.initialX ∧
    (e.update sin).color = e.color ∧
    (e.update sin).markedForDeletion = e.markedForDeletion ∧
    (e.update sin).curve = e.curve := by
  refine ⟨rfl, ?_, rfl, rfl, rfl, rfl, rfl⟩
  show e.initialX + sin e.angle * 20 = e.initialX + 20 * sin e.angle
  ring

/-- C9, counterexample: a freshly constructed enemy (angle 0) under the real
sine. Its first update leaves `x = initialX + 20 sin 0 = initialX`, while the
angle becomes `0.05` and `initialX + 20 sin 0.05 > initialX`. -/
theorem C9_counterexample :
    (Enemy.update Real.sin (Enemy.new (fun _ => 0) 0 (235 : ℝ) 80)).angle = 5 / 100 ∧
    (Enemy.update Real.sin (Enemy.new (fun _ => 0) 0 (235 : ℝ) 80)).x = 235 ∧
    (Enemy.update Real.sin (Enemy.new (fun _ => 0) 0 (235 : ℝ) 80)).x ≠
      (Enemy.update Real.sin (Enemy.new (fun _ => 0) 0 (235 : ℝ) 80)).initialX +
        20 * Real.sin (Enemy.update Real.sin (Enemy.new (fun _ => 0) 0 (235 : ℝ) 80)).angle := by
  have ha : (Enemy.update Real.sin (Enemy.new (fun _ => 0) 0 (235 : ℝ) 80)).angle = 5 / 100 := by
    simp [Enemy.update, Enemy.new]
  have hx : (Enemy.update Real.sin (Enemy.new (fun _ => 0) 0 (235 : ℝ) 80)).x = 235 := by
    simp [Enemy.update, Enemy.new]
  have hi : (Enemy.update Real.sin (Enemy.new (fun _ => 0) 0 (235 : ℝ) 80)).initialX = 235 := rfl
  refine ⟨ha, hx, ?_⟩
  rw [hx, hi, ha]
  have hpos : 0 < Real.sin (5 / 100) :=
    Real.sin_pos_of_pos_of_lt_pi (by norm_num) (by linarith [Real.pi_gt_three])
  linarith

/-! ### C10: no update outside Active -/

/-- C10. Update is a no-op outside Active: when `gameActive = false` (Idle or
Over), `update(dt)` returns the state unchanged, whatever the keys: player,
bullets, enemies, particles, score, highScore, flags, and the queue of respawn
timers are all identical. -/
theorem C10_update_noop (sin : α → α) (random : Nat → α) (dt : α) (g : Game α)
    (h : g.gameActive = false) : g.update sin random dt = g := by
  unfold Game.update
  rw [if_pos h]

/-- C10, witness: the game as constructed (Idle) with the fire key held. -/
theorem C10_update_noop_witness :
    ((Game.new 300 150 800 600 none : Game ℝ).setKeys Keys.fire).gameActive = false ∧
    ((Game.new 300 150 800 600 none : Game ℝ).setKeys Keys.fire).update Real.sin
        (fun _ => 1 / 2) 16 = (Game.new 300 150 800 600 none : Game ℝ).setKeys Keys.fire :=
  ⟨rfl, C10_update_noop Real.sin (fun _ => 1 / 2) 16 _ rfl⟩

/-! ### Bullets hit enemies -/

theorem Game.explode_eq (random : Nat → α) (e : Enemy α) (g : Game α) :
    g.explode random e =
      { g with
        particles := g.particles ++ (List.range 8).map fun i =>
          Particle.new random (g.randomCalls + 4 * i) (e.x + e.width / 2) (e.y + e.height / 2)
            e.color
        randomCalls := g.randomCalls + 32 } := by
  simp [Game.explode, List.range, List.range.loop]

theorem Game.Destroyed.destroyed_refl (g : Game α) : Game.Destroyed g g [] := by
  refine ⟨by simp, ⟨[], by simp, by simp⟩, by simp, by simp, rfl, rfl, rfl, rfl, rfl, rfl, rfl,
    rfl, rfl⟩

theorem Game.Destroyed.destroyed_trans {g g1 g2 : Game α} {k1 k2 : List (Enemy α)}
    (h1 : Game.Destroyed g g1 k1) (h2 : Game.Destroyed g1 g2 k2) :
    Game.Destroyed g g2 (k1 ++ k2) := by
  obtain ⟨a1, ⟨p1, a2, a3⟩, a4, a5, a6, a7, a8, a9, a10, a11, a12, a13, a14⟩ := h1
  obtain ⟨b1, ⟨p2, b2, b3⟩, b4, b5, b6, b7, b8, b9, b10, b11, b12, b13, b14⟩ := h2
  refine ⟨?_, ⟨p1 ++ p2, ?_, ?_⟩, ?_, ?_, by rw [b6, a6], by rw [b7, a7], by rw [b8, a8],
    by rw [b9, a9], by rw [b10, a10], by rw [b11, a11], by rw [b12, a12], by rw [b13, a13],
    by rw [b14, a14]⟩
  · rw [b1, a1, List.length_append]; ring
  · rw [b2, a2, List.append_assoc]
  · rw [List.map_append, a3, b3, List.flatMap_append]
  · rw [b4, a4, a1, List.length_append, List.range_add, List.map_append, List.append_assoc,
      List.map_map]
    congr 2
    apply List.map_congr_left
    intro i _
    simp only [Function.comp]
    congr 1
    ring
  · rw [b5, a5, List.length_append]; ring

theorem Game.hit_of_not (random : Nat → α) (g : Game α) (b : Bullet α) (e : Enemy α)
    (h : ¬ (b.markedForDeletion = false ∧ e.markedForDeletion = false ∧ b.overlaps e)) :
    Game.hit random g b e = (g, b, e) := by
  unfold Game.hit
  rw [if_neg h]

/-- A hit: the pair is marked, and the game has destroyed exactly this enemy. -/
theorem Game.hit_of_overlap (random : Nat → α) (g : Game α) (b : Bullet α) (e : Enemy α)
    (h : b.markedForDeletion = false ∧ e.markedForDeletion = false ∧ b.overlaps e) :
    Game.Destroyed g (Game.hit random g b e).1 [e] ∧
      (Game.hit random g b e).2.1 = { b with markedForDeletion := true } ∧
      (Game.hit random g b e).2.2 = { e with markedForDeletion := true } := by
  unfold Game.hit
  rw [if_pos h]
  refine ⟨⟨?_, ⟨(List.range 8).map fun i =>
      Particle.new random (g.randomCalls + 4 * i) (e.x + 30 / 2) (e.y + 30 / 2) e.color, ?_, ?_⟩,
    ?_, ?_, ?_, ?_, ?_, ?_, ?_, ?_, ?_, ?_, ?_⟩, rfl, rfl⟩
  · simp [Game.explode_eq]
  · simp [Game.explode_eq, Enemy.width, Enemy.height]
  · simp [Particle.origin, Particle.new, Enemy.burst, List.range, List.range.loop,
      List.replicate]
    norm_num
  · simp [Game.explode_eq, List.range, List.range.loop]
  all_goals simp [Game.explode_eq]

theorem Bullet.MarkedFrom.bullet_refl (b : Bullet α) : Bullet.MarkedFrom b b :=
  ⟨rfl, fun h => h⟩

theorem Enemy.MarkedFrom.enemy_refl (e : Enemy α) : Enemy.MarkedFrom e e :=
  ⟨rfl, fun h => h⟩

theorem Bullet.MarkedFrom.bullet_trans {b b1 b2 : Bullet α} (h1 : Bullet.MarkedFrom b b1)
    (h2 : Bullet.MarkedFrom b1 b2) : Bullet.MarkedFrom b b2 := by
  obtain ⟨e1, m1⟩ := h1
  obtain ⟨e2, m2⟩ := h2
  refine ⟨?_, fun h => m2 (m1 h)⟩
  rw [e2, e1]

theorem Enemy.MarkedFrom.enemy_trans {e e1 e2 : Enemy α} (h1 : Enemy.MarkedFrom e e1)
    (h2 : Enemy.MarkedFrom e1 e2) : Enemy.MarkedFrom e e2 := by
  obtain ⟨q1, m1⟩ := h1
  obtain ⟨q2, m2⟩ := h2
  refine ⟨?_, fun h => m2 (m1 h)⟩
  rw [q2, q1]

/-- An enemy still unmarked after some marking is the enemy it was. -/
theorem Enemy.MarkedFrom.eq_of_unmarked {e e1 : Enemy α} (h : Enemy.MarkedFrom e e1)
    (hu : e1.markedForDeletion = false) : e1 = e ∧ e.markedForDeletion = false := by
  obtain ⟨q, m⟩ := h
  have he : e.markedForDeletion = false := by
    cases hm : e.markedForDeletion
    · rfl
    · rw [m hm] at hu; exact absurd hu (by simp)
  refine ⟨?_, he⟩
  rw [q, hu, ← he]

theorem Enemy.enemies_markedFrom_refl (es : List (Enemy α)) :
    List.Forall₂ Enemy.MarkedFrom es es :=
  List.forall₂_same.mpr (fun e _ => Enemy.MarkedFrom.enemy_refl e)

theorem Bullet.bullets_markedFrom_refl (bs : List (Bullet α)) :
    List.Forall₂ Bullet.MarkedFrom bs bs :=
  List.forall₂_same.mpr (fun b _ => Bullet.MarkedFrom.bullet_refl b)

theorem Enemy.enemies_markedFrom_trans {es es1 es2 : List (Enemy α)}
    (h1 : List.Forall₂ Enemy.MarkedFrom es es1) (h2 : List.Forall₂ Enemy.MarkedFrom es1 es2) :
    List.Forall₂ Enemy.MarkedFrom es es2 := by
  induction h1 generalizing es2 with
  | nil => cases h2; exact List.Forall₂.nil
  | cons hab _ ih =>
    cases h2 with
    | cons hbc htl => exact List.Forall₂.cons (hab.enemy_trans hbc) (ih htl)

/-- An enemy unmarked after some marking of the collection was in the collection,
unmarked. -/
theorem Enemy.mem_of_enemies_markedFrom {es es1 : List (Enemy α)}
    (h : List.Forall₂ Enemy.MarkedFrom es es1) {e : Enemy α} (he : e ∈ es1)
    (hu : e.markedForDeletion = false) : e ∈ es ∧ e.markedForDeletion = false := by
  induction h with
  | nil => exact absurd he (List.not_mem_nil _)
  | @cons a b l l1 hab _ ih =>
    rcases List.mem_cons.mp he with rfl | hmem
    · have := hab.eq_of_unmarked hu
      exact ⟨by rw [this.1]; exact List.mem_cons_self _ _, hu⟩
    · exact ⟨List.mem_cons_of_mem _ (ih hmem).1, hu⟩

theorem Enemy.marked_enemies_cons (e : Enemy α) (es : List (Enemy α)) :
    Enemy.marked (e :: es) = (if e.markedForDeletion = true then 1 else 0) + Enemy.marked es := by
  unfold Enemy.marked
  rw [List.countP_cons, Nat.add_comm]

theorem Bullet.marked_bullets_cons (b : Bullet α) (bs : List (Bullet α)) :
    Bullet.marked (b :: bs) =
      (if b.markedForDeletion = true then 1 else 0) + Bullet.marked bs := by
  unfold Bullet.marked
  rw [List.countP_cons, Nat.add_comm]

theorem Bullet.marked_singleton (b : Bullet α) :
    Bullet.marked [b] = if b.markedForDeletion = true then 1 else 0 := by
  rw [Bullet.marked_bullets_cons]; rfl

theorem Enemy.raised_cons (e e1 : Enemy α) (es es1 : List (Enemy α)) :
    Enemy.raised (e :: es) (e1 :: es1) =
      (if e.markedForDeletion = false ∧ e1.markedForDeletion = true then [e] else []) ++
        Enemy.raised es es1 := by
  unfold Enemy.raised
  rw [List.zip_cons_cons, List.filter_cons]
  cases h1 : e.markedForDeletion <;> cases h2 : e1.markedForDeletion <;> simp

/-- Nothing is raised from a collection to itself. -/
theorem Enemy.raised_self (es : List (Enemy α)) : Enemy.raised es es = [] := by
  induction es with
  | nil => rfl
  | cons e es ih =>
    rw [Enemy.raised_cons, ih]
    cases h : e.markedForDeletion <;> simp

/-- The flags raised by two passes in a row are, up to order, the flags raised
from the first collection to the last. -/
theorem Enemy.raised_append_perm {es es1 es2 : List (Enemy α)}
    (h1 : List.Forall₂ Enemy.MarkedFrom es es1) (h2 : List.Forall₂ Enemy.MarkedFrom es1 es2) :
    (Enemy.raised es es1 ++ Enemy.raised es1 es2).Perm (Enemy.raised es es2) := by
  induction h1 generalizing es2 with
  | nil =>
    cases h2
    exact List.Perm.refl _
  | @cons a b l l1 hab _ ih =>
    cases h2 with
    | @cons _ c _ l2 hbc htl =>
      have ihp := ih htl
      rw [Enemy.raised_cons, Enemy.raised_cons, Enemy.raised_cons]
      by_cases ha : a.markedForDeletion = true
      · have hb : b.markedForDeletion = true := hab.2 ha
        have hc : c.markedForDeletion = true := hbc.2 hb
        simp only [ha, hb, hc, Bool.true_eq_false, false_and, if_false, List.nil_append]
        exact ihp
      · have ha' : a.markedForDeletion = false := by simpa using ha
        by_cases hb : b.markedForDeletion = true
        · have hc : c.markedForDeletion = true := hbc.2 hb
          simp only [ha', hb, hc, Bool.true_eq_false, false_and, and_self, if_true, if_false,
            List.nil_append, List.singleton_append, List.cons_append]
          exact List.Perm.cons a ihp
        · have hb' : b.markedForDeletion = false := by simpa using hb
          have hba : b = a := (hab.eq_of_unmarked hb').1
          by_cases hc : c.markedForDeletion = true
          · simp only [ha', hb', hc, Bool.false_eq_true, and_false, and_self, if_true, if_false,
              List.nil_append, List.singleton_append, hba]
            exact List.perm_middle.trans (List.Perm.cons a ihp)
          · have hc' : c.markedForDeletion = false := by simpa using hc
            simp only [ha', hb', hc', Bool.false_eq_true, and_false, if_false, List.nil_append]
            exact ihp

theorem Game.hitEnemies_cons (random : Nat → α) (g : Game α) (b : Bullet α) (e : Enemy α)
    (es : List (Enemy α)) :
    Game.hitEnemies random g b (e :: es) =
      ((Game.hitEnemies random (Game.hit random g b e).1 (Game.hit random g b e).2.1 es).1,
       (Game.hitEnemies random (Game.hit random g b e).1 (Game.hit random g b e).2.1 es).2.1,
       (Game.hit random g b e).2.2 ::
        (Game.hitEnemies random (Game.hit random g b e).1 (Game.hit random g b e).2.1 es).2.2) :=
  rfl

theorem Game.hitBullets_cons (random : Nat → α) (g : Game α) (b : Bullet α)
    (bs : List (Bullet α)) (es : List (Enemy α)) :
    Game.hitBullets random g (b :: bs) es =
      ((Game.hitBullets random (Game.hitEnemies random g b es).1 bs
          (Game.hitEnemies random g b es).2.2).1,
       (Game.hitEnemies random g b es).2.1 ::
        (Game.hitBullets random (Game.hitEnemies random g b es).1 bs
          (Game.hitEnemies random g b es).2.2).2.1,
       (Game.hitBullets random (Game.hitEnemies random g b es).1 bs
          (Game.hitEnemies random g b es).2.2).2.2) :=
  rfl

/-- The inner loop for one bullet: the enemies it destroys (none or one), and the
marks it leaves. -/
theorem Game.hitEnemies_raised (random : Nat → α) (g : Game α) (b : Bullet α)
    (es : List (Enemy α)) :
    ∃ kills : List (Enemy α),
      Game.Destroyed g (Game.hitEnemies random g b es).1 kills ∧
      Bullet.MarkedFrom b (Game.hitEnemies random g b es).2.1 ∧
      Bullet.marked [(Game.hitEnemies random g b es).2.1] = Bullet.marked [b] + kills.length ∧
      List.Forall₂ Enemy.MarkedFrom es (Game.hitEnemies random g b es).2.2 ∧
      Enemy.marked (Game.hitEnemies random g b es).2.2 = Enemy.marked es + kills.length ∧
      (∀ e ∈ kills, e ∈ es ∧ e.markedForDeletion = false) ∧
      Enemy.raised es (Game.hitEnemies random g b es).2.2 = kills := by
  induction es generalizing g b with
  | nil =>
    exact ⟨[], Game.Destroyed.destroyed_refl g, Bullet.MarkedFrom.bullet_refl b, rfl, List.Forall₂.nil, rfl,
      by simp, rfl⟩
  | cons e es ih =>
    rw [Game.hitEnemies_cons]
    by_cases h : b.markedForDeletion = false ∧ e.markedForDeletion = false ∧ b.overlaps e
    · obtain ⟨hd, hb, he⟩ := Game.hit_of_overlap random g b e h
      obtain ⟨k2, d2, mb2, cb2, fe2, ce2, mem2, rz2⟩ :=
        ih (Game.hit random g b e).1 (Game.hit random g b e).2.1
      refine ⟨e :: k2, hd.destroyed_trans d2, ?_, ?_, ?_, ?_, ?_, ?_⟩
      rotate_left 5
      · show Enemy.raised (e :: es) (_ :: _) = e :: k2
        rw [Enemy.raised_cons, he, ← rz2]
        simp [h.2.1]
      · refine Bullet.MarkedFrom.bullet_trans ?_ mb2
        rw [hb]
        exact ⟨rfl, fun _ => rfl⟩
      · rw [cb2, hb, Bullet.marked_singleton, Bullet.marked_singleton, h.1]
        simp only [List.length_cons]
        simp
        omega
      · refine List.Forall₂.cons ?_ fe2
        rw [he]
        exact ⟨rfl, fun _ => rfl⟩
      · simp only [Enemy.marked_enemies_cons, ce2, he, h.2.1, List.length_cons]
        simp
        omega
      · intro x hx
        rcases List.mem_cons.mp hx with rfl | hx
        · exact ⟨List.mem_cons_self _ _, h.2.1⟩
        · exact ⟨List.mem_cons_of_mem _ (mem2 x hx).1, (mem2 x hx).2⟩
    · rw [Game.hit_of_not random g b e h]
      obtain ⟨k2, d2, mb2, cb2, fe2, ce2, mem2, rz2⟩ := ih g b
      refine ⟨k2, d2, mb2, cb2, List.Forall₂.cons (Enemy.MarkedFrom.enemy_refl e) fe2, ?_, ?_, ?_⟩
      · simp only [Enemy.marked_enemies_cons, ce2]
        omega
      · intro x hx
        exact ⟨List.mem_cons_of_mem _ (mem2 x hx).1, (mem2 x hx).2⟩
      · show Enemy.raised (e :: es) (e :: _) = k2
        rw [Enemy.raised_cons, ← rz2]
        cases hm : e.markedForDeletion <;> simp

/-- The inner loop for one bullet: the enemies it destroys (none or one), and the
marks it leaves. -/
theorem Game.hitEnemies_spec (random : Nat → α) (g : Game α) (b : Bullet α)
    (es : List (Enemy α)) :
    ∃ kills : List (Enemy α),
      Game.Destroyed g (Game.hitEnemies random g b es).1 kills ∧
      Bullet.MarkedFrom b (Game.hitEnemies random g b es).2.1 ∧
      Bullet.marked [(Game.hitEnemies random g b es).2.1] = Bullet.marked [b] + kills.length ∧
      List.Forall₂ Enemy.MarkedFrom es (Game.hitEnemies random g b es).2.2 ∧
      Enemy.marked (Game.hitEnemies random g b es).2.2 = Enemy.marked es + kills.length ∧
      ∀ e ∈ kills, e ∈ es ∧ e.markedForDeletion = false := by
  obtain ⟨k, h1, h2, h3, h4, h5, h6, _⟩ := Game.hitEnemies_raised random g b es
  exact ⟨k, h1, h2, h3, h4, h5, h6⟩

/-- The outer loop over the bullets: the enemies destroyed by the pass, in order
of destruction, are up to order the enemies whose flag the pass has raised. -/
theorem Game.hitBullets_raised (random : Nat → α) (g : Game α) (bs : List (Bullet α))
    (es : List (Enemy α)) :
    ∃ kills : List (Enemy α),
      Game.Destroyed g (Game.hitBullets random g bs es).1 kills ∧
      List.Forall₂ Bullet.MarkedFrom bs (Game.hitBullets random g bs es).2.1 ∧
      Bullet.marked (Game.hitBullets random g bs es).2.1 = Bullet.marked bs + kills.length ∧
      List.Forall₂ Enemy.MarkedFrom es (Game.hitBullets random g bs es).2.2 ∧
      Enemy.marked (Game.hitBullets random g bs es).2.2 = Enemy.marked es + kills.length ∧
      (∀ e ∈ kills, e ∈ es ∧ e.markedForDeletion = false) ∧
      kills.Perm (Enemy.raised es (Game.hitBullets random g bs es).2.2) := by
  induction bs generalizing g es with
  | nil =>
    refine ⟨[], Game.Destroyed.destroyed_refl g, List.Forall₂.nil, rfl,
      Enemy.enemies_markedFrom_refl es, rfl, by simp, ?_⟩
    show List.Perm [] (Enemy.raised es es)
    rw [Enemy.raised_self]
  | cons b bs ih =>
    rw [Game.hitBullets_cons]
    obtain ⟨k1, d1, mb1, cb1, fe1, ce1, mem1, rz1⟩ := Game.hitEnemies_raised random g b es
    obtain ⟨k2, d2, fb2, cb2, fe2, ce2, mem2, rz2⟩ :=
      ih (Game.hitEnemies random g b es).1 (Game.hitEnemies random g b es).2.2
    refine ⟨k1 ++ k2, d1.destroyed_trans d2, List.Forall₂.cons mb1 fb2, ?_,
      Enemy.enemies_markedFrom_trans fe1 fe2, ?_, ?_, ?_⟩
    · rw [Bullet.marked_bullets_cons, cb2, Bullet.marked_bullets_cons, List.length_append]
      rw [Bullet.marked_singleton, Bullet.marked_singleton] at cb1
      omega
    · rw [ce2, ce1, List.length_append]
      omega
    · intro x hx
      rcases List.mem_append.mp hx with hx | hx
      · exact mem1 x hx
      · exact Enemy.mem_of_enemies_markedFrom fe1 (mem2 x hx).1 (mem2 x hx).2
    · rw [← rz1]
      exact (List.Perm.append_left _ rz2).trans (Enemy.raised_append_perm fe1 fe2)

/-- The outer loop over the bullets: the enemies destroyed by the pass, in order,
and the marks it leaves on both collections. -/
theorem Game.hitBullets_spec (random : Nat → α) (g : Game α) (bs : List (Bullet α))
    (es : List (Enemy α)) :
    ∃ kills : List (Enemy α),
      Game.Destroyed g (Game.hitBullets random g bs es).1 kills ∧
      List.Forall₂ Bullet.MarkedFrom bs (Game.hitBullets random g bs es).2.1 ∧
      Bullet.marked (Game.hitBullets random g bs es).2.1 = Bullet.marked bs + kills.length ∧
      List.Forall₂ Enemy.MarkedFrom es (Game.hitBullets random g bs es).2.2 ∧
      Enemy.marked (Game.hitBullets random g bs es).2.2 = Enemy.marked es + kills.length ∧
      ∀ e ∈ kills, e ∈ es ∧ e.markedForDeletion = false := by
  obtain ⟨k, h1, h2, h3, h4, h5, h6, _⟩ := Game.hitBullets_raised random g bs es
  exact ⟨k, h1, h2, h3, h4, h5, h6⟩

theorem Bullet.bullets_length_of_markedFrom {bs bs1 : List (Bullet α)}
    (h : List.Forall₂ Bullet.MarkedFrom bs bs1) : bs1.length = bs.length :=
  h.length_eq.symm

theorem Enemy.enemies_length_of_markedFrom {es es1 : List (Enemy α)}
    (h : List.Forall₂ Enemy.MarkedFrom es es1) : es1.length = es.length :=
  h.length_eq.symm

/-- The first phase of `checkCollisions` as a whole. -/
theorem Game.bulletsHitEnemies_spec (random : Nat → α) (g : Game α) :
    ∃ kills : List (Enemy α),
      Game.Destroyed g (g.bulletsHitEnemies random) kills ∧
      List.Forall₂ Bullet.MarkedFrom g.bullets (g.bulletsHitEnemies random).bullets ∧
      Bullet.marked (g.bulletsHitEnemies random).bullets = Bullet.marked g.bullets + kills.length ∧
      List.Forall₂ Enemy.MarkedFrom g.enemies (g.bulletsHitEnemies random).enemies ∧
      Enemy.marked (g.bulletsHitEnemies random).enemies = Enemy.marked g.enemies + kills.length ∧
      ∀ e ∈ kills, e ∈ g.enemies ∧ e.markedForDeletion = false := by
  obtain ⟨k, d, fb, cb, fe, ce, mem⟩ := Game.hitBullets_spec random g g.bullets g.enemies
  exact ⟨k, d, fb, cb, fe, ce, mem⟩

/-! ### Game over -/

theorem Game.endGame_ended (g : Game α) : Game.Ended g g.endGame := by
  unfold Game.endGame Game.Ended
  by_cases h : g.score > g.highScore
  · simp [h, max_eq_right (le_of_lt h)]
  · simp [h, max_eq_left (not_lt.mp h)]

/-- Ending a game that has already ended in the same pass changes neither the
high score nor the store. -/
theorem Game.Ended.endGame {g r : Game α} (h : Game.Ended g r) : Game.Ended g r.endGame := by
  obtain ⟨_, _, h3, h4, h5, h6, h7, h8, h9, h10, h11, h12, h13, h14⟩ := h
  obtain ⟨e1, e2, e3, e4, e5, e6, e7, e8, e9, e10, e11, e12, e13, e14⟩ := Game.endGame_ended r
  have hle : r.score ≤ r.highScore := by rw [h3, h5]; exact le_max_right _ _
  refine ⟨e1, e2, ?_, ?_, by rw [e5, h5], by rw [e6, h6], by rw [e7, h7], by rw [e8, h8],
    by rw [e9, h9], by rw [e10, h10], by rw [e11, h11], by rw [e12, h12], by rw [e13, h13],
    by rw [e14, h14]⟩
  · rw [e3, max_eq_left hle, h3]
  · rw [e4, if_neg (not_lt.mpr hle), List.append_nil, h4]

/-- The scan of the enemies against the player, over any list of enemies: either
nothing happened, or the game has ended; it has ended exactly when some
unmarked enemy of the list overlaps the player. -/
theorem Game.foldl_endGame (es : List (Enemy α)) (g r : Game α) (hr : r = g ∨ Game.Ended g r) :
    (es.foldl (fun g e =>
        if e.markedForDeletion = false ∧ e.overlapsPlayer g.player then g.endGame else g) r = r ∨
      Game.Ended g (es.foldl (fun g e =>
        if e.markedForDeletion = false ∧ e.overlapsPlayer g.player then g.endGame else g) r)) ∧
    ((∃ e ∈ es, e.markedForDeletion = false ∧ e.overlapsPlayer g.player) →
      Game.Ended g (es.foldl (fun g e =>
        if e.markedForDeletion = false ∧ e.overlapsPlayer g.player then g.endGame else g) r)) ∧
    ((¬ ∃ e ∈ es, e.markedForDeletion = false ∧ e.overlapsPlayer g.player) →
      es.foldl (fun g e =>
        if e.markedForDeletion = false ∧ e.overlapsPlayer g.player then g.endGame else g) r
        = r) := by
  induction es generalizing r with
  | nil => exact ⟨Or.inl rfl, fun ⟨e, he, _⟩ => absurd he (List.not_mem_nil _), fun _ => rfl⟩
  | cons e es ih =>
    have hp : r.player = g.player := by
      rcases hr with rfl | h
      · rfl
      · exact h.2.2.2.2.2.2.2.2.1
    rw [List.foldl_cons, hp]
    by_cases c : e.markedForDeletion = false ∧ e.overlapsPlayer g.player
    · rw [if_pos c]
      have hend : Game.Ended g r.endGame := by
        rcases hr with rfl | h
        · exact Game.endGame_ended _
        · exact h.endGame
      obtain ⟨i1, _, _⟩ := ih r.endGame (Or.inr hend)
      have hfin : Game.Ended g (es.foldl (fun g e =>
          if e.markedForDeletion = false ∧ e.overlapsPlayer g.player then g.endGame else g)
          r.endGame) := by
        rcases i1 with h | h
        · rw [h]; exact hend
        · exact h
      exact ⟨Or.inr hfin, fun _ => hfin, fun hn => absurd ⟨e, List.mem_cons_self _ _, c⟩ hn⟩
    · rw [if_neg c]
      obtain ⟨i1, i2, i3⟩ := ih r hr
      refine ⟨i1, ?_, ?_⟩
      · rintro ⟨x, hx, hc⟩
        rcases List.mem_cons.mp hx with rfl | hx
        · exact absurd hc c
        · exact i2 ⟨x, hx, hc⟩
      · intro hn
        exact i3 (fun ⟨x, hx, hc⟩ => hn ⟨x, List.mem_cons_of_mem _ hx, hc⟩)

/-- "Enemies hit Player": the game ends if some unmarked enemy overlaps the
player, and nothing changes otherwise. -/
theorem Game.enemiesHitPlayer_spec (g : Game α) :
    ((∃ e ∈ g.enemies, e.markedForDeletion = false ∧ e.overlapsPlayer g.player) →
      Game.Ended g g.enemiesHitPlayer) ∧
    ((¬ ∃ e ∈ g.enemies, e.markedForDeletion = false ∧ e.overlapsPlayer g.player) →
      g.enemiesHitPlayer = g) :=
  (Game.foldl_endGame g.enemies g g (Or.inl rfl)).2

theorem Game.winCondition_timers (g : Game α) :
    g.winCondition = { g with timers := g.winCondition.timers } := by
  unfold Game.winCondition
  split <;> rfl

/-- The first phase of `checkCollisions` as a whole, with the enemies it destroys
tied to the flags it raises. -/
theorem Game.bulletsHitEnemies_raised (random : Nat → α) (g : Game α) :
    ∃ kills : List (Enemy α),
      Game.Destroyed g (g.bulletsHitEnemies random) kills ∧
      List.Forall₂ Bullet.MarkedFrom g.bullets (g.bulletsHitEnemies random).bullets ∧
      Bullet.marked (g.bulletsHitEnemies random).bullets = Bullet.marked g.bullets + kills.length ∧
      List.Forall₂ Enemy.MarkedFrom g.enemies (g.bulletsHitEnemies random).enemies ∧
      Enemy.marked (g.bulletsHitEnemies random).enemies = Enemy.marked g.enemies + kills.length ∧
      (∀ e ∈ kills, e ∈ g.enemies ∧ e.markedForDeletion = false) ∧
      kills.Perm (Enemy.raised g.enemies (g.bulletsHitEnemies random).enemies) := by
  obtain ⟨k, d, fb, cb, fe, ce, mem, rz⟩ := Game.hitBullets_raised random g g.bullets g.enemies
  exact ⟨k, d, fb, cb, fe, ce, mem, rz⟩

/-- The second and third phases of `checkCollisions` leave the score and the
three collections as the first phase left them. -/
theorem Game.checkCollisions_entities (random : Nat → α) (g : Game α) :
    (g.checkCollisions random).score = (g.bulletsHitEnemies random).score ∧
    (g.checkCollisions random).bullets = (g.bulletsHitEnemies random).bullets ∧
    (g.checkCollisions random).particles = (g.bulletsHitEnemies random).particles ∧
    (g.checkCollisions random).enemies = (g.bulletsHitEnemies random).enemies := by
  unfold Game.checkCollisions
  rw [Game.winCondition_timers]
  simp only []
  rcases (Game.foldl_endGame (g.bulletsHitEnemies random).enemies (g.bulletsHitEnemies random)
    (g.bulletsHitEnemies random) (Or.inl rfl)).1 with h | h
  · have h' : (g.bulletsHitEnemies random).enemiesHitPlayer = g.bulletsHitEnemies random := h
    rw [h']
    exact ⟨rfl, rfl, rfl, rfl⟩
  · have h' : Game.Ended (g.bulletsHitEnemies random)
      (g.bulletsHitEnemies random).enemiesHitPlayer := h
    exact ⟨h'.2.2.2.2.1, h'.2.2.2.2.2.1, h'.2.2.2.2.2.2.1, h'.2.2.2.2.2.2.2.1⟩

/-- When the first phase leaves every enemy marked, the pass does not end the
game. -/
theorem Game.checkCollisions_gameActive (random : Nat → α) (g : Game α)
    (h : ∀ e ∈ (g.bulletsHitEnemies random).enemies, e.markedForDeletion = true) :
    (g.checkCollisions random).gameActive = g.gameActive ∧
      (g.checkCollisions random).gameOver = g.gameOver := by
  obtain ⟨kills, d, _⟩ := Game.bulletsHitEnemies_spec random g
  have hno : ¬ ∃ e ∈ (g.bulletsHitEnemies random).enemies,
      e.markedForDeletion = false ∧ e.overlapsPlayer (g.bulletsHitEnemies random).player := by
    rintro ⟨e, he, hu, _⟩
    rw [h e he] at hu
    exact absurd hu (by simp)
  have hsame := (Game.enemiesHitPlayer_spec (g.bulletsHitEnemies random)).2 hno
  unfold Game.checkCollisions
  rw [hsame, Game.winCondition_timers]
  exact ⟨d.2.2.2.2.2.2.2.2.1, d.2.2.2.2.2.2.2.1⟩

/-! ### A pass with marked entities -/

theorem Game.hitEnemies_of_marked (random : Nat → α) (g : Game α) (b : Bullet α)
    (es : List (Enemy α)) (hb : b.markedForDeletion = true) :
    Game.hitEnemies random g b es = (g, b, es) := by
  induction es with
  | nil => rfl
  | cons e es ih =>
    rw [Game.hitEnemies_cons, Game.hit_of_not random g b e (by simp [hb]), ih]

theorem Game.hitEnemies_of_all_marked (random : Nat → α) (g : Game α) (b : Bullet α)
    (es : List (Enemy α)) (hes : ∀ e ∈ es, e.markedForDeletion = true) :
    Game.hitEnemies random g b es = (g, b, es) := by
  induction es with
  | nil => rfl
  | cons e es ih =>
    rw [Game.hitEnemies_cons,
      Game.hit_of_not random g b e (by simp [hes e (List.mem_cons_self _ _)]),
      ih (fun x hx => hes x (List.mem_cons_of_mem _ hx))]

theorem Game.hitBullets_of_all_marked (random : Nat → α) (g : Game α) (bs : List (Bullet α))
    (es : List (Enemy α)) (hbs : ∀ b ∈ bs, b.markedForDeletion = true) :
    Game.hitBullets random g bs es = (g, bs, es) := by
  induction bs with
  | nil => rfl
  | cons b bs ih =>
    rw [Game.hitBullets_cons,
      Game.hitEnemies_of_marked random g b es (hbs b (List.mem_cons_self _ _)),
      ih (fun x hx => hbs x (List.mem_cons_of_mem _ hx))]

theorem Game.hitEnemies_append (random : Nat → α) (g : Game α) (b : Bullet α)
    (es1 es2 : List (Enemy α)) :
    Game.hitEnemies random g b (es1 ++ es2) =
      ((Game.hitEnemies random (Game.hitEnemies random g b es1).1
          (Game.hitEnemies random g b es1).2.1 es2).1,
       (Game.hitEnemies random (Game.hitEnemies random g b es1).1
          (Game.hitEnemies random g b es1).2.1 es2).2.1,
       (Game.hitEnemies random g b es1).2.2 ++
        (Game.hitEnemies random (Game.hitEnemies random g b es1).1
          (Game.hitEnemies random g b es1).2.1 es2).2.2) := by
  induction es1 generalizing g b with
  | nil => rfl
  | cons e es1 ih =>
    rw [List.cons_append, Game.hitEnemies_cons, ih, Game.hitEnemies_cons]
    rfl

theorem Game.hitBullets_append (random : Nat → α) (g : Game α) (bs1 bs2 : List (Bullet α))
    (es : List (Enemy α)) :
    Game.hitBullets random g (bs1 ++ bs2) es =
      ((Game.hitBullets random (Game.hitBullets random g bs1 es).1 bs2
          (Game.hitBullets random g bs1 es).2.2).1,
       (Game.hitBullets random g bs1 es).2.1 ++
        (Game.hitBullets random (Game.hitBullets random g bs1 es).1 bs2
          (Game.hitBullets random g bs1 es).2.2).2.1,
       (Game.hitBullets random (Game.hitBullets random g bs1 es).1 bs2
          (Game.hitBullets random g bs1 es).2.2).2.2) := by
  induction bs1 generalizing g es with
  | nil => rfl
  | cons b bs1 ih =>
    rw [List.cons_append, Game.hitBullets_cons, ih, Game.hitBullets_cons]
    rfl

/-- One unmarked bullet and one unmarked enemy, overlapping, among marked ones:
the pass is the single hit of this pair. -/
theorem Game.hitBullets_single (random : Nat → α) (g : Game α) (bs1 bs2 : List (Bullet α))
    (b : Bullet α) (es1 es2 : List (Enemy α)) (e : Enemy α)
    (hbs : ∀ x ∈ bs1 ++ bs2, x.markedForDeletion = true)
    (hes : ∀ x ∈ es1 ++ es2, x.markedForDeletion = true)
    (h : b.markedForDeletion = false ∧ e.markedForDeletion = false ∧ b.overlaps e) :
    Game.hitBullets random g (bs1 ++ b :: bs2) (es1 ++ e :: es2) =
      ((Game.hit random g b e).1,
       bs1 ++ { b with markedForDeletion := true } :: bs2,
       es1 ++ { e with markedForDeletion := true } :: es2) := by
  have hb1 : ∀ x ∈ bs1, x.markedForDeletion = true :=
    fun x hx => hbs x (List.mem_append_left _ hx)
  have hb2 : ∀ x ∈ bs2, x.markedForDeletion = true :=
    fun x hx => hbs x (List.mem_append_right _ hx)
  have he1 : ∀ x ∈ es1, x.markedForDeletion = true :=
    fun x hx => hes x (List.mem_append_left _ hx)
  have he2 : ∀ x ∈ es2, x.markedForDeletion = true :=
    fun x hx => hes x (List.mem_append_right _ hx)
  obtain ⟨_, hb, he⟩ := Game.hit_of_overlap random g b e h
  have inner : Game.hitEnemies random g b (es1 ++ e :: es2) =
      ((Game.hit random g b e).1, { b with markedForDeletion := true },
        es1 ++ { e with markedForDeletion := true } :: es2) := by
    rw [Game.hitEnemies_append, Game.hitEnemies_of_all_marked random g b es1 he1]
    simp only []
    rw [Game.hitEnemies_cons, hb, he, Game.hitEnemies_of_marked random _ _ es2 rfl]
  rw [Game.hitBullets_append, Game.hitBullets_of_all_marked random g bs1 _ hb1]
  simp only []
  rw [Game.hitBullets_cons, inner]
  simp only []
  rw [Game.hitBullets_of_all_marked random _ bs2 _ hb2]

/-! ### C3: collision accounting -/

theorem Bullet.marked_bullets_le_length (bs : List (Bullet α)) : Bullet.marked bs ≤ bs.length :=
  List.countP_le_length _

theorem Enemy.marked_enemies_le_length (es : List (Enemy α)) : Enemy.marked es ≤ es.length :=
  List.countP_le_length _

theorem Enemy.length_flatMap_burst (ks : List (Enemy α)) :
    (ks.flatMap Enemy.burst).length = 8 * ks.length := by
  induction ks with
  | nil => rfl
  | cons k ks ih =>
    rw [List.flatMap_cons, List.length_append, ih, List.length_cons]
    simp only [Enemy.burst, List.length_replicate]
    ring

/-- C3. Collision accounting: one `checkCollisions` pass destroys a list `kills`
of `k` enemies that were in the collection, unmarked: up to order (`kills` is in
order of destruction) they are exactly the enemies whose deletion flag is clear
before the pass and set after it. It marks exactly `k` bullets and exactly `k`
enemies (the collections are otherwise unchanged, no flag is lowered), with
`k <= min(#unmarked bullets, #unmarked enemies)`, increases the score by exactly
`100 k` and appends exactly `8 k` particles, the `j`-th group of eight at the
centre `(x + 15, y + 15)` of the `j`-th destroyed enemy, with its colour and
life 1. In particular, when exactly one bullet `b` and one enemy `e` are
unmarked and their boxes overlap, both become marked, eight particles are added at
the centre of `e` and the score increases by 100. -/
theorem C3_collision_accounting (random : Nat → α) (g : Game α) :
    (∃ kills : List (Enemy α),
      kills.length ≤ min (g.bullets.length - Bullet.marked g.bullets)
        (g.enemies.length - Enemy.marked g.enemies) ∧
      (∀ e ∈ kills, e ∈ g.enemies ∧ e.markedForDeletion = false) ∧
      kills.Perm (Enemy.raised g.enemies (g.checkCollisions random).enemies) ∧
      List.Forall₂ Bullet.MarkedFrom g.bullets (g.checkCollisions random).bullets ∧
      Bullet.marked (g.checkCollisions random).bullets = Bullet.marked g.bullets + kills.length ∧
      List.Forall₂ Enemy.MarkedFrom g.enemies (g.checkCollisions random).enemies ∧
      Enemy.marked (g.checkCollisions random).enemies = Enemy.marked g.enemies + kills.length ∧
      (g.checkCollisions random).score = g.score + 100 * kills.length ∧
      ∃ ps : List (Particle α),
        (g.checkCollisions random).particles = g.particles ++ ps ∧
        ps.length = 8 * kills.length ∧
        ps.map Particle.origin = kills.flatMap Enemy.burst) ∧
    (∀ (bs1 bs2 : List (Bullet α)) (b : Bullet α) (es1 es2 : List (Enemy α)) (e : Enemy α),
      g.bullets = bs1 ++ b :: bs2 → g.enemies = es1 ++ e :: es2 →
      (∀ x ∈ bs1 ++ bs2, x.markedForDeletion = true) →
      (∀ x ∈ es1 ++ es2, x.markedForDeletion = true) →
      b.markedForDeletion = false → e.markedForDeletion = false → b.overlaps e →
      (g.checkCollisions random).bullets = bs1 ++ { b with markedForDeletion := true } :: bs2 ∧
      (g.checkCollisions random).enemies = es1 ++ { e with markedForDeletion := true } :: es2 ∧
      (g.checkCollisions random).score = g.score + 100 ∧
      ∃ ps : List (Particle α),
        (g.checkCollisions random).particles = g.particles ++ ps ∧
        ps.map Particle.origin = List.replicate 8 (e.x + 15, e.y + 15, e.color, 1)) := by
  obtain ⟨hs, hb, hp, he⟩ := Game.checkCollisions_entities random g
  rw [hs, hb, hp, he]
  constructor
  · obtain ⟨kills, d, fb, cb, fe, ce, mem, rz⟩ := Game.bulletsHitEnemies_raised random g
    obtain ⟨d1, ⟨ps, d2, d3⟩, _⟩ := d
    refine ⟨kills, ?_, mem, rz, fb, cb, fe, ce, d1, ps, d2, ?_, d3⟩
    · have l1 := Bullet.marked_bullets_le_length (g.bulletsHitEnemies random).bullets
      have l2 := Enemy.marked_enemies_le_length (g.bulletsHitEnemies random).enemies
      rw [Bullet.bullets_length_of_markedFrom fb] at l1
      rw [Enemy.enemies_length_of_markedFrom fe] at l2
      rw [cb] at l1
      rw [ce] at l2
      exact le_min (by omega) (by omega)
    · have := congrArg List.length d3
      rw [List.length_map] at this
      rw [this, Enemy.length_flatMap_burst]
  · intro bs1 bs2 b es1 es2 e hbs hes hm1 hm2 hbu heu hov
    have key := Game.hitBullets_single random g bs1 bs2 b es1 es2 e hm1 hm2 ⟨hbu, heu, hov⟩
    obtain ⟨⟨d1, ⟨ps, d2, d3⟩, _⟩, _, _⟩ := Game.hit_of_overlap random g b e ⟨hbu, heu, hov⟩
    have e1 : (g.bulletsHitEnemies random).bullets =
        bs1 ++ { b with markedForDeletion := true } :: bs2 := by
      unfold Game.bulletsHitEnemies
      rw [hbs, hes, key]
    have e2 : (g.bulletsHitEnemies random).enemies =
        es1 ++ { e with markedForDeletion := true } :: es2 := by
      unfold Game.bulletsHitEnemies
      rw [hbs, hes, key]
    have e3 : (g.bulletsHitEnemies random).score = (Game.hit random g b e).1.score := by
      unfold Game.bulletsHitEnemies
      rw [hbs, hes, key]
    have e4 : (g.bulletsHitEnemies random).particles = (Game.hit random g b e).1.particles := by
      unfold Game.bulletsHitEnemies
      rw [hbs, hes, key]
    refine ⟨e1, e2, ?_, ps, ?_, ?_⟩
    · rw [e3, d1]; rfl
    · rw [e4, d2]
    · rw [d3]; simp [Enemy.burst]

/-! ### C4: game over and high score -/

/-- C4 (amended). Game over and high score: when at least one enemy that is still
unmarked after the bullet phase of the pass overlaps the Player's box,
`checkCollisions` leaves the state Over (`gameActive = false`, `gameOver = true`)
with `highScore = max(previous highScore, score)`, for the score at the end of the
pass, and the store receives that score exactly once if it beats the previous high
score and no write at all otherwise, however many enemies overlap the Player. -/
theorem C4_game_over (random : Nat → α) (g : Game α)
    (h : ∃ e ∈ (g.bulletsHitEnemies random).enemies,
      e.markedForDeletion = false ∧ e.overlapsPlayer g.player) :
    (g.checkCollisions random).gameActive = false ∧
    (g.checkCollisions random).gameOver = true ∧
    (g.checkCollisions random).highScore = max g.highScore (g.checkCollisions random).score ∧
    (g.checkCollisions random).storage = g.storage ++
      (if (g.checkCollisions random).score > g.highScore then [(g.checkCollisions random).score]
       else []) := by
  obtain ⟨kills, d, _⟩ := Game.bulletsHitEnemies_spec random g
  obtain ⟨_, _, _, _, _, _, dhs, _, _, dpl, _, dst, _⟩ := d
  rw [← dpl] at h
  have hend := (Game.enemiesHitPlayer_spec (g.bulletsHitEnemies random)).1 h
  obtain ⟨e1, e2, e3, e4, e5, _⟩ := hend
  have hs := (Game.checkCollisions_entities random g).1
  rw [hs]
  unfold Game.checkCollisions
  rw [Game.winCondition_timers]
  simp only []
  rw [dhs] at e3 e4
  rw [dst] at e4
  exact ⟨e1, e2, e3, e4⟩

theorem Game.caught_bulletsHitEnemies (random : Nat → ℚ) :
    Game.caught.bulletsHitEnemies random = Game.caught := by
  simp [Game.bulletsHitEnemies, Game.caught, Game.hitBullets, Game.sample, Game.start_eq]

/-- C4, witness: score 300 over a high score of 100, one enemy on the player. -/
theorem C4_game_over_witness :
    (∃ e ∈ (Game.caught.bulletsHitEnemies (fun _ => 1 / 2)).enemies,
      e.markedForDeletion = false ∧ e.overlapsPlayer Game.caught.player) ∧
    ((Game.caught.checkCollisions (fun _ => 1 / 2)).gameActive = false ∧
    (Game.caught.checkCollisions (fun _ => 1 / 2)).gameOver = true ∧
    (Game.caught.checkCollisions (fun _ => 1 / 2)).highScore =
      max Game.caught.highScore (Game.caught.checkCollisions (fun _ => 1 / 2)).score ∧
    (Game.caught.checkCollisions (fun _ => 1 / 2)).storage = Game.caught.storage ++
      (if (Game.caught.checkCollisions (fun _ => 1 / 2)).score > Game.caught.highScore then
        [(Game.caught.checkCollisions (fun _ => 1 / 2)).score]
       else [])) := by
  have h : ∃ e ∈ (Game.caught.bulletsHitEnemies (fun _ => 1 / 2)).enemies,
      e.markedForDeletion = false ∧ e.overlapsPlayer Game.caught.player := by
    rw [Game.caught_bulletsHitEnemies]
    refine ⟨Enemy.new (fun _ => 1 / 2) 14 355 200, by simp [Game.caught], rfl, ?_⟩
    simp [Enemy.overlapsPlayer, Game.caught, Enemy.new, Enemy.width, Enemy.height, Player.width,
      Player.height]
    norm_num
  exact ⟨h, C4_game_over (fun _ => 1 / 2) Game.caught h⟩

theorem Game.sin_sixty_four : 0 < Real.sin 64 ∧ Real.sin 64 ≤ 1 := by
  refine ⟨?_, Real.sin_le_one 64⟩
  have hper := Real.sin_sub_nat_mul_two_pi 64 10
  rw [← hper]
  have h1 := Real.pi_gt_d2
  have h2 := Real.pi_lt_d2
  exact Real.sin_pos_of_pos_of_lt_pi (by norm_num at h1 h2 ⊢; linarith)
    (by norm_num at h1 h2 ⊢; linarith)

theorem Game.grazed_overlaps :
    (Bullet.new (380 : ℝ) 220).overlaps (Enemy.straggler Real.sin) := by
  obtain ⟨hpos, hle⟩ := Game.sin_sixty_four
  simp only [Bullet.overlaps, Bullet.new, Enemy.straggler, Bullet.width, Bullet.height,
    Enemy.width, Enemy.height]
  refine ⟨?_, ?_, ?_, ?_⟩ <;> norm_num <;> linarith

theorem Game.grazed_overlapsPlayer :
    (Enemy.straggler Real.sin).overlapsPlayer (Game.grazed Real.sin).player := by
  obtain ⟨hpos, hle⟩ := Game.sin_sixty_four
  simp only [Enemy.overlapsPlayer, Game.grazed, Enemy.straggler, Player.width, Player.height,
    Enemy.width, Enemy.height]
  refine ⟨?_, ?_, ?_, ?_⟩ <;> norm_num <;> linarith

/-- The pass on the state `grazed`: the bullet destroys the enemy, and no enemy is
left unmarked for the test against the player. -/
theorem Game.grazed_checkCollisions :
    ((Game.grazed Real.sin).checkCollisions (fun _ => 1 / 2)).gameActive = true ∧
    ((Game.grazed Real.sin).checkCollisions (fun _ => 1 / 2)).gameOver = false ∧
    ((Game.grazed Real.sin).checkCollisions (fun _ => 1 / 2)).score = 2400 ∧
    ((Game.grazed Real.sin).checkCollisions (fun _ => 1 / 2)).bullets
      = [{ x := 380, y := 220, markedForDeletion := true }] ∧
    ((Game.grazed Real.sin).checkCollisions (fun _ => 1 / 2)).enemies
      = [{ Enemy.straggler Real.sin with markedForDeletion := true }] := by
  have key := Game.hitBullets_single (fun _ => (1 : ℝ) / 2) (Game.grazed Real.sin) [] []
    (Bullet.new 380 220) [] [] (Enemy.straggler Real.sin) (by simp) (by simp)
    ⟨rfl, rfl, Game.grazed_overlaps⟩
  rw [List.nil_append, List.nil_append] at key
  obtain ⟨⟨d1, _⟩, _, _⟩ := Game.hit_of_overlap (fun _ => (1 : ℝ) / 2) (Game.grazed Real.sin)
    (Bullet.new 380 220) (Enemy.straggler Real.sin) ⟨rfl, rfl, Game.grazed_overlaps⟩
  have hbh : ((Game.grazed Real.sin).bulletsHitEnemies (fun _ => 1 / 2)).bullets
        = [{ x := 380, y := 220, markedForDeletion := true }] ∧
      ((Game.grazed Real.sin).bulletsHitEnemies (fun _ => 1 / 2)).enemies
        = [{ Enemy.straggler Real.sin with markedForDeletion := true }] ∧
      ((Game.grazed Real.sin).bulletsHitEnemies (fun _ => 1 / 2)).score = 2400 := by
    unfold Game.bulletsHitEnemies
    have hbs : (Game.grazed Real.sin).bullets = [Bullet.new 380 220] := rfl
    have hes : (Game.grazed Real.sin).enemies = [Enemy.straggler Real.sin] := rfl
    rw [hbs, hes, key]
    exact ⟨rfl, rfl, d1⟩
  obtain ⟨cs, cb, _, ce⟩ := Game.checkCollisions_entities (fun _ => (1 : ℝ) / 2)
    (Game.grazed Real.sin)
  have hmarked : ∀ e ∈ ((Game.grazed Real.sin).bulletsHitEnemies (fun _ => 1 / 2)).enemies,
      e.markedForDeletion = true := by
    intro e hmem
    rw [hbh.2.1] at hmem
    rw [List.mem_singleton.mp hmem]
  obtain ⟨hact, hover⟩ :=
    Game.checkCollisions_gameActive (fun _ => (1 : ℝ) / 2) (Game.grazed Real.sin) hmarked
  exact ⟨hact, hover, by rw [cs, hbh.2.2], by rw [cb, hbh.1], by rw [ce, hbh.2.1]⟩

/-- C4, counterexample: the state `grazed`, under the real sine, is Active and its
one unmarked enemy overlaps the Player's box, yet `checkCollisions` leaves the
state Active: the bullet marks the enemy in the first phase of the pass and the
test against the player skips marked enemies. -/
theorem C4_counterexample :
    (Game.grazed Real.sin).gameActive = true ∧
    (∃ e ∈ (Game.grazed Real.sin).enemies,
      e.markedForDeletion = false ∧ e.overlapsPlayer (Game.grazed Real.sin).player) ∧
    ((Game.grazed Real.sin).checkCollisions (fun _ => 1 / 2)).gameActive = true ∧
    ((Game.grazed Real.sin).checkCollisions (fun _ => 1 / 2)).gameOver = false :=
  ⟨rfl, ⟨Enemy.straggler Real.sin, List.mem_singleton.mpr rfl, rfl, Game.grazed_overlapsPlayer⟩,
    Game.grazed_checkCollisions.1, Game.grazed_checkCollisions.2.1⟩

/-! ### The frame -/

theorem Game.update_advance (sin : α → α) (random : Nat → α) (dt : α) (g : Game α) :
    g.update sin random dt =
      if g.gameActive = false then g else (g.advance sin).checkCollisions random := rfl

/-- What `Player.update` leaves alone. -/
theorem Player.update_frame (g : Game α) :
    (Player.update g).highScore = g.highScore ∧ (Player.update g).score = g.score ∧
    (Player.update g).gameActive = g.gameActive ∧ (Player.update g).gameOver = g.gameOver ∧
    (Player.update g).enemies = g.enemies ∧ (Player.update g).particles = g.particles ∧
    (Player.update g).storage = g.storage ∧ (Player.update g).timers = g.timers ∧
    (Player.update g).dom = g.dom ∧ (Player.update g).randomCalls = g.randomCalls ∧
    (Player.update g).height = g.height ∧ (Player.update g).keys = g.keys := by
  rw [Player.update_stages]
  simp only
  split <;> exact ⟨rfl, rfl, rfl, rfl, rfl, rfl, rfl, rfl, rfl, rfl, rfl, rfl⟩

/-- What the entity updates of a frame leave alone. -/
theorem Game.advance_frame (sin : α → α) (g : Game α) :
    (g.advance sin).highScore = g.highScore ∧ (g.advance sin).score = g.score ∧
    (g.advance sin).gameActive = g.gameActive ∧ (g.advance sin).gameOver = g.gameOver ∧
    (g.advance sin).storage = g.storage ∧ (g.advance sin).timers = g.timers ∧
    (g.advance sin).dom = g.dom ∧ (g.advance sin).randomCalls = g.randomCalls ∧
    (g.advance sin).width = g.width ∧ (g.advance sin).height = g.height := by
  obtain ⟨h1, h2, h3, h4, _, _, h7, h8, h9, h10, h11, _⟩ := Player.update_frame g
  exact ⟨h1, h2, h3, h4, h7, h8, h9, h10, Player.update_width g, h11⟩

/-- The whole of `checkCollisions` on the high score and the state flags: either
the game has not ended in the pass, or it has, on the score of the end of the
pass. -/
theorem Game.checkCollisions_highScore (random : Nat → α) (g : Game α) :
    ((g.checkCollisions random).highScore = g.highScore ∧
      (g.checkCollisions random).gameOver = g.gameOver ∧
      (g.checkCollisions random).gameActive = g.gameActive ∧
      (g.checkCollisions random).storage = g.storage) ∨
    ((g.checkCollisions random).highScore = max g.highScore (g.checkCollisions random).score ∧
      (g.checkCollisions random).gameOver = true ∧
      (g.checkCollisions random).gameActive = false) := by
  obtain ⟨kills, d, _⟩ := Game.bulletsHitEnemies_spec random g
  obtain ⟨_, _, _, _, _, _, dhs, dgo, dga, dpl, _, dst, _⟩ := d
  have hs := (Game.checkCollisions_entities random g).1
  rw [hs]
  unfold Game.checkCollisions
  rw [Game.winCondition_timers]
  simp only []
  rcases (Game.foldl_endGame (g.bulletsHitEnemies random).enemies (g.bulletsHitEnemies random)
    (g.bulletsHitEnemies random) (Or.inl rfl)).1 with h | h
  · have h' : (g.bulletsHitEnemies random).enemiesHitPlayer = g.bulletsHitEnemies random := h
    rw [h']
    exact Or.inl ⟨dhs, dgo, dga, dst⟩
  · have h' : Game.Ended (g.bulletsHitEnemies random)
      (g.bulletsHitEnemies random).enemiesHitPlayer := h
    obtain ⟨e1, e2, e3, _⟩ := h'
    rw [dhs] at e3
    exact Or.inr ⟨e3, e2, e1⟩

/-! ### C8: the high score never decreases -/

theorem Game.respawnCallback_highScore (random : Nat → α) (g : Game α) :
    (g.respawnCallback random).highScore = g.highScore := by
  unfold Game.respawnCallback
  split
  · rw [Game.createEnemyGrid_eq]
  · rfl

theorem Game.fireTimer_highScore (random : Nat → α) (g : Game α) :
    (g.fireTimer random).highScore = g.highScore := by
  unfold Game.fireTimer
  split
  · rfl
  · rw [Game.respawnCallback_highScore]

theorem Game.resize_highScore (w h : α) (g : Game α) : (g.resize w h).highScore = g.highScore := rfl

/-- C8. HighScore is monotonically non-decreasing: `start`, `resize` and the
respawn-timer callback leave it unchanged; `endGame`, `checkCollisions` and
`update` leave it at least as large as before, and when one of them changes it,
the game has ended and the new value is the current score. -/
theorem C8_highScore_monotone (sin : α → α) (random : Nat → α) (dt w h : α) (g : Game α) :
    (g.start random).highScore = g.highScore ∧
    (g.resize w h).highScore = g.highScore ∧
    (g.respawnCallback random).highScore = g.highScore ∧
    (g.fireTimer random).highScore = g.highScore ∧
    (g.highScore ≤ g.endGame.highScore ∧
      (g.endGame.highScore = g.highScore ∨
        (g.endGame.highScore = g.endGame.score ∧ g.endGame.score = g.score))) ∧
    (g.highScore ≤ (g.checkCollisions random).highScore ∧
      ((g.checkCollisions random).highScore = g.highScore ∨
        ((g.checkCollisions random).highScore = (g.checkCollisions random).score ∧
          (g.checkCollisions random).gameOver = true))) ∧
    (g.highScore ≤ (g.update sin random dt).highScore ∧
      ((g.update sin random dt).highScore = g.highScore ∨
        ((g.update sin random dt).highScore = (g.update sin random dt).score ∧
          (g.update sin random dt).gameOver = true))) := by
  have hcc : ∀ g : Game α, g.highScore ≤ (g.checkCollisions random).highScore ∧
      ((g.checkCollisions random).highScore = g.highScore ∨
        ((g.checkCollisions random).highScore = (g.checkCollisions random).score ∧
          (g.checkCollisions random).gameOver = true)) := by
    intro g
    rcases Game.checkCollisions_highScore random g with ⟨h1, _⟩ | ⟨h1, h2, _⟩
    · exact ⟨le_of_eq h1.symm, Or.inl h1⟩
    · refine ⟨by rw [h1]; exact le_max_left _ _, ?_⟩
      rcases max_choice g.highScore (g.checkCollisions random).score with hm | hm
      · exact Or.inl (by rw [h1, hm])
      · exact Or.inr ⟨by rw [h1, hm], h2⟩
  refine ⟨by rw [Game.start_eq], Game.resize_highScore w h g,
    Game.respawnCallback_highScore random g, Game.fireTimer_highScore random g, ?_, hcc g, ?_⟩
  · obtain ⟨_, _, e3, _, e5, _⟩ := Game.endGame_ended g
    refine ⟨by rw [e3]; exact le_max_left _ _, ?_⟩
    rcases max_choice g.highScore g.score with hm | hm
    · exact Or.inl (by rw [e3, hm])
    · exact Or.inr ⟨by rw [e3, hm, e5], e5⟩
  · rw [Game.update_advance]
    split
    · exact ⟨le_refl _, Or.inl rfl⟩
    · have hadv := (Game.advance_frame sin g).1
      have := hcc (g.advance sin)
      rw [hadv] at this
      exact this

/-! ### C6: when marked entities leave the collections -/

theorem Game.advance_bullets (sin : α → α) (g : Game α) :
    (g.advance sin).bullets =
      ((Player.update g).bullets.map Bullet.update).filter (fun b => !b.markedForDeletion) := rfl

theorem Game.advance_enemies (sin : α → α) (g : Game α) :
    (g.advance sin).enemies =
      ((Player.update g).enemies.map (Enemy.update sin)).filter
        (fun e => !e.markedForDeletion) := rfl

theorem Game.advance_particles (sin : α → α) (g : Game α) :
    (g.advance sin).particles =
      ((Player.update g).particles.map Particle.update).filter
        (fun p => decide (p.life > 0)) := rfl

/-- The filters of a frame leave no marked bullet and no marked enemy. -/
theorem Game.advance_unmarked (sin : α → α) (g : Game α) :
    (∀ b ∈ (g.advance sin).bullets, b.markedForDeletion = false) ∧
    (∀ e ∈ (g.advance sin).enemies, e.markedForDeletion = false) ∧
    Bullet.marked (g.advance sin).bullets = 0 ∧ Enemy.marked (g.advance sin).enemies = 0 := by
  have hb : ∀ b ∈ (g.advance sin).bullets, b.markedForDeletion = false := by
    intro b hb
    rw [Game.advance_bullets] at hb
    simpa using (List.mem_filter.mp hb).2
  have he : ∀ e ∈ (g.advance sin).enemies, e.markedForDeletion = false := by
    intro e he
    rw [Game.advance_enemies] at he
    simpa using (List.mem_filter.mp he).2
  refine ⟨hb, he, ?_, ?_⟩
  · unfold Bullet.marked
    rw [List.countP_eq_zero]
    intro b hm
    simp [hb b hm]
  · unfold Enemy.marked
    rw [List.countP_eq_zero]
    intro e hm
    simp [he e hm]

theorem Bullet.mem_of_bullets_markedFrom {bs bs1 : List (Bullet α)}
    (h : List.Forall₂ Bullet.MarkedFrom bs bs1) {b1 : Bullet α} (hb : b1 ∈ bs1) :
    ∃ b ∈ bs, Bullet.MarkedFrom b b1 := by
  induction h with
  | nil => exact absurd hb (List.not_mem_nil _)
  | @cons a c l l1 hac _ ih =>
    rcases List.mem_cons.mp hb with rfl | hmem
    · exact ⟨a, List.mem_cons_self _ _, hac⟩
    · obtain ⟨b, hbl, hm⟩ := ih hmem
      exact ⟨b, List.mem_cons_of_mem _ hbl, hm⟩

/-- A bullet kept by the filter of a frame is on the screen. -/
theorem Game.advance_bullets_y (sin : α → α) (g : Game α) :
    ∀ b ∈ (g.advance sin).bullets, 0 ≤ b.y := by
  intro b hb
  rw [Game.advance_bullets] at hb
  obtain ⟨hmem, hflag⟩ := List.mem_filter.mp hb
  obtain ⟨b0, _, rfl⟩ := List.mem_map.mp hmem
  unfold Bullet.update at hflag ⊢
  simp only at hflag ⊢
  split_ifs at hflag ⊢ with hlt
  · simp at hflag
  · exact not_lt.mp hlt

/-- The frame, for a game in play. -/
theorem Game.update_active (sin : α → α) (random : Nat → α) (dt : α) (g : Game α)
    (h : g.gameActive = true) :
    g.update sin random dt = (g.advance sin).checkCollisions random := by
  rw [Game.update_advance, if_neg (by simp [h])]

/-- The marks and the score left by a whole `checkCollisions` pass. -/
theorem Game.checkCollisions_marks (random : Nat → α) (g : Game α) :
    ∃ kills : List (Enemy α),
      List.Forall₂ Bullet.MarkedFrom g.bullets (g.checkCollisions random).bullets ∧
      Bullet.marked (g.checkCollisions random).bullets = Bullet.marked g.bullets + kills.length ∧
      List.Forall₂ Enemy.MarkedFrom g.enemies (g.checkCollisions random).enemies ∧
      Enemy.marked (g.checkCollisions random).enemies = Enemy.marked g.enemies + kills.length ∧
      (g.checkCollisions random).score = g.score + 100 * kills.length := by
  obtain ⟨hs, hb, _, he⟩ := Game.checkCollisions_entities random g
  obtain ⟨kills, d, fb, cb, fe, ce, _⟩ := Game.bulletsHitEnemies_spec random g
  rw [hs, hb, he]
  exact ⟨kills, fb, cb, fe, ce, d.1⟩

/-- What a whole `checkCollisions` pass leaves alone. -/
theorem Game.checkCollisions_frame (random : Nat → α) (g : Game α) :
    (g.checkCollisions random).player = g.player ∧ (g.checkCollisions random).width = g.width ∧
    (g.checkCollisions random).height = g.height ∧ (g.checkCollisions random).keys = g.keys := by
  obtain ⟨kills, d, _⟩ := Game.bulletsHitEnemies_spec random g
  obtain ⟨_, _, _, _, dw, dh, _, _, _, dpl, dk, _, _⟩ := d
  unfold Game.checkCollisions
  rw [Game.winCondition_timers]
  simp only []
  rcases (Game.foldl_endGame (g.bulletsHitEnemies random).enemies (g.bulletsHitEnemies random)
    (g.bulletsHitEnemies random) (Or.inl rfl)).1 with h | h
  · have h' : (g.bulletsHitEnemies random).enemiesHitPlayer = g.bulletsHitEnemies random := h
    rw [h']
    exact ⟨dpl, dw, dh, dk⟩
  · have h' : Game.Ended (g.bulletsHitEnemies random)
      (g.bulletsHitEnemies random).enemiesHitPlayer := h
    obtain ⟨_, _, _, _, _, _, _, _, e9, e10, e11, e12, _⟩ := h'
    exact ⟨by rw [e9, dpl], by rw [e10, dw], by rw [e11, dh], by rw [e12, dk]⟩

/-- The bullets after `Player.update`: the old ones, then the one fired in this
frame, if any. -/
theorem Player.update_bullets (g : Game α) :
    ∃ fired : List (Bullet α), fired.length ≤ 1 ∧ (g.keys.Space = false → fired = []) ∧
      (Player.update g).bullets = g.bullets ++ fired := by
  rw [Player.update_stages]
  simp only
  split
  · next h =>
    refine ⟨[_], le_refl _, ?_, rfl⟩
    intro hs
    rw [hs] at h
    simp at h
  · exact ⟨[], Nat.zero_le _, fun _ => rfl, (List.append_nil _).symm⟩

theorem Bullet.update_fields (b : Bullet α) :
    b.update.x = b.x ∧ b.update.y = b.y - 10 ∧
      (b.update.markedForDeletion = true ↔ (b.markedForDeletion = true ∨ b.y - 10 < 0)) := by
  unfold Bullet.update
  simp only [Bullet.speed]
  split
  · next h => exact ⟨rfl, rfl, ⟨fun _ => Or.inr h, fun _ => rfl⟩⟩
  · next h =>
    refine ⟨rfl, rfl, ⟨fun hm => Or.inl hm, fun hm => ?_⟩⟩
    rcases hm with hm | hm
    · exact hm
    · exact absurd hm h

/-- The move and the filter of the bullets of a frame, on any list: the unmarked
bullets with `y >= 10` stay, in order, ten pixels higher. -/
theorem Bullet.filter_map_update (bs : List (Bullet α)) :
    (bs.map Bullet.update).filter (fun b => !b.markedForDeletion) =
      (bs.filter (fun b => !b.markedForDeletion && decide (10 ≤ b.y))).map
        (fun b => { b with y := b.y - 10 }) := by
  induction bs with
  | nil => rfl
  | cons b bs ih =>
    rw [List.map_cons, List.filter_cons, List.filter_cons, ih]
    obtain ⟨_, _, hm⟩ := Bullet.update_fields b
    by_cases hk : b.markedForDeletion = false ∧ 10 ≤ b.y
    · have hu : b.update.markedForDeletion = false := by
        cases hb : b.update.markedForDeletion
        · rfl
        · rcases hm.mp hb with h | h
          · rw [hk.1] at h; exact absurd h (by simp)
          · exact absurd h (not_lt.mpr (sub_nonneg.mpr hk.2))
      have hupd : b.update = { b with y := b.y - 10 } := by
        unfold Bullet.update
        simp only [Bullet.speed]
        rw [if_neg (not_lt.mpr (sub_nonneg.mpr hk.2))]
      simp only [hu, hk.1, hk.2, Bool.not_false, decide_True, Bool.and_self, if_true,
        List.map_cons, hupd]
    · have hu : b.update.markedForDeletion = true := by
        apply hm.mpr
        by_cases hb : b.markedForDeletion = true
        · exact Or.inl hb
        · right
          have hb' : b.markedForDeletion = false := by simpa using hb
          have : ¬ 10 ≤ b.y := fun h => hk ⟨hb', h⟩
          linarith [not_le.mp this]
      have hcond : (!b.markedForDeletion && decide (10 ≤ b.y)) = false := by
        by_cases hb : b.markedForDeletion = true
        · simp [hb]
        · have hb' : b.markedForDeletion = false := by simpa using hb
          have : ¬ 10 ≤ b.y := fun h => hk ⟨hb', h⟩
          simp [hb', this]
      simp only [hu, hcond, Bool.not_true, if_false]
      simp

/-- The bullets left by the filter step of a frame. -/
theorem Game.advance_bullets_eq (sin : α → α) (g : Game α) :
    ∃ fired : List (Bullet α), fired.length ≤ 1 ∧ (g.keys.Space = false → fired = []) ∧
      (Player.update g).bullets = g.bullets ++ fired ∧
      (g.advance sin).bullets =
        (g.bullets.filter (fun b => !b.markedForDeletion && decide (10 ≤ b.y))).map
            (fun b => { b with y := b.y - 10 }) ++
          (fired.filter (fun b => !b.markedForDeletion && decide (10 ≤ b.y))).map
            (fun b => { b with y := b.y - 10 }) := by
  obtain ⟨fired, hl, hs, hf⟩ := Player.update_bullets g
  refine ⟨fired, hl, hs, hf, ?_⟩
  rw [Game.advance_bullets, hf, Bullet.filter_map_update, List.filter_append, List.map_append]

/-- `Enemy.update` does not touch the deletion flag: the filter of a frame keeps
exactly the enemies that were unmarked, in order. -/
theorem Enemy.filter_map_enemy_update (sin : α → α) (es : List (Enemy α)) :
    (es.map (Enemy.update sin)).filter (fun e => !e.markedForDeletion) =
      (es.filter (fun e => !e.markedForDeletion)).map (Enemy.update sin) := by
  induction es with
  | nil => rfl
  | cons e es ih =>
    rw [List.map_cons, List.filter_cons, List.filter_cons, ih]
    have hu : (Enemy.update sin e).markedForDeletion = e.markedForDeletion := rfl
    rw [hu]
    split <;> rfl

/-- The enemies left by the filter step of a frame. -/
theorem Game.advance_enemies_eq (sin : α → α) (g : Game α) :
    (g.advance sin).enemies =
      (g.enemies.filter (fun e => !e.markedForDeletion)).map (Enemy.update sin) := by
  rw [Game.advance_enemies, (Player.update_frame g).2.2.2.2.1, Enemy.filter_map_enemy_update]

/-- The draw of a game in play renders every bullet and every enemy of the
collections, whatever their deletion flags. -/
theorem Game.draw_of_active (g : Game α) (h : g.gameActive = true) :
    (∀ b ∈ g.bullets, ∀ op ∈ b.draw, op ∈ g.draw) ∧
    (∀ e ∈ g.enemies, ∀ op ∈ e.draw, op ∈ g.draw) := by
  unfold Game.draw
  rw [if_pos h]
  constructor
  · intro b hb op hop
    refine List.mem_cons_of_mem _ (List.mem_append_left _ (List.mem_append_right _ ?_))
    exact List.mem_flatMap.mpr ⟨b, hb, hop⟩
  · intro e he op hop
    refine List.mem_cons_of_mem _
      (List.mem_append_left _ (List.mem_append_left _ (List.mem_append_right _ ?_)))
    exact List.mem_flatMap.mpr ⟨e, he, hop⟩

/-- The draw of a game in play: the surface is cleared, then the player, the
enemies, the bullets and the particles of the collections are rendered, in this
order. -/
theorem Game.draw_eq_of_active (g : Game α) (h : g.gameActive = true) :
    g.draw = DrawOp.fillRect "#050510" 0 0 g.width g.height ::
      (g.player.draw ++ g.enemies.flatMap Enemy.draw ++ g.bullets.flatMap Bullet.draw ++
        g.particles.flatMap Particle.draw) := by
  unfold Game.draw
  rw [if_pos h]

/-- The draw of a game that is not in play only clears the surface. -/
theorem Game.draw_of_inactive (g : Game α) (h : g.gameActive = false) :
    g.draw = [DrawOp.fillRect "#050510" 0 0 g.width g.height] := by
  unfold Game.draw
  rw [if_neg (by simp [h])]

/-- The collections after `start()`: no bullet, and no marked enemy. -/
theorem Game.start_unmarked (random : Nat → α) (g : Game α) :
    (g.start random).bullets = [] ∧
      ∀ e ∈ (g.start random).enemies, e.markedForDeletion = false := by
  rw [Game.start_eq]
  refine ⟨rfl, ?_⟩
  intro e he
  obtain ⟨i, _, rfl⟩ := List.mem_map.mp he
  rfl

/-- On a game that is not in play, every event but `start()` leaves the game out
of play and the bullet and enemy collections as they are. -/
theorem Game.step_of_inactive (sin : α → α) (random : Nat → α) (ev : Event α) (g : Game α)
    (h : g.gameActive = false) (hev : ev ≠ Event.start) :
    (g.step sin random ev).gameActive = false ∧ (g.step sin random ev).bullets = g.bullets ∧
      (g.step sin random ev).enemies = g.enemies := by
  cases ev with
  | tick t =>
    cases t with
    | frame keys dt =>
      show ((g.setKeys keys).update sin random dt).gameActive = false ∧
        ((g.setKeys keys).update sin random dt).bullets = g.bullets ∧
        ((g.setKeys keys).update sin random dt).enemies = g.enemies
      rw [Game.update_advance, if_pos (show (g.setKeys keys).gameActive = false from h)]
      exact ⟨h, rfl, rfl⟩
    | timer =>
      show (g.fireTimer random).gameActive = false ∧ (g.fireTimer random).bullets = g.bullets ∧
        (g.fireTimer random).enemies = g.enemies
      unfold Game.fireTimer
      split
      · exact ⟨h, rfl, rfl⟩
      · unfold Game.respawnCallback
        rw [if_neg]
        · exact ⟨h, rfl, rfl⟩
        · rintro ⟨ha, _⟩
          have ha1 : g.gameActive = true := ha
          rw [h] at ha1
          exact absurd ha1 (by simp)
  | start => exact absurd rfl hev
  | endGame =>
    obtain ⟨e1, _, _, _, _, e6, _, e8, _⟩ := Game.endGame_ended g
    exact ⟨e1, e6, e8⟩
  | resize w h1 => exact ⟨h, rfl, rfl⟩

/-- On a game that is not in play, a run of events without `start()` leaves the
game out of play and the bullet and enemy collections as they are. -/
theorem Game.run_of_inactive (sin : α → α) (random : Nat → α) (evs : List (Event α))
    (g : Game α) (h : g.gameActive = false) (hev : Event.start ∉ evs) :
    (g.run sin random evs).gameActive = false ∧ (g.run sin random evs).bullets = g.bullets ∧
      (g.run sin random evs).enemies = g.enemies := by
  induction evs generalizing g with
  | nil => exact ⟨h, rfl, rfl⟩
  | cons ev evs ih =>
    have hne : ev ≠ Event.start := fun hc => hev (hc ▸ List.mem_cons_self _ _)
    obtain ⟨s1, s2, s3⟩ := Game.step_of_inactive sin random ev g h hne
    obtain ⟨r1, r2, r3⟩ := ih (g.step sin random ev) s1
      (fun hc => hev (List.mem_cons_of_mem _ hc))
    have hrun : g.run sin random (ev :: evs) = (g.step sin random ev).run sin random evs := rfl
    rw [hrun]
    exact ⟨r1, r2.trans s2, r3.trans s3⟩

/-- C6 (amended). Compaction of marked entities for a game in play: the filter
steps of `update` remove every bullet and enemy that is marked when they run (the
ones marked before the frame and the bullets leaving the screen in it), so every
bullet left after the update has `y >= 0`; the entities that are marked after the
update are exactly the `k` bullets and `k` enemies marked by the collision pass of
this same update, which runs after the filters, `k` enemies being destroyed for
`100 k` points; and a marked bullet takes part in no later collision test: the
inner loop leaves the game, the bullet and the enemies unchanged.
If the game is still in play after the update, the draw that follows clears the
surface and renders exactly the player and the entities of the collections, so
every bullet and every enemy of the collections, the marked ones included, and
the filter steps of the next update, which run before its collision pass, leave
no marked bullet and no marked enemy: they keep exactly the unmarked enemies, and
exactly the unmarked bullets with `y >= 10`, followed by the bullet fired in that
frame, if any.
If the collision pass has ended the game, the draw that follows only clears the
surface, every later update leaves the state as it is, no run of events without
`start()` changes the bullet or the enemy collection, and `start()` leaves no
bullet and no marked enemy. -/
theorem C6_marked_compaction (sin : α → α) (random : Nat → α) (dt : α) (g : Game α)
    (h : g.gameActive = true) :
    (∀ b ∈ (g.advance sin).bullets, b.markedForDeletion = false) ∧
    (∀ e ∈ (g.advance sin).enemies, e.markedForDeletion = false) ∧
    (∀ b ∈ (g.update sin random dt).bullets, 0 ≤ b.y) ∧
    (∃ kills : List (Enemy α),
      Bullet.marked (g.update sin random dt).bullets = kills.length ∧
      Enemy.marked (g.update sin random dt).enemies = kills.length ∧
      (g.update sin random dt).score = g.score + 100 * kills.length) ∧
    (∀ (g1 : Game α) (b : Bullet α) (es : List (Enemy α)), b.markedForDeletion = true →
      Game.hitEnemies random g1 b es = (g1, b, es)) ∧
    g.update sin random dt = (g.advance sin).checkCollisions random ∧
    ((g.update sin random dt).gameActive = true →
      (g.update sin random dt).draw =
        DrawOp.fillRect "#050510" 0 0 (g.update sin random dt).width
            (g.update sin random dt).height ::
          ((g.update sin random dt).player.draw ++
            (g.update sin random dt).enemies.flatMap Enemy.draw ++
            (g.update sin random dt).bullets.flatMap Bullet.draw ++
            (g.update sin random dt).particles.flatMap Particle.draw) ∧
      (∀ b ∈ (g.update sin random dt).bullets, ∀ op ∈ b.draw, op ∈ (g.update sin random dt).draw) ∧
      (∀ e ∈ (g.update sin random dt).enemies, ∀ op ∈ e.draw, op ∈ (g.update sin random dt).draw) ∧
      (∀ dt1 : α, (g.update sin random dt).update sin random dt1 =
          ((g.update sin random dt).advance sin).checkCollisions random) ∧
      (∀ b ∈ ((g.update sin random dt).advance sin).bullets, b.markedForDeletion = false) ∧
      (∀ e ∈ ((g.update sin random dt).advance sin).enemies, e.markedForDeletion = false) ∧
      ((g.update sin random dt).advance sin).enemies =
        ((g.update sin random dt).enemies.filter (fun e => !e.markedForDeletion)).map
            (Enemy.update sin) ∧
      (∃ fired : List (Bullet α), fired.length ≤ 1 ∧
        ((g.update sin random dt).advance sin).bullets =
          ((g.update sin random dt).bullets.filter
              (fun b => !b.markedForDeletion && decide (10 ≤ b.y))).map
              (fun b => { b with y := b.y - 10 }) ++
            (fired.filter (fun b => !b.markedForDeletion && decide (10 ≤ b.y))).map
              (fun b => { b with y := b.y - 10 }))) ∧
    ((g.update sin random dt).gameActive = false →
      (g.update sin random dt).draw = [DrawOp.fillRect "#050510" 0 0 (g.update sin random dt).width
          (g.update sin random dt).height] ∧
      (∀ dt1 : α, (g.update sin random dt).update sin random dt1 = g.update sin random dt) ∧
      (∀ evs : List (Event α), Event.start ∉ evs →
        ((g.update sin random dt).run sin random evs).gameActive = false ∧
        ((g.update sin random dt).run sin random evs).bullets = (g.update sin random dt).bullets ∧
        ((g.update sin random dt).run sin random evs).enemies = (g.update sin random dt).enemies) ∧
      ((g.update sin random dt).start random).bullets = [] ∧
      (∀ e ∈ ((g.update sin random dt).start random).enemies, e.markedForDeletion = false)) := by
  obtain ⟨ub, ue, cb0, ce0⟩ := Game.advance_unmarked sin g
  obtain ⟨kills, fb, cb, _, ce, sc⟩ := Game.checkCollisions_marks random (g.advance sin)
  rw [Game.update_active sin random dt g h]
  refine ⟨ub, ue, ?_, ⟨kills, ?_, ?_, ?_⟩, fun g1 b es hb =>
    Game.hitEnemies_of_marked random g1 b es hb, rfl, ?_, ?_⟩
  · intro b1 hb1
    obtain ⟨b, hb, hm⟩ := Bullet.mem_of_bullets_markedFrom fb hb1
    rw [hm.1]
    exact Game.advance_bullets_y sin g b hb
  · rw [cb, cb0, Nat.zero_add]
  · rw [ce, ce0, Nat.zero_add]
  · rw [sc, (Game.advance_frame sin g).2.1]
  · generalize (g.advance sin).checkCollisions random = u
    intro hu
    obtain ⟨db, de⟩ := Game.draw_of_active u hu
    obtain ⟨nb, ne, _, _⟩ := Game.advance_unmarked sin u
    obtain ⟨fired, hl, _, _, hf⟩ := Game.advance_bullets_eq sin u
    exact ⟨Game.draw_eq_of_active u hu, db, de,
      fun dt1 => Game.update_active sin random dt1 u hu, nb, ne,
      Game.advance_enemies_eq sin u, fired, hl, hf⟩
  · generalize (g.advance sin).checkCollisions random = u
    intro hu
    refine ⟨Game.draw_of_inactive u hu, fun dt1 => ?_,
      fun evs hev => Game.run_of_inactive sin random evs u hu hev,
      (Game.start_unmarked random u).1, (Game.start_unmarked random u).2⟩
    rw [Game.update_advance, if_pos hu]

/-- C6, witness: the state `aimed` under the real sine. -/
theorem C6_marked_compaction_witness :
    (Game.aimed Real.sin).gameActive = true ∧
    ((∀ b ∈ ((Game.aimed Real.sin).advance Real.sin).bullets, b.markedForDeletion = false) ∧
    (∀ e ∈ ((Game.aimed Real.sin).advance Real.sin).enemies, e.markedForDeletion = false) ∧
    (∀ b ∈ ((Game.aimed Real.sin).update Real.sin (fun _ => 1 / 2) 16).bullets, 0 ≤ b.y) ∧
    (∃ kills : List (Enemy ℝ),
      Bullet.marked ((Game.aimed Real.sin).update Real.sin (fun _ => 1 / 2) 16).bullets =
          kills.length ∧
      Enemy.marked ((Game.aimed Real.sin).update Real.sin (fun _ => 1 / 2) 16).enemies =
          kills.length ∧
      ((Game.aimed Real.sin).update Real.sin (fun _ => 1 / 2) 16).score =
          (Game.aimed Real.sin).score + 100 * kills.length) ∧
    (∀ (g1 : Game ℝ) (b : Bullet ℝ) (es : List (Enemy ℝ)), b.markedForDeletion = true →
      Game.hitEnemies (fun _ => 1 / 2) g1 b es = (g1, b, es)) ∧
    (Game.aimed Real.sin).update Real.sin (fun _ => 1 / 2) 16 =
        ((Game.aimed Real.sin).advance Real.sin).checkCollisions (fun _ => 1 / 2) ∧
    (((Game.aimed Real.sin).update Real.sin (fun _ => 1 / 2) 16).gameActive = true →
      ((Game.aimed Real.sin).update Real.sin (fun _ => 1 / 2) 16).draw =
        DrawOp.fillRect "#050510" 0 0 ((Game.aimed Real.sin).update Real.sin (fun _ => 1 / 2) 16).width
            ((Game.aimed Real.sin).update Real.sin (fun _ => 1 / 2) 16).height ::
          (((Game.aimed Real.sin).update Real.sin (fun _ => 1 / 2) 16).player.draw ++
            ((Game.aimed Real.sin).update Real.sin (fun _ => 1 / 2) 16).enemies.flatMap Enemy.draw ++
            ((Game.aimed Real.sin).update Real.sin (fun _ => 1 / 2) 16).bullets.flatMap Bullet.draw ++
            ((Game.aimed Real.sin).update Real.sin (fun _ => 1 / 2) 16).particles.flatMap Particle.draw) ∧
      (∀ b ∈ ((Game.aimed Real.sin).update Real.sin (fun _ => 1 / 2) 16).bullets, ∀ op ∈ b.draw,
          op ∈ ((Game.aimed Real.sin).update Real.sin (fun _ => 1 / 2) 16).draw) ∧
      (∀ e ∈ ((Game.aimed Real.sin).update Real.sin (fun _ => 1 / 2) 16).enemies, ∀ op ∈ e.draw,
          op ∈ ((Game.aimed Real.sin).update Real.sin (fun _ => 1 / 2) 16).draw) ∧
      (∀ dt1 : ℝ, ((Game.aimed Real.sin).update Real.sin (fun _ => 1 / 2) 16).update Real.sin
          (fun _ => 1 / 2) dt1 = (((Game.aimed Real.sin).update Real.sin (fun _ => 1 / 2)
          16).advance Real.sin).checkCollisions (fun _ => 1 / 2)) ∧
      (∀ b ∈ (((Game.aimed Real.sin).update Real.sin (fun _ => 1 / 2) 16).advance
          Real.sin).bullets, b.markedForDeletion = false) ∧
      (∀ e ∈ (((Game.aimed Real.sin).update Real.sin (fun _ => 1 / 2) 16).advance
          Real.sin).enemies, e.markedForDeletion = false) ∧
      (((Game.aimed Real.sin).update Real.sin (fun _ => 1 / 2) 16).advance Real.sin).enemies =
        (((Game.aimed Real.sin).update Real.sin (fun _ => 1 / 2) 16).enemies.filter
            (fun e => !e.markedForDeletion)).map (Enemy.update Real.sin) ∧
      (∃ fired : List (Bullet ℝ), fired.length ≤ 1 ∧
        (((Game.aimed Real.sin).update Real.sin (fun _ => 1 / 2) 16).advance Real.sin).bullets =
          (((Game.aimed Real.sin).update Real.sin (fun _ => 1 / 2) 16).bullets.filter
              (fun b => !b.markedForDeletion && decide (10 ≤ b.y))).map
              (fun b => { b with y := b.y - 10 }) ++
            (fired.filter (fun b => !b.markedForDeletion && decide (10 ≤ b.y))).map
              (fun b => { b with y := b.y - 10 }))) ∧
    (((Game.aimed Real.sin).update Real.sin (fun _ => 1 / 2) 16).gameActive = false →
      ((Game.aimed Real.sin).update Real.sin (fun _ => 1 / 2) 16).draw =
          [DrawOp.fillRect "#050510" 0 0 ((Game.aimed Real.sin).update Real.sin (fun _ => 1 / 2)
          16).width ((Game.aimed Real.sin).update Real.sin (fun _ => 1 / 2) 16).height] ∧
      (∀ dt1 : ℝ, ((Game.aimed Real.sin).update Real.sin (fun _ => 1 / 2) 16).update Real.sin
          (fun _ => 1 / 2) dt1 = (Game.aimed Real.sin).update Real.sin (fun _ => 1 / 2) 16) ∧
      (∀ evs : List (Event ℝ), Event.start ∉ evs →
        (((Game.aimed Real.sin).update Real.sin (fun _ => 1 / 2) 16).run Real.sin (fun _ => 1 / 2)
            evs).gameActive = false ∧
        (((Game.aimed Real.sin).update Real.sin (fun _ => 1 / 2) 16).run Real.sin (fun _ => 1 / 2)
            evs).bullets = ((Game.aimed Real.sin).update Real.sin (fun _ => 1 / 2) 16).bullets ∧
        (((Game.aimed Real.sin).update Real.sin (fun _ => 1 / 2) 16).run Real.sin (fun _ => 1 / 2)
            evs).enemies = ((Game.aimed Real.sin).update Real.sin (fun _ => 1 / 2) 16).enemies) ∧
      (((Game.aimed Real.sin).update Real.sin (fun _ => 1 / 2) 16).start (fun _ => 1 / 2)).bullets
          = [] ∧
      (∀ e ∈ (((Game.aimed Real.sin).update Real.sin (fun _ => 1 / 2) 16).start
          (fun _ => 1 / 2)).enemies, e.markedForDeletion = false))) :=
  ⟨rfl, C6_marked_compaction Real.sin (fun _ => 1 / 2) 16 (Game.aimed Real.sin) rfl⟩

theorem Game.aimed_advance :
    ((Game.aimed Real.sin).advance Real.sin).bullets =
        [{ x := 435, y := 100, markedForDeletion := false }] ∧
    ((Game.aimed Real.sin).advance Real.sin).enemies =
        [{ x := 415 + Real.sin 64 * 20, y := 80, markedForDeletion := false, color := "#ff00ff",
           angle := 64 + 5 / 100, curve := 7 / 2, initialX := 415 }] := by
  constructor
  · rw [Game.advance_bullets, Player.update_stages]
    simp [Game.aimed, Player.cool, Player.clamp, Player.move, Bullet.update, Bullet.new,
      Bullet.speed]
    norm_num
  · rw [Game.advance_enemies, (Player.update_frame _).2.2.2.2.1]
    simp [Game.aimed, Enemy.update]

theorem Game.aimed_overlaps :
    ({ x := 435, y := 100, markedForDeletion := false } : Bullet ℝ).overlaps
      { x := 415 + Real.sin 64 * 20, y := 80, markedForDeletion := false, color := "#ff00ff",
        angle := 64 + 5 / 100, curve := 7 / 2, initialX := 415 } := by
  obtain ⟨hpos, hle⟩ := Game.sin_sixty_four
  simp only [Bullet.overlaps, Bullet.width, Bullet.height, Enemy.width, Enemy.height]
  refine ⟨?_, ?_, ?_, ?_⟩ <;> norm_num <;> linarith

theorem Game.cornered_advance :
    ((Game.cornered Real.sin).advance Real.sin).bullets =
        [{ x := 320, y := 220, markedForDeletion := false }] ∧
    ((Game.cornered Real.sin).advance Real.sin).enemies =
        [{ x := 295 + Real.sin 64 * 20, y := 200, markedForDeletion := false, color := "#ff00ff",
           angle := 64 + 5 / 100, curve := 7 / 2, initialX := 295 },
         Enemy.straggler Real.sin] ∧
    ((Game.cornered Real.sin).advance Real.sin).player = { x := 375, y := 220, shootTimer := 0 } := by
  refine ⟨?_, ?_, ?_⟩
  · rw [Game.advance_bullets, Player.update_stages]
    simp [Game.cornered, Game.aimed, Player.cool, Player.clamp, Player.move, Bullet.update,
      Bullet.new, Bullet.speed]
    norm_num
  · rw [Game.advance_enemies, (Player.update_frame _).2.2.2.2.1]
    simp [Game.cornered, Game.aimed, Enemy.update, Enemy.straggler]
  · show (Player.update (Game.cornered Real.sin)).player = _
    rw [Player.update_stages]
    simp [Game.cornered, Game.aimed, Player.cool, Player.clamp, Player.move, Player.width]
    norm_num

/-- The frame on the state `cornered`, under the real sine: the bullet destroys
the first enemy, the second one is on the player, unmarked, and the same pass
ends the game. After the update the marked bullet and the marked enemy are in the
collections, the game is not in play, and the draw that follows only clears the
surface. -/
theorem Game.cornered_update :
    (Game.cornered Real.sin).gameActive = true ∧
    ((Game.cornered Real.sin).update Real.sin (fun _ => 1 / 2) 16).gameActive = false ∧
    ((Game.cornered Real.sin).update Real.sin (fun _ => 1 / 2) 16).bullets =
      [{ x := 320, y := 220, markedForDeletion := true }] ∧
    ((Game.cornered Real.sin).update Real.sin (fun _ => 1 / 2) 16).enemies.map
      (fun e => e.markedForDeletion) = [true, false] ∧
    ((Game.cornered Real.sin).update Real.sin (fun _ => 1 / 2) 16).draw =
      [DrawOp.fillRect "#050510" 0 0 800 280] := by
  obtain ⟨hb, he, hp⟩ := Game.cornered_advance
  obtain ⟨hpos, hle⟩ := Game.sin_sixty_four
  have hov : ({ x := 320, y := 220, markedForDeletion := false } : Bullet ℝ).overlaps
      { x := 295 + Real.sin 64 * 20, y := 200, markedForDeletion := false, color := "#ff00ff",
        angle := 64 + 5 / 100, curve := 7 / 2, initialX := 295 } := by
    simp only [Bullet.overlaps, Bullet.width, Bullet.height, Enemy.width, Enemy.height]
    refine ⟨?_, ?_, ?_, ?_⟩ <;> norm_num <;> linarith
  obtain ⟨d, h1, h2⟩ := Game.hit_of_overlap (fun _ => (1 : ℝ) / 2)
    ((Game.cornered Real.sin).advance Real.sin) _ _ ⟨rfl, rfl, hov⟩
  have hbh : (((Game.cornered Real.sin).advance Real.sin).bulletsHitEnemies
        (fun _ => 1 / 2)).bullets = [{ x := 320, y := 220, markedForDeletion := true }] ∧
      (((Game.cornered Real.sin).advance Real.sin).bulletsHitEnemies (fun _ => 1 / 2)).enemies =
        [{ x := 295 + Real.sin 64 * 20, y := 200, markedForDeletion := true, color := "#ff00ff",
           angle := 64 + 5 / 100, curve := 7 / 2, initialX := 295 },
         Enemy.straggler Real.sin] ∧
      (((Game.cornered Real.sin).advance Real.sin).bulletsHitEnemies (fun _ => 1 / 2)).player =
        { x := 375, y := 220, shootTimer := 0 } := by
    unfold Game.bulletsHitEnemies
    rw [hb, he, Game.hitBullets_cons, Game.hitEnemies_cons, h1, h2,
      Game.hitEnemies_of_marked _ _ _ _ rfl]
    refine ⟨rfl, rfl, ?_⟩
    show (Game.hit _ _ _ _).1.player = _
    rw [d.2.2.2.2.2.2.2.2.2.1, hp]
  have hend : Game.Ended (((Game.cornered Real.sin).advance Real.sin).bulletsHitEnemies
      (fun _ => 1 / 2))
      (((Game.cornered Real.sin).advance Real.sin).bulletsHitEnemies
        (fun _ => 1 / 2)).enemiesHitPlayer := by
    apply (Game.enemiesHitPlayer_spec _).1
    rw [hbh.2.1, hbh.2.2]
    refine ⟨Enemy.straggler Real.sin, by simp, rfl, ?_⟩
    simp only [Enemy.overlapsPlayer, Enemy.straggler, Player.width, Player.height,
      Enemy.width, Enemy.height]
    refine ⟨?_, ?_, ?_, ?_⟩ <;> norm_num <;> linarith
  obtain ⟨_, cb, _, ce⟩ := Game.checkCollisions_entities (fun _ => (1 : ℝ) / 2)
    ((Game.cornered Real.sin).advance Real.sin)
  obtain ⟨_, cw, ch, _⟩ := Game.checkCollisions_frame (fun _ => (1 : ℝ) / 2)
    ((Game.cornered Real.sin).advance Real.sin)
  have hact : (((Game.cornered Real.sin).advance Real.sin).checkCollisions
      (fun _ => 1 / 2)).gameActive = false := by
    unfold Game.checkCollisions
    rw [Game.winCondition_timers]
    exact hend.1
  rw [Game.update_active Real.sin _ 16 _ rfl]
  refine ⟨rfl, hact, by rw [cb, hbh.1], by rw [ce, hbh.2.1]; rfl, ?_⟩
  rw [Game.draw_of_inactive _ hact, cw, ch, (Game.advance_frame Real.sin _).2.2.2.2.2.2.2.2.1,
    (Game.advance_frame Real.sin _).2.2.2.2.2.2.2.2.2]
  rfl

/-- C6, counterexample: in the state `aimed`, under the real sine, the bullet
reaches the last enemy in this frame (`0 < sin 64 <= 1` puts the enemy's box over
`x = 435`). After `update` the bullet is still in the bullet collection with its
deletion flag set, the game is still in play, and the draw that follows fills
the bullet's rectangle. -/
theorem C6_counterexample :
    (Game.aimed Real.sin).gameActive = true ∧
    ((Game.aimed Real.sin).update Real.sin (fun _ => 1 / 2) 16).bullets =
      [{ x := 435, y := 100, markedForDeletion := true }] ∧
    ((Game.aimed Real.sin).update Real.sin (fun _ => 1 / 2) 16).enemies.map
      (fun e => e.markedForDeletion) = [true] ∧
    DrawOp.fillRect "#ff0044" 433 100 4 10 ∈
      ((Game.aimed Real.sin).update Real.sin (fun _ => 1 / 2) 16).draw := by
  obtain ⟨hb, he⟩ := Game.aimed_advance
  have key := Game.hitBullets_single (fun _ => (1 : ℝ) / 2) ((Game.aimed Real.sin).advance Real.sin)
    [] [] { x := 435, y := 100, markedForDeletion := false } [] []
    { x := 415 + Real.sin 64 * 20, y := 80, markedForDeletion := false, color := "#ff00ff",
      angle := 64 + 5 / 100, curve := 7 / 2, initialX := 415 }
    (by simp) (by simp) ⟨rfl, rfl, Game.aimed_overlaps⟩
  have hbh : (((Game.aimed Real.sin).advance Real.sin).bulletsHitEnemies (fun _ => 1 / 2)).bullets
      = [{ x := 435, y := 100, markedForDeletion := true }] ∧
      (((Game.aimed Real.sin).advance Real.sin).bulletsHitEnemies (fun _ => 1 / 2)).enemies
      = [{ x := 415 + Real.sin 64 * 20, y := 80, markedForDeletion := true, color := "#ff00ff",
           angle := 64 + 5 / 100, curve := 7 / 2, initialX := 415 }] := by
    unfold Game.bulletsHitEnemies
    rw [hb, he]
    rw [List.nil_append, List.nil_append] at key
    rw [key]
    exact ⟨rfl, rfl⟩
  obtain ⟨_, cb, _, ce⟩ := Game.checkCollisions_entities (fun _ => (1 : ℝ) / 2)
    ((Game.aimed Real.sin).advance Real.sin)
  have hact : (((Game.aimed Real.sin).advance Real.sin).checkCollisions
      (fun _ => 1 / 2)).gameActive = true := by
    rw [(Game.checkCollisions_gameActive _ _ ?_).1]
    · rw [(Game.advance_frame Real.sin _).2.2.1]; rfl
    · intro e hmem
      rw [hbh.2] at hmem
      rw [List.mem_singleton.mp hmem]
  rw [Game.update_active Real.sin _ 16 _ rfl]
  refine ⟨rfl, by rw [cb, hbh.1], by rw [ce, hbh.2]; rfl, ?_⟩
  unfold Game.draw
  rw [hact, cb, hbh.1]
  simp [Bullet.draw, Bullet.width, Bullet.height]
  norm_num

/-! ### C7: respawn -/

/-- A pass over an empty enemy collection, in play: nothing is hit, the game goes
on, and one more callback is queued. -/
theorem Game.checkCollisions_no_enemies (random : Nat → α) (g : Game α)
    (ha : g.gameActive = true) (he : g.enemies = []) :
    (g.checkCollisions random).gameActive = true ∧ (g.checkCollisions random).enemies = [] ∧
      (g.checkCollisions random).timers = g.timers + 1 := by
  obtain ⟨kills, d, _, _, fe, _⟩ := Game.bulletsHitEnemies_spec random g
  have he1 : (g.bulletsHitEnemies random).enemies = [] := by
    rw [he] at fe
    exact List.forall₂_nil_left_iff.mp fe
  have hno : ¬ ∃ e ∈ (g.bulletsHitEnemies random).enemies,
      e.markedForDeletion = false ∧ e.overlapsPlayer (g.bulletsHitEnemies random).player := by
    rw [he1]
    rintro ⟨e, hmem, _⟩
    exact absurd hmem (List.not_mem_nil _)
  have hsame := (Game.enemiesHitPlayer_spec (g.bulletsHitEnemies random)).2 hno
  have ha1 : (g.bulletsHitEnemies random).gameActive = true := by
    rw [d.2.2.2.2.2.2.2.2.1, ha]
  have ht1 : (g.bulletsHitEnemies random).timers = g.timers := d.2.2.2.2.2.2.2.2.2.2.2.2
  unfold Game.checkCollisions
  rw [hsame]
  unfold Game.winCondition
  rw [if_pos ⟨by rw [he1]; rfl, ha1⟩]
  exact ⟨ha1, he1, by rw [← ht1]⟩

/-- A frame in play with no enemy left. -/
theorem Game.update_no_enemies (sin : α → α) (random : Nat → α) (dt : α) (g : Game α)
    (ha : g.gameActive = true) (he : g.enemies = []) :
    (g.update sin random dt).gameActive = true ∧ (g.update sin random dt).enemies = [] ∧
      (g.update sin random dt).timers = g.timers + 1 := by
  rw [Game.update_active sin random dt g ha]
  have hadv : (g.advance sin).enemies = [] := by
    rw [Game.advance_enemies, (Player.update_frame g).2.2.2.2.1, he]
    rfl
  have hact : (g.advance sin).gameActive = true := by
    rw [(Game.advance_frame sin g).2.2.1, ha]
  have := Game.checkCollisions_no_enemies random (g.advance sin) hact hadv
  rw [(Game.advance_frame sin g).2.2.2.2.2.1] at this
  exact this

theorem Game.updates_cons (sin : α → α) (random : Nat → α) (k : Keys) (ks : List Keys)
    (g : Game α) :
    g.updates sin random (k :: ks) =
      ((g.setKeys k).update sin random 0).updates sin random ks := rfl

/-- Frames in play with no enemy left: each one queues a callback. -/
theorem Game.updates_no_enemies (sin : α → α) (random : Nat → α) (ks : List Keys) (g : Game α)
    (ha : g.gameActive = true) (he : g.enemies = []) :
    (g.updates sin random ks).gameActive = true ∧ (g.updates sin random ks).enemies = [] ∧
      (g.updates sin random ks).timers = g.timers + ks.length := by
  induction ks generalizing g with
  | nil => exact ⟨ha, he, rfl⟩
  | cons k ks ih =>
    rw [Game.updates_cons]
    obtain ⟨a1, e1, t1⟩ := Game.update_no_enemies sin random 0 (g.setKeys k) ha he
    obtain ⟨a2, e2, t2⟩ := ih _ a1 e1
    refine ⟨a2, e2, ?_⟩
    rw [t2, t1, List.length_cons]
    show g.timers + 1 + ks.length = g.timers + (ks.length + 1)
    omega

theorem Game.respawnCallback_of_enemies (random : Nat → α) (g : Game α) (h : g.enemies ≠ []) :
    g.respawnCallback random = g := by
  unfold Game.respawnCallback
  rw [if_neg]
  rintro ⟨_, hl⟩
  exact h (List.length_eq_zero.mp hl)

theorem Game.respawnCallback_of_inactive (random : Nat → α) (g : Game α)
    (h : g.gameActive = false) : g.respawnCallback random = g := by
  unfold Game.respawnCallback
  rw [if_neg]
  rintro ⟨ha, _⟩
  rw [h] at ha
  exact absurd ha (by simp)

theorem Game.respawnCallback_of_empty (random : Nat → α) (g : Game α)
    (ha : g.gameActive = true) (he : g.enemies = []) :
    g.respawnCallback random = g.createEnemyGrid random := by
  unfold Game.respawnCallback
  rw [if_pos ⟨ha, by rw [he]; rfl⟩]

theorem Game.createEnemyGrid_length (random : Nat → α) (g : Game α) :
    (g.createEnemyGrid random).enemies.length = 24 := by
  rw [Game.createEnemyGrid_enemies]
  simp

/-- The pending callbacks of a state in which none of them regenerates the grid
(enemies present, or game not in play): firing `n` of them only empties the
queue. -/
theorem Game.iterate_fireTimer_idle (random : Nat → α) (n : Nat) (g : Game α)
    (h : g.enemies ≠ [] ∨ g.gameActive = false) :
    Nat.iterate (Game.fireTimer random) n g = { g with timers := g.timers - n } := by
  induction n generalizing g with
  | zero => rfl
  | succ n ih =>
    rw [Function.iterate_succ_apply]
    have step : g.fireTimer random = { g with timers := g.timers - 1 } := by
      unfold Game.fireTimer
      split
      · next hz =>
        have hsub : g.timers - 1 = g.timers := by omega
        rw [hsub]
      · rcases h with h | h
        · exact Game.respawnCallback_of_enemies random _ h
        · exact Game.respawnCallback_of_inactive random _ h
    rw [step, ih { g with timers := g.timers - 1 } h]
    show ({ g with timers := g.timers - 1 - n } : Game α) = { g with timers := g.timers - (n + 1) }
    rw [Nat.sub_sub, Nat.add_comm 1 n]

/-- The first callback to fire on a state in play with no enemy left regenerates
the grid. -/
theorem Game.fireTimer_of_empty (random : Nat → α) (g : Game α) (ha : g.gameActive = true)
    (he : g.enemies = []) (ht : 0 < g.timers) :
    g.fireTimer random =
      { g with
        enemies := (List.range 24).map fun i =>
          Enemy.new random (g.randomCalls + i)
            ((g.width - 330) / 2 + ((i % 6 : Nat) : α) * 60) (80 + ((i / 6 : Nat) : α) * 60)
        randomCalls := g.randomCalls + 24
        timers := g.timers - 1 } := by
  unfold Game.fireTimer
  rw [if_neg (by omega),
    Game.respawnCallback_of_empty random { g with timers := g.timers - 1 } ha he,
    Game.createEnemyGrid_eq]

/-- Firing `n + 1` callbacks on a state in play with no enemy left has the effect
of one `createEnemyGrid`. -/
theorem Game.iterate_fireTimer_of_empty (random : Nat → α) (n : Nat) (g : Game α)
    (ha : g.gameActive = true) (he : g.enemies = []) (ht : 0 < g.timers) :
    Nat.iterate (Game.fireTimer random) (n + 1) g =
      { g.createEnemyGrid random with timers := g.timers - (n + 1) } := by
  rw [Function.iterate_succ_apply, Game.fireTimer_of_empty random g ha he ht,
    Game.iterate_fireTimer_idle random n _ (Or.inl (by simp)), Game.createEnemyGrid_eq]
  simp only [Nat.sub_sub, Nat.add_comm 1 n]

/-- C7. Respawn: let the enemy collection be empty while the state is Active.
Every frame updated during the delay leaves the state Active and the collection
empty and queues one more callback. When the queued callbacks fire, however many
frames were updated and however many callbacks fire, their effect is that of
exactly one `createEnemyGrid` (24 enemies): the first regenerates, the others only
leave the queue. A callback regenerates the grid if and only if at firing time the
state is Active and the enemy collection is empty; so after a game-over during
the delay the callbacks regenerate nothing. -/
theorem C7_respawn (sin : α → α) (random : Nat → α) (g : Game α) (ha : g.gameActive = true)
    (he : g.enemies = []) :
    (∀ ks : List Keys,
      (g.updates sin random ks).gameActive = true ∧ (g.updates sin random ks).enemies = [] ∧
        (g.updates sin random ks).timers = g.timers + ks.length) ∧
    (∀ (ks : List Keys) (n : Nat), 0 < g.timers + ks.length →
      Nat.iterate (Game.fireTimer random) (n + 1) (g.updates sin random ks) =
          { (g.updates sin random ks).createEnemyGrid random with
            timers := g.timers + ks.length - (n + 1) } ∧
        (Nat.iterate (Game.fireTimer random) (n + 1)
          (g.updates sin random ks)).enemies.length = 24) ∧
    (∀ g1 : Game α,
      (g1.respawnCallback random ≠ g1 ↔ g1.gameActive = true ∧ g1.enemies = []) ∧
        (g1.gameActive = true ∧ g1.enemies = [] →
          g1.respawnCallback random = g1.createEnemyGrid random)) ∧
    (∀ (ks : List Keys) (n : Nat),
      Nat.iterate (Game.fireTimer random) n (g.updates sin random ks).endGame =
          { (g.updates sin random ks).endGame with
            timers := (g.updates sin random ks).endGame.timers - n } ∧
        (Nat.iterate (Game.fireTimer random) n (g.updates sin random ks).endGame).enemies
          = []) := by
  have hfr := fun ks => Game.updates_no_enemies sin random ks g ha he
  refine ⟨hfr, ?_, ?_, ?_⟩
  · intro ks n hpos
    obtain ⟨a1, e1, t1⟩ := hfr ks
    have hall := Game.iterate_fireTimer_of_empty random n (g.updates sin random ks) a1 e1
      (by rw [t1]; exact hpos)
    rw [t1] at hall
    refine ⟨hall, ?_⟩
    rw [hall, Game.createEnemyGrid_eq]
    simp
  · intro g1
    constructor
    · constructor
      · intro hne
        by_contra hcon
        apply hne
        unfold Game.respawnCallback
        rw [if_neg]
        rintro ⟨h1, h2⟩
        exact hcon ⟨h1, List.length_eq_zero.mp h2⟩
      · rintro ⟨h1, h2⟩ heq
        rw [Game.respawnCallback_of_empty random g1 h1 h2] at heq
        have hl := Game.createEnemyGrid_length random g1
        rw [heq] at hl
        rw [h2] at hl
        exact Nat.noConfusion hl
    · rintro ⟨h1, h2⟩
      exact Game.respawnCallback_of_empty random g1 h1 h2
  · intro ks n
    obtain ⟨_, e1, _⟩ := hfr ks
    obtain ⟨o1, _, _, _, _, _, _, o8, _⟩ := Game.endGame_ended (g.updates sin random ks)
    have hall := Game.iterate_fireTimer_idle random n (g.updates sin random ks).endGame (Or.inr o1)
    refine ⟨hall, ?_⟩
    rw [hall]
    simp only []
    rw [o8, e1]

theorem Game.cleared_gameActive : (Game.cleared : Game α).gameActive = true := by
  simp [Game.cleared, Game.start_eq]

/-- C7, witness: the state `cleared` under the real sine. -/
theorem C7_respawn_witness :
    (Game.cleared : Game ℝ).gameActive = true ∧ (Game.cleared : Game ℝ).enemies = [] ∧
    ((∀ ks : List Keys,
      ((Game.cleared : Game ℝ).updates Real.sin (fun _ => 1 / 2) ks).gameActive = true ∧
        ((Game.cleared : Game ℝ).updates Real.sin (fun _ => 1 / 2) ks).enemies = [] ∧
        ((Game.cleared : Game ℝ).updates Real.sin (fun _ => 1 / 2) ks).timers =
          (Game.cleared : Game ℝ).timers + ks.length) ∧
    (∀ (ks : List Keys) (n : Nat), 0 < (Game.cleared : Game ℝ).timers + ks.length →
      Nat.iterate (Game.fireTimer (fun _ => 1 / 2)) (n + 1)
          ((Game.cleared : Game ℝ).updates Real.sin (fun _ => 1 / 2) ks) =
          { ((Game.cleared : Game ℝ).updates Real.sin (fun _ => 1 / 2) ks).createEnemyGrid
              (fun _ => 1 / 2) with
            timers := (Game.cleared : Game ℝ).timers + ks.length - (n + 1) } ∧
        (Nat.iterate (Game.fireTimer (fun _ => 1 / 2)) (n + 1)
          ((Game.cleared : Game ℝ).updates Real.sin (fun _ => 1 / 2) ks)).enemies.length = 24) ∧
    (∀ g1 : Game ℝ,
      (g1.respawnCallback (fun _ => 1 / 2) ≠ g1 ↔ g1.gameActive = true ∧ g1.enemies = []) ∧
        (g1.gameActive = true ∧ g1.enemies = [] →
          g1.respawnCallback (fun _ => 1 / 2) = g1.createEnemyGrid (fun _ => 1 / 2))) ∧
    (∀ (ks : List Keys) (n : Nat),
      Nat.iterate (Game.fireTimer (fun _ => 1 / 2)) n
          ((Game.cleared : Game ℝ).updates Real.sin (fun _ => 1 / 2) ks).endGame =
          { ((Game.cleared : Game ℝ).updates Real.sin (fun _ => 1 / 2) ks).endGame with
            timers :=
              ((Game.cleared : Game ℝ).updates Real.sin (fun _ => 1 / 2) ks).endGame.timers - n } ∧
        (Nat.iterate (Game.fireTimer (fun _ => 1 / 2)) n
          ((Game.cleared : Game ℝ).updates Real.sin (fun _ => 1 / 2) ks).endGame).enemies
          = [])) :=
  ⟨Game.cleared_gameActive, rfl,
    C7_respawn Real.sin (fun _ => 1 / 2) Game.cleared Game.cleared_gameActive rfl⟩

/-! ### C18: the box a bullet is drawn in -/

/-- C18. The rectangle filled by `Bullet.draw` is `(x - 2, y, 4, 10)`, centred on
`x`, while the box tested by `checkCollisions` is `(x, y, 4, 10)`: for the bullet at
`(400, 270)` and the enemy whose box is `(370, 260, 30, 30)` the drawn rectangle
`(398, 270, 4, 10)` overlaps the enemy's box and the collision test fails. -/
theorem C18_bullet_drawn_box :
    (∀ b : Bullet ℚ, b.draw = [DrawOp.fillRect "#ff0044" (b.x - 2) b.y 4 10]) ∧
    (∀ (b : Bullet ℚ) (e : Enemy ℚ), b.overlaps e ↔
      (b.x < e.x + 30 ∧ b.x + 4 > e.x ∧ b.y < e.y + 30 ∧ b.y + 10 > e.y)) ∧
    (Bullet.new (400 : ℚ) 270).draw = [DrawOp.fillRect "#ff0044" 398 270 4 10] ∧
    ¬ (Bullet.new (400 : ℚ) 270).overlaps (Enemy.new (fun _ => 1 / 2) 18 370 260) ∧
    ((398 : ℚ) < (Enemy.new (fun _ => 1 / 2) 18 370 260).x + 30 ∧
      (398 : ℚ) + 4 > (Enemy.new (fun _ => 1 / 2) 18 370 260).x ∧
      (270 : ℚ) < (Enemy.new (fun _ => 1 / 2) 18 370 260).y + 30 ∧
      (270 : ℚ) + 10 > (Enemy.new (fun _ => 1 / 2) 18 370 260).y) := by
  refine ⟨?_, ?_, ?_, ?_, ?_⟩
  · intro b
    simp only [Bullet.draw, Bullet.width, Bullet.height]
    norm_num
  · intro b e
    simp only [Bullet.overlaps, Bullet.width, Bullet.height, Enemy.width, Enemy.height]
  · simp only [Bullet.draw, Bullet.width, Bullet.height, Bullet.new]
    norm_num
  · simp only [Bullet.overlaps, Bullet.width, Bullet.height, Enemy.width, Enemy.height,
      Bullet.new, Enemy.new]
    norm_num
  · simp only [Enemy.new]
    norm_num

/-! ### C15: a second `endGame` -/

theorem Game.endGame_dom (g : Game α) :
    g.endGame.dom = g.dom ++
      (if g.score > g.highScore then [DomEvent.innerText "high-score" g.score] else []) ++
      [DomEvent.innerText "final-score" g.score,
       DomEvent.classListRemove "game-over-screen" "hidden",
       DomEvent.classListAdd "game-over-screen" "active"] := by
  unfold Game.endGame
  by_cases h : g.score > g.highScore
  · simp [h]
  · simp [h]

/-- A second `endGame` right after a first one: the state and the store stay, the
page is written again. -/
theorem Game.endGame_endGame (g : Game α) :
    g.endGame.endGame =
      { g.endGame with
        dom := g.endGame.dom ++
          [DomEvent.innerText "final-score" g.score,
           DomEvent.classListRemove "game-over-screen" "hidden",
           DomEvent.classListAdd "game-over-screen" "active"] } := by
  have hle : ¬ g.endGame.score > g.endGame.highScore := by
    obtain ⟨_, _, e3, _, e5, _⟩ := Game.endGame_ended g
    rw [e3, e5]
    exact not_lt.mpr (le_max_right _ _)
  have hs : g.endGame.score = g.score := (Game.endGame_ended g).2.2.2.2.1
  have hga : g.endGame.gameActive = false := (Game.endGame_ended g).1
  have hgo : g.endGame.gameOver = true := (Game.endGame_ended g).2.1
  generalize g.endGame = r at *
  cases r
  simp only at hle hs hga hgo
  subst hs hga hgo
  unfold Game.endGame
  simp only [hle, if_false]

/-- C15 (amended). Game-over is idempotent on the state and the store: a second
`endGame` right after a first leaves the state flags, the score, the high score
and everything else of the World as the first call left them, writes nothing to
the persistent store and does not publish the high score again; it does repeat
the three notifications of the game-over screen (final score text, class
`hidden` removed, class `active` added), with the same values as the first call. -/
theorem C15_endGame_twice (g : Game α) :
    g.endGame.endGame.gameActive = g.endGame.gameActive ∧
    g.endGame.endGame.gameOver = g.endGame.gameOver ∧
    g.endGame.endGame.score = g.endGame.score ∧
    g.endGame.endGame.highScore = g.endGame.highScore ∧
    g.endGame.endGame.storage = g.endGame.storage ∧
    g.endGame.endGame.dom = g.endGame.dom ++
      [DomEvent.innerText "final-score" g.score,
       DomEvent.classListRemove "game-over-screen" "hidden",
       DomEvent.classListAdd "game-over-screen" "active"] ∧
    g.endGame.endGame =
      { g.endGame with
        dom := g.endGame.dom ++
          [DomEvent.innerText "final-score" g.score,
           DomEvent.classListRemove "game-over-screen" "hidden",
           DomEvent.classListAdd "game-over-screen" "active"] } := by
  have h := Game.endGame_endGame g
  refine ⟨?_, ?_, ?_, ?_, ?_, ?_, h⟩ <;> rw [h]

/-- C15, counterexample: in the state `caught` a second `endGame` adds three
writes to the page after those of the first call. -/
theorem C15_counterexample :
    Game.caught.endGame.endGame.dom = Game.caught.endGame.dom ++
      [DomEvent.innerText "final-score" 300,
       DomEvent.classListRemove "game-over-screen" "hidden",
       DomEvent.classListAdd "game-over-screen" "active"] ∧
    Game.caught.endGame.endGame.dom ≠ Game.caught.endGame.dom := by
  have h : Game.caught.endGame.endGame.dom = Game.caught.endGame.dom ++
      [DomEvent.innerText "final-score" 300,
       DomEvent.classListRemove "game-over-screen" "hidden",
       DomEvent.classListAdd "game-over-screen" "active"] := by
    rw [Game.endGame_endGame]
    rfl
  refine ⟨h, ?_⟩
  rw [h]
  intro hcon
  have := congrArg List.length hcon
  simp at this

/-! ### C14: resize -/

theorem Game.resize_player_x (w h : α) (g : Game α) :
    (g.resize w h).player.x = if g.player.x > w then w / 2 else g.player.x := by
  unfold Game.resize
  simp only
  split <;> rfl

/-- C14 (amended). Resize: after `resize` to `(W, H)` the recorded width and height
are `W` and `H` and `player.y = H - 40 - 20`; a player whose `x` is at most `W` keeps
its `x` (so an `x` in `(W - 40, W]` is not re-clamped by `resize`); on a surface
with `W >= 40` the next `Player.update` brings `x` back into `[0, W - 40]`; bullets,
enemies, particles, score, highScore and the state flags are unchanged. -/
theorem C14_resize (w h : α) (g : Game α) :
    (g.resize w h).width = w ∧ (g.resize w h).height = h ∧
    (g.resize w h).player.y = h - 40 - 20 ∧
    (g.player.x ≤ w → (g.resize w h).player.x = g.player.x) ∧
    (40 ≤ w → ∀ k : Keys,
      0 ≤ (Player.update ((g.resize w h).setKeys k)).player.x ∧
        (Player.update ((g.resize w h).setKeys k)).player.x ≤ w - 40) ∧
    (g.resize w h).bullets = g.bullets ∧ (g.resize w h).enemies = g.enemies ∧
    (g.resize w h).particles = g.particles ∧ (g.resize w h).score = g.score ∧
    (g.resize w h).highScore = g.highScore ∧ (g.resize w h).gameActive = g.gameActive ∧
    (g.resize w h).gameOver = g.gameOver := by
  refine ⟨rfl, rfl, ?_, ?_, ?_, rfl, rfl, rfl, rfl, rfl, rfl, rfl⟩
  · unfold Game.resize
    simp only [Player.height]
    split <;> rfl
  · intro hx
    rw [Game.resize_player_x, if_neg (not_lt.mpr hx)]
  · intro hw k
    have hwd : ((g.resize w h).setKeys k).width = w := rfl
    constructor
    · exact Player.update_x_nonneg _ (by rw [hwd]; exact hw)
    · have := Player.update_x_le ((g.resize w h).setKeys k)
      rw [hwd] at this
      exact this

/-- C14, counterexample: the sample game (surface 800 wide, player at `x = 380`)
resized to a container 400 wide: `380 > 400` is false, the player keeps `x = 380`,
outside `[0, 400 - 40]`. -/
theorem C14_counterexample :
    (40 : ℚ) ≤ 400 ∧ (Game.sample.resize 400 600).player.x = 380 ∧
    ¬ ((Game.sample.resize 400 600).player.x ≤ 400 - 40) := by
  have h : (Game.sample.resize 400 600).player.x = 380 := by
    rw [Game.resize_player_x]
    simp [Game.sample, Game.start_eq, Game.new, Game.resize]
    norm_num
  refine ⟨by norm_num, h, ?_⟩
  rw [h]
  norm_num

/-! ### C12: bullet culling -/

/-- C12 (amended). Bullet culling: `Bullet.update` changes only `y` (`y' = y - 10`)
and the deletion flag, which is set after it exactly when it was set before or
`y' < 0`. For every bullet present at the start of an `update` and NOT marked for
deletion, the bullet is absent from the bullet collection after the filter step
if `y < 10` and is kept, in unchanged relative order with `y' = y - 10 >= 0`,
otherwise (a bullet already marked is removed whatever its `y`); the bullet fired
in the frame, if any, follows the old ones. The collision pass of an Active
update then changes at most flags. A bullet at `y = 5` is removed by its first
update. -/
theorem C12_bullet_culling (sin : α → α) (random : Nat → α) (dt : α) (g : Game α) :
    (∀ b : Bullet α, b.update.x = b.x ∧ b.update.y = b.y - 10 ∧
      (b.update.markedForDeletion = true ↔ (b.markedForDeletion = true ∨ b.y - 10 < 0))) ∧
    (∃ fired : List (Bullet α), fired.length ≤ 1 ∧
      (Player.update g).bullets = g.bullets ++ fired ∧
      (g.advance sin).bullets =
        (g.bullets.filter (fun b => !b.markedForDeletion && decide (10 ≤ b.y))).map
            (fun b => { b with y := b.y - 10 }) ++
          (fired.filter (fun b => !b.markedForDeletion && decide (10 ≤ b.y))).map
            (fun b => { b with y := b.y - 10 })) ∧
    (∀ b ∈ g.bullets, b.markedForDeletion = false →
      (b.y < 10 → b.update ∉ (g.advance sin).bullets) ∧
      (10 ≤ b.y → b.update = { b with y := b.y - 10 } ∧ 0 ≤ b.update.y ∧
        b.update ∈ (g.advance sin).bullets)) ∧
    (∀ b ∈ g.bullets, b.markedForDeletion = false → b.y = 5 →
      b.update.y = -5 ∧ b.update ∉ (g.advance sin).bullets) ∧
    (g.gameActive = true →
      List.Forall₂ Bullet.MarkedFrom (g.advance sin).bullets (g.update sin random dt).bullets) := by
  have habs : ∀ b ∈ g.bullets, b.y < 10 → b.update ∉ (g.advance sin).bullets := by
    intro b _ hy hmem
    have hun := (Game.advance_unmarked sin g).1 _ hmem
    have hm := (Bullet.update_fields b).2.2.mpr (Or.inr (by linarith))
    rw [hm] at hun
    exact absurd hun (by simp)
  refine ⟨Bullet.update_fields, ?_, ?_, ?_, ?_⟩
  · obtain ⟨fired, hl, _, hf, ha⟩ := Game.advance_bullets_eq sin g
    exact ⟨fired, hl, hf, ha⟩
  · intro b hb hu
    refine ⟨habs b hb, fun hy => ?_⟩
    have hupd : b.update = { b with y := b.y - 10 } := by
      unfold Bullet.update
      simp only [Bullet.speed]
      rw [if_neg (not_lt.mpr (sub_nonneg.mpr hy))]
    refine ⟨hupd, ?_, ?_⟩
    · rw [hupd]; exact sub_nonneg.mpr hy
    · obtain ⟨fired, _, _, _, ha⟩ := Game.advance_bullets_eq sin g
      rw [ha, hupd]
      apply List.mem_append_left
      apply List.mem_map.mpr
      exact ⟨b, List.mem_filter.mpr ⟨hb, by simp [hu, hy]⟩, rfl⟩
  · intro b hb _ hy
    refine ⟨?_, habs b hb (by rw [hy]; norm_num)⟩
    rw [(Bullet.update_fields b).2.1, hy]
    norm_num
  · intro ha
    rw [Game.update_active sin random dt g ha]
    obtain ⟨_, fb, _⟩ := Game.checkCollisions_marks random (g.advance sin)
    exact fb

/-- The state left by the frame on the state `aimed`: still in play, the bullet
in the collection with its flag set, no key held. -/
theorem Game.aimed_update :
    ((Game.aimed Real.sin).update Real.sin (fun _ => 1 / 2) 16).gameActive = true ∧
    ((Game.aimed Real.sin).update Real.sin (fun _ => 1 / 2) 16).bullets =
      [{ x := 435, y := 100, markedForDeletion := true }] ∧
    ((Game.aimed Real.sin).update Real.sin (fun _ => 1 / 2) 16).keys.Space = false := by
  obtain ⟨hb, he⟩ := Game.aimed_advance
  have key := Game.hitBullets_single (fun _ => (1 : ℝ) / 2) ((Game.aimed Real.sin).advance Real.sin)
    [] [] { x := 435, y := 100, markedForDeletion := false } [] []
    { x := 415 + Real.sin 64 * 20, y := 80, markedForDeletion := false, color := "#ff00ff",
      angle := 64 + 5 / 100, curve := 7 / 2, initialX := 415 }
    (by simp) (by simp) ⟨rfl, rfl, Game.aimed_overlaps⟩
  rw [List.nil_append, List.nil_append] at key
  have hbh : (((Game.aimed Real.sin).advance Real.sin).bulletsHitEnemies (fun _ => 1 / 2)).bullets
      = [{ x := 435, y := 100, markedForDeletion := true }] ∧
      ∀ e ∈ (((Game.aimed Real.sin).advance Real.sin).bulletsHitEnemies
        (fun _ => 1 / 2)).enemies, e.markedForDeletion = true := by
    unfold Game.bulletsHitEnemies
    rw [hb, he, key]
    refine ⟨rfl, fun e hmem => ?_⟩
    rw [List.mem_singleton.mp hmem]
  obtain ⟨_, cb, _, _⟩ := Game.checkCollisions_entities (fun _ => (1 : ℝ) / 2)
    ((Game.aimed Real.sin).advance Real.sin)
  rw [Game.update_active Real.sin _ 16 _ rfl]
  refine ⟨?_, by rw [cb, hbh.1], ?_⟩
  · rw [(Game.checkCollisions_gameActive _ _ hbh.2).1, (Game.advance_frame Real.sin _).2.2.1]
    rfl
  · rw [(Game.checkCollisions_frame _ _).2.2.2]
    have hk : ((Game.aimed Real.sin).advance Real.sin).keys = (Game.aimed Real.sin).keys :=
      (Player.update_frame _).2.2.2.2.2.2.2.2.2.2.2
    rw [hk]
    rfl

/-- C12, counterexample: the bullet that the frame on the state `aimed` has marked
in its collision pass is present at the start of the next update, which is
Active, with `y = 100 >= 10`; the filter step of that update removes it. -/
theorem C12_counterexample :
    ((Game.aimed Real.sin).update Real.sin (fun _ => 1 / 2) 16).gameActive = true ∧
    ({ x := 435, y := 100, markedForDeletion := true } : Bullet ℝ) ∈
      ((Game.aimed Real.sin).update Real.sin (fun _ => 1 / 2) 16).bullets ∧
    ¬ (({ x := 435, y := 100, markedForDeletion := true } : Bullet ℝ).y < 10) ∧
    (((Game.aimed Real.sin).update Real.sin (fun _ => 1 / 2) 16).advance Real.sin).bullets
      = [] := by
  obtain ⟨ha, hb, hk⟩ := Game.aimed_update
  refine ⟨ha, by rw [hb]; exact List.mem_singleton.mpr rfl, by norm_num, ?_⟩
  obtain ⟨fired, _, hs, _, hadv⟩ := Game.advance_bullets_eq Real.sin
    ((Game.aimed Real.sin).update Real.sin (fun _ => 1 / 2) 16)
  rw [hadv, hs hk, hb]
  simp

/-! ### C16: first-match consumption -/

theorem Game.hit_eq_destroy (random : Nat → α) (g : Game α) (b : Bullet α) (e : Enemy α)
    (h : b.markedForDeletion = false ∧ e.markedForDeletion = false ∧ b.overlaps e) :
    Game.hit random g b e =
      (g.destroy random e, { b with markedForDeletion := true },
        { e with markedForDeletion := true }) := by
  unfold Game.hit
  rw [if_pos h]
  simp only [Game.explode_eq, Game.destroy, Enemy.width, Enemy.height]
  have h15 : (30 : α) / 2 = 15 := by norm_num
  simp only [h15]

/-- The inner loop of the code, for a bullet not yet marked, is the scan for the
first unmarked overlapping enemy. -/
theorem Game.hitEnemies_eq_markFirst (random : Nat → α) (g : Game α) (b : Bullet α)
    (es : List (Enemy α)) (hb : b.markedForDeletion = false) :
    Game.hitEnemies random g b es = Game.markFirst random g b es := by
  induction es with
  | nil => rfl
  | cons e es ih =>
    rw [Game.hitEnemies_cons]
    unfold Game.markFirst
    by_cases h : e.markedForDeletion = false ∧ b.overlaps e
    · rw [if_pos h, Game.hit_eq_destroy random g b e ⟨hb, h.1, h.2⟩]
      simp only []
      rw [Game.hitEnemies_of_marked random _ _ es rfl]
    · rw [if_neg h, Game.hit_of_not random g b e (fun hc => h ⟨hc.2.1, hc.2.2⟩)]
      simp only []
      rw [ih]

/-- The bullet-enemy loops of the code compute the greedy reference matching. -/
theorem Game.hitBullets_eq_greedyMatching (random : Nat → α) (g : Game α)
    (bs : List (Bullet α)) (es : List (Enemy α)) :
    Game.hitBullets random g bs es = Game.greedyMatching random g bs es := by
  induction bs generalizing g es with
  | nil => rfl
  | cons b bs ih =>
    rw [Game.hitBullets_cons]
    unfold Game.greedyMatching
    by_cases hb : b.markedForDeletion = false
    · rw [if_pos hb, Game.hitEnemies_eq_markFirst random g b es hb]
      simp only []
      rw [ih]
    · have hb' : b.markedForDeletion = true := by simpa using hb
      rw [if_neg hb, Game.hitEnemies_of_marked random g b es hb']
      simp only []
      rw [ih]

/-- C16. First-match consumption: the bullet-enemy phase of `checkCollisions`
equals the greedy reference matching, which scans the bullets in collection order
and, for each bullet not yet marked, marks it together with the first enemy in
collection order that is not yet marked and whose box overlaps it (strictly, on
both axes). Hence one bullet destroys at most one enemy per pass, the pass raises
as many enemy flags and as many bullet flags as it destroys enemies (no enemy is
destroyed twice), and a pair with a marked member is never matched. -/
theorem C16_first_match (random : Nat → α) (g : Game α) :
    g.bulletsHitEnemies random =
      { (Game.greedyMatching random g g.bullets g.enemies).1 with
        bullets := (Game.greedyMatching random g g.bullets g.enemies).2.1
        enemies := (Game.greedyMatching random g g.bullets g.enemies).2.2 } ∧
    (∀ (g1 : Game α) (bs : List (Bullet α)) (es : List (Enemy α)),
      Game.hitBullets random g1 bs es = Game.greedyMatching random g1 bs es) ∧
    (∀ (b : Bullet α) (e : Enemy α), b.overlaps e ↔
      (b.x < e.x + 30 ∧ b.x + 4 > e.x ∧ b.y < e.y + 30 ∧ b.y + 10 > e.y)) ∧
    (∀ (g1 : Game α) (b : Bullet α) (es : List (Enemy α)), ∃ kills : List (Enemy α),
      kills.length ≤ 1 ∧ Game.Destroyed g1 (Game.hitEnemies random g1 b es).1 kills ∧
      Enemy.marked (Game.hitEnemies random g1 b es).2.2 = Enemy.marked es + kills.length) ∧
    (∃ kills : List (Enemy α),
      Game.Destroyed g (g.bulletsHitEnemies random) kills ∧
      (∀ e ∈ kills, e ∈ g.enemies ∧ e.markedForDeletion = false) ∧
      Bullet.marked (g.bulletsHitEnemies random).bullets = Bullet.marked g.bullets + kills.length ∧
      Enemy.marked (g.bulletsHitEnemies random).enemies
        = Enemy.marked g.enemies + kills.length) ∧
    (∀ (g1 : Game α) (b : Bullet α) (e : Enemy α),
      (b.markedForDeletion = true ∨ e.markedForDeletion = true) →
        Game.hit random g1 b e = (g1, b, e)) := by
  refine ⟨?_, Game.hitBullets_eq_greedyMatching random, ?_, ?_, ?_, ?_⟩
  · unfold Game.bulletsHitEnemies
    rw [Game.hitBullets_eq_greedyMatching]
  · intro b e
    simp only [Bullet.overlaps, Bullet.width, Bullet.height, Enemy.width, Enemy.height]
  · intro g1 b es
    obtain ⟨kills, d, _, cb, _, ce, _⟩ := Game.hitEnemies_spec random g1 b es
    refine ⟨kills, ?_, d, ce⟩
    rw [Bullet.marked_singleton, Bullet.marked_singleton] at cb
    split_ifs at cb <;> omega
  · obtain ⟨kills, d, _, cb, _, ce, mem⟩ := Game.bulletsHitEnemies_spec random g
    exact ⟨kills, d, mem, cb, ce⟩
  · intro g1 b e h
    apply Game.hit_of_not
    rintro ⟨h1, h2, _⟩
    rcases h with h | h
    · rw [h1] at h; exact absurd h (by simp)
    · rw [h2] at h; exact absurd h (by simp)

/-! ### Particles -/

/-- The particles of an explosion are created with life 1. -/
theorem Particle.life_of_origin_mem_burst {ps : List (Particle α)} {kills : List (Enemy α)}
    (h : ps.map Particle.origin = kills.flatMap Enemy.burst) :
    ∀ p ∈ ps, p.life = 1 := by
  intro p hp
  have hmem : p.origin ∈ kills.flatMap Enemy.burst := by
    rw [← h]
    exact List.mem_map_of_mem _ hp
  obtain ⟨e, _, he⟩ := List.mem_flatMap.mp hmem
  have := List.eq_of_mem_replicate he
  have h4 := congrArg (fun o => o.2.2.2) this
  exact h4

/-- The particles after a frame in play: the old ones that are still alive,
advanced, then the ones of the explosions of this frame. -/
theorem Game.update_particles (sin : α → α) (random : Nat → α) (dt : α) (g : Game α)
    (ha : g.gameActive = true) :
    ∃ ps : List (Particle α), (∀ p ∈ ps, p.life = 1) ∧
      (g.update sin random dt).particles =
        (g.particles.map Particle.update).filter (fun p => decide (p.life > 0)) ++ ps := by
  rw [Game.update_active sin random dt g ha]
  obtain ⟨_, _, hp, _⟩ := Game.checkCollisions_entities random (g.advance sin)
  obtain ⟨kills, d, _⟩ := Game.bulletsHitEnemies_spec random (g.advance sin)
  obtain ⟨_, ⟨ps, d2, d3⟩, _⟩ := d
  refine ⟨ps, Particle.life_of_origin_mem_burst d3, ?_⟩
  rw [hp, d2, Game.advance_particles, (Player.update_frame g).2.2.2.2.2.1]

/-- After a frame in play every particle of the collection is alive. -/
theorem Game.update_particles_alive (sin : α → α) (random : Nat → α) (dt : α) (g : Game α)
    (ha : g.gameActive = true) : ∀ p ∈ (g.update sin random dt).particles, 0 < p.life := by
  obtain ⟨ps, h1, h2⟩ := Game.update_particles sin random dt g ha
  intro p hp
  rw [h2] at hp
  rcases List.mem_append.mp hp with hp | hp
  · simpa using (List.mem_filter.mp hp).2
  · rw [h1 p hp]
    exact zero_lt_one

theorem Game.fireTimer_particles (random : Nat → α) (g : Game α) :
    (g.fireTimer random).particles = g.particles := by
  unfold Game.fireTimer Game.respawnCallback
  split
  · rfl
  · split
    · rw [Game.createEnemyGrid_eq]
    · rfl

/-! ### C13: no dead particle is drawn -/

/-- Every event keeps the particles of the collection alive. -/
theorem Game.step_particles_alive (sin : α → α) (random : Nat → α) (ev : Event α) (g : Game α)
    (h : ∀ p ∈ g.particles, 0 < p.life) : ∀ p ∈ (g.step sin random ev).particles, 0 < p.life := by
  cases ev with
  | tick t =>
    cases t with
    | frame k dt =>
      show ∀ p ∈ ((g.setKeys k).update sin random dt).particles, 0 < p.life
      by_cases ha : (g.setKeys k).gameActive = true
      · exact Game.update_particles_alive sin random dt _ ha
      · have ha' : (g.setKeys k).gameActive = false := by simpa using ha
        rw [Game.update_advance, if_pos ha']
        exact h
    | timer =>
      show ∀ p ∈ (g.fireTimer random).particles, 0 < p.life
      rw [Game.fireTimer_particles]
      exact h
  | start =>
    show ∀ p ∈ (g.start random).particles, 0 < p.life
    rw [Game.start_eq]
    intro p hp
    exact absurd hp (List.not_mem_nil _)
  | endGame =>
    show ∀ p ∈ g.endGame.particles, 0 < p.life
    rw [(Game.endGame_ended g).2.2.2.2.2.2.1]
    exact h
  | resize w hh => exact h

theorem Game.run_particles_alive (sin : α → α) (random : Nat → α) (evs : List (Event α))
    (g : Game α) (h : ∀ p ∈ g.particles, 0 < p.life) :
    ∀ p ∈ (g.run sin random evs).particles, 0 < p.life := by
  induction evs generalizing g with
  | nil => exact h
  | cons ev evs ih => exact ih _ (Game.step_particles_alive sin random ev g h)

/-- C13. No dead particle is ever drawn: in every state reached from `start()` by
any sequence of `update` (under any keys), `endGame`, `resize`, respawn-timer and
further `start` steps, every particle of the particle collection has `life > 0`,
and every circle filled by `draw` is drawn under a `globalAlpha > 0`. -/
theorem C13_particles_alive (sin : α → α) (random : Nat → α) (g0 : Game α)
    (evs : List (Event α)) :
    (∀ p ∈ ((g0.start random).run sin random evs).particles, 0 < p.life) ∧
    (∀ (style : String) (alpha x y radius : α),
      DrawOp.fillArc style alpha x y radius ∈ ((g0.start random).run sin random evs).draw →
        0 < alpha) := by
  have hal : ∀ p ∈ ((g0.start random).run sin random evs).particles, 0 < p.life := by
    apply Game.run_particles_alive
    rw [Game.start_eq]
    intro p hp
    exact absurd hp (List.not_mem_nil _)
  refine ⟨hal, ?_⟩
  intro style alpha x y radius hmem
  unfold Game.draw at hmem
  rcases List.mem_cons.mp hmem with h | h
  · exact absurd h (by simp)
  · split at h
    · simp only [List.mem_append, List.mem_flatMap, Player.draw, Enemy.draw, Bullet.draw,
        Particle.draw, List.mem_cons, List.mem_singleton, List.not_mem_nil, or_false] at h
      rcases h with ((h | ⟨e, _, h⟩) | ⟨b, _, h⟩) | ⟨p, hp, h⟩
      · exact absurd h (by simp)
      · rcases h with h | h | h <;> exact absurd h (by simp)
      · exact absurd h (by simp)
      · have hl := hal p hp
        simp only [DrawOp.fillArc.injEq] at h
        rw [h.2.1]
        exact hl
    · exact absurd h (List.not_mem_nil _)

/-! ### C11: particle lifetime -/

theorem Particle.iterate_update (n : Nat) (p : Particle α) :
    (Nat.iterate Particle.update n p).life = p.life - n * p.decay ∧
      (Nat.iterate Particle.update n p).decay = p.decay := by
  induction n generalizing p with
  | zero => simp
  | succ n ih =>
    rw [Function.iterate_succ_apply]
    obtain ⟨h1, h2⟩ := ih p.update
    rw [h1, h2]
    refine ⟨?_, rfl⟩
    show p.life - p.decay - n * p.decay = p.life - ((n + 1 : Nat) : α) * p.decay
    push_cast
    ring

theorem Game.updates_snoc (sin : α → α) (random : Nat → α) (ks : List Keys) (k : Keys)
    (g : Game α) :
    g.updates sin random (ks ++ [k]) =
      ((g.updates sin random ks).setKeys k).update sin random 0 := by
  simp [Game.updates, List.foldl_append]

/-- A particle that is alive through `n` frames in play is in the collection after
them, advanced `n` times. -/
theorem Game.updates_particle_mem (sin : α → α) (random : Nat → α) (ks : List Keys)
    (g : Game α) (q : Particle α) (hq : q ∈ g.particles) (hd : 0 < q.decay)
    (hpos : 0 < q.life - ks.length * q.decay)
    (hact : ∀ i < ks.length, (g.updates sin random (ks.take i)).gameActive = true) :
    Nat.iterate Particle.update ks.length q ∈ (g.updates sin random ks).particles := by
  induction ks generalizing g q with
  | nil => exact hq
  | cons k ks ih =>
    rw [Game.updates_cons, List.length_cons, Function.iterate_succ_apply]
    have ha : (g.setKeys k).gameActive = true := hact 0 (by simp)
    have hn : (0 : α) ≤ (ks.length : α) * q.decay :=
      mul_nonneg (Nat.cast_nonneg _) (le_of_lt hd)
    have hpos' : 0 < q.life - ((ks.length : α) + 1) * q.decay := by
      have := hpos
      rw [List.length_cons] at this
      push_cast at this
      exact this
    apply ih
    · obtain ⟨ps, _, hpart⟩ := Game.update_particles sin random 0 (g.setKeys k) ha
      rw [hpart]
      apply List.mem_append_left
      apply List.mem_filter.mpr
      refine ⟨List.mem_map_of_mem _ hq, ?_⟩
      have : 0 < q.life - q.decay := by linarith
      simpa [Particle.update] using this
    · exact hd
    · show 0 < q.life - q.decay - (ks.length : α) * q.decay
      linarith
    · intro i hi
      have := hact (i + 1) (by simp; omega)
      rw [List.take_succ_cons, Game.updates_cons] at this
      exact this

/-- After at least one frame, the last one in play, every particle in the
collection is alive. -/
theorem Game.updates_particles_alive (sin : α → α) (random : Nat → α) (ks : List Keys)
    (g : Game α) (hne : ks ≠ [])
    (hact : ∀ i < ks.length, (g.updates sin random (ks.take i)).gameActive = true) :
    ∀ q ∈ (g.updates sin random ks).particles, 0 < q.life := by
  obtain ⟨ks1, k, rfl⟩ : ∃ ks1 k, ks = ks1 ++ [k] :=
    ⟨ks.dropLast, ks.getLast hne, (List.dropLast_append_getLast hne).symm⟩
  rw [Game.updates_snoc]
  apply Game.update_particles_alive
  have := hact ks1.length (by simp)
  rw [List.take_left' rfl] at this
  exact this

/-- C11. Particle lifetime, under exact arithmetic: a Particle of the particle
collection with life 1 and decay `d > 0` is still in the collection (advanced `k`
times) after `k` update calls, each made with the state Active, if and only if
`k d < 1`, that is if and only if `k < ceil(1/d)`: it is removed by exactly the
`ceil(1/d)`-th update. For `d = 0.05` it is there after 19 updates and gone after
the 20th. -/
theorem C11_particle_lifetime [FloorRing α] (sin : α → α) (random : Nat → α) (g : Game α)
    (p : Particle α) (ks : List Keys) (hp : p ∈ g.particles) (hl : p.life = 1)
    (hd : 0 < p.decay)
    (hact : ∀ i < ks.length, (g.updates sin random (ks.take i)).gameActive = true) :
    (Nat.iterate Particle.update ks.length p ∈ (g.updates sin random ks).particles ↔
      (ks.length : α) * p.decay < 1) ∧
    (Nat.iterate Particle.update ks.length p ∈ (g.updates sin random ks).particles ↔
      ks.length < ⌈1 / p.decay⌉₊) ∧
    (p.decay = 5 / 100 →
      (ks.length = 19 →
        Nat.iterate Particle.update ks.length p ∈ (g.updates sin random ks).particles) ∧
      (ks.length = 20 →
        Nat.iterate Particle.update ks.length p ∉ (g.updates sin random ks).particles)) := by
  have key : Nat.iterate Particle.update ks.length p ∈ (g.updates sin random ks).particles ↔
      (ks.length : α) * p.decay < 1 := by
    constructor
    · intro hmem
      by_cases hne : ks = []
      · rw [hne]
        simp
      · have := Game.updates_particles_alive sin random ks g hne hact _ hmem
        rw [(Particle.iterate_update ks.length p).1, hl] at this
        linarith
    · intro hlt
      apply Game.updates_particle_mem sin random ks g p hp hd _ hact
      rw [hl]
      linarith
  refine ⟨key, ?_, ?_⟩
  · rw [key, Nat.lt_ceil, lt_div_iff₀ hd]
  · intro h5
    rw [key, h5]
    constructor
    · intro h19
      rw [h19]
      norm_num
    · intro h20
      rw [h20]
      norm_num

theorem Game.sparked_gameActive : (Game.sparked : Game α).gameActive = true := by
  simp [Game.sparked, Game.cleared, Game.start_eq]

/-- C11, witness: the state `sparked` under the real sine, a particle of decay
`0.05`, twenty frames with the fire key held. -/
theorem C11_particle_lifetime_witness :
    Particle.new (fun _ => 3 / 5) 0 250 95 "#ff00ff" ∈ (Game.sparked : Game ℝ).particles ∧
    (Particle.new (fun _ => (3 : ℝ) / 5) 0 250 95 "#ff00ff").life = 1 ∧
    0 < (Particle.new (fun _ => (3 : ℝ) / 5) 0 250 95 "#ff00ff").decay ∧
    (∀ i < (List.replicate 20 Keys.fire).length,
      ((Game.sparked : Game ℝ).updates Real.sin (fun _ => 1 / 2)
        ((List.replicate 20 Keys.fire).take i)).gameActive = true) ∧
    ((Nat.iterate Particle.update (List.replicate 20 Keys.fire).length
          (Particle.new (fun _ => (3 : ℝ) / 5) 0 250 95 "#ff00ff") ∈
        ((Game.sparked : Game ℝ).updates Real.sin (fun _ => 1 / 2)
          (List.replicate 20 Keys.fire)).particles ↔
      ((List.replicate 20 Keys.fire).length : ℝ) *
        (Particle.new (fun _ => (3 : ℝ) / 5) 0 250 95 "#ff00ff").decay < 1) ∧
    (Nat.iterate Particle.update (List.replicate 20 Keys.fire).length
          (Particle.new (fun _ => (3 : ℝ) / 5) 0 250 95 "#ff00ff") ∈
        ((Game.sparked : Game ℝ).updates Real.sin (fun _ => 1 / 2)
          (List.replicate 20 Keys.fire)).particles ↔
      (List.replicate 20 Keys.fire).length <
        ⌈1 / (Particle.new (fun _ => (3 : ℝ) / 5) 0 250 95 "#ff00ff").decay⌉₊) ∧
    ((Particle.new (fun _ => (3 : ℝ) / 5) 0 250 95 "#ff00ff").decay = 5 / 100 →
      ((List.replicate 20 Keys.fire).length = 19 →
        Nat.iterate Particle.update (List.replicate 20 Keys.fire).length
            (Particle.new (fun _ => (3 : ℝ) / 5) 0 250 95 "#ff00ff") ∈
          ((Game.sparked : Game ℝ).updates Real.sin (fun _ => 1 / 2)
            (List.replicate 20 Keys.fire)).particles) ∧
      ((List.replicate 20 Keys.fire).length = 20 →
        Nat.iterate Particle.update (List.replicate 20 Keys.fire).length
            (Particle.new (fun _ => (3 : ℝ) / 5) 0 250 95 "#ff00ff") ∉
          ((Game.sparked : Game ℝ).updates Real.sin (fun _ => 1 / 2)
            (List.replicate 20 Keys.fire)).particles))) := by
  have hp : Particle.new (fun _ => 3 / 5) 0 250 95 "#ff00ff" ∈ (Game.sparked : Game ℝ).particles :=
    List.mem_singleton.mpr rfl
  have hd : 0 < (Particle.new (fun _ => (3 : ℝ) / 5) 0 250 95 "#ff00ff").decay := by
    simp only [Particle.new]
    norm_num
  have hact : ∀ i < (List.replicate 20 Keys.fire).length,
      ((Game.sparked : Game ℝ).updates Real.sin (fun _ => 1 / 2)
        ((List.replicate 20 Keys.fire).take i)).gameActive = true :=
    fun i _ => (Game.updates_no_enemies Real.sin (fun _ => 1 / 2) _ Game.sparked
      Game.sparked_gameActive rfl).1
  exact ⟨hp, rfl, hd, hact,
    C11_particle_lifetime Real.sin (fun _ => 1 / 2) Game.sparked _ _ hp rfl hd hact⟩

/-! ### C17: the player out of reach -/

theorem Enemy.exists_of_enemies_markedFrom {es es1 : List (Enemy α)}
    (h : List.Forall₂ Enemy.MarkedFrom es es1) {e1 : Enemy α} (he : e1 ∈ es1) :
    ∃ e ∈ es, Enemy.MarkedFrom e e1 := by
  induction h with
  | nil => exact absurd he (List.not_mem_nil _)
  | @cons a c l l1 hac _ ih =>
    rcases List.mem_cons.mp he with rfl | hmem
    · exact ⟨a, List.mem_cons_self _ _, hac⟩
    · obtain ⟨e, hel, hm⟩ := ih hmem
      exact ⟨e, List.mem_cons_of_mem _ hel, hm⟩

/-- A pass in which no unmarked enemy is on the player leaves the flags and the
store alone. -/
theorem Game.checkCollisions_of_no_overlap (random : Nat → α) (g : Game α)
    (h : ¬ ∃ e ∈ (g.bulletsHitEnemies random).enemies,
      e.markedForDeletion = false ∧ e.overlapsPlayer g.player) :
    (g.checkCollisions random).gameActive = g.gameActive ∧
      (g.checkCollisions random).gameOver = g.gameOver ∧
      (g.checkCollisions random).storage = g.storage := by
  obtain ⟨kills, d, _⟩ := Game.bulletsHitEnemies_spec random g
  obtain ⟨_, _, _, _, _, _, _, dgo, dga, dpl, _, dst, _⟩ := d
  rw [← dpl] at h
  have hsame := (Game.enemiesHitPlayer_spec (g.bulletsHitEnemies random)).2 h
  unfold Game.checkCollisions
  rw [hsame, Game.winCondition_timers]
  exact ⟨dga, dgo, dst⟩

theorem Game.advance_player (sin : α → α) (g : Game α) :
    (g.advance sin).player = (Player.update g).player := rfl

/-- An enemy on a row of the grid is above a player standing on a surface at
least 350 high. -/
theorem Enemy.not_overlapsPlayer_of_row (h : α) (hh : 350 ≤ h) (e : Enemy α) (p : Player α)
    (hp : p.y = h - 60) (he : e.y = 80 ∨ e.y = 140 ∨ e.y = 200 ∨ e.y = 260) :
    ¬ e.overlapsPlayer p := by
  rintro ⟨_, _, _, h4⟩
  simp only [Enemy.height] at h4
  rw [hp] at h4
  rcases he with he | he | he | he <;> rw [he] at h4 <;> linarith

/-- A frame keeps a safe state safe, on a surface at least 350 high. -/
theorem Game.Safe.safe_update (sin : α → α) (random : Nat → α) (dt h : α) (stored : List Nat)
    (hh : 350 ≤ h) (g : Game α) (hs : Game.Safe h stored g) :
    Game.Safe h stored (g.update sin random dt) := by
  obtain ⟨ha, hgo, hht, hpy, hst, hrow⟩ := hs
  rw [Game.update_active sin random dt g ha]
  obtain ⟨_, _, fa, fgo, fst, _, _, _, _, fh⟩ := Game.advance_frame sin g
  have arow : ∀ e ∈ (g.advance sin).enemies, e.y = 80 ∨ e.y = 140 ∨ e.y = 200 ∨ e.y = 260 := by
    intro e he
    rw [Game.advance_enemies, (Player.update_frame g).2.2.2.2.1] at he
    obtain ⟨e0, he0, rfl⟩ := List.mem_map.mp (List.mem_filter.mp he).1
    exact hrow e0 he0
  have apy : (g.advance sin).player.y = h - 60 := by
    rw [Game.advance_player, Player.update_player_y, hpy]
  obtain ⟨_, _, _, fe, _, _⟩ := Game.checkCollisions_marks random (g.advance sin)
  have crow : ∀ e ∈ ((g.advance sin).checkCollisions random).enemies,
      e.y = 80 ∨ e.y = 140 ∨ e.y = 200 ∨ e.y = 260 := by
    intro e he
    obtain ⟨e0, he0, hm⟩ := Enemy.exists_of_enemies_markedFrom fe he
    have hy : e.y = e0.y := by rw [hm.1]
    rw [hy]
    exact arow e0 he0
  have hno : ¬ ∃ e ∈ ((g.advance sin).bulletsHitEnemies random).enemies,
      e.markedForDeletion = false ∧ e.overlapsPlayer (g.advance sin).player := by
    rintro ⟨e, he, _, hov⟩
    rw [← (Game.checkCollisions_entities random (g.advance sin)).2.2.2] at he
    exact Enemy.not_overlapsPlayer_of_row h hh e _ apy (crow e he) hov
  obtain ⟨ca, cgo, cst⟩ := Game.checkCollisions_of_no_overlap random (g.advance sin) hno
  obtain ⟨cp, _, ch, _⟩ := Game.checkCollisions_frame random (g.advance sin)
  exact ⟨by rw [ca, fa, ha], by rw [cgo, fgo, hgo], by rw [ch, fh, hht], by rw [cp, apy],
    by rw [cst, fst, hst], crow⟩

/-- The rows of a fresh grid. -/
theorem Enemy.row_of_mem_grid (random : Nat → α) (n : Nat) (w : α) (e : Enemy α)
    (he : e ∈ (List.range 24).map fun i =>
      Enemy.new random (n + i) ((w - 330) / 2 + ((i % 6 : Nat) : α) * 60)
        (80 + ((i / 6 : Nat) : α) * 60)) :
    e.y = 80 ∨ e.y = 140 ∨ e.y = 200 ∨ e.y = 260 := by
  obtain ⟨i, hi, rfl⟩ := List.mem_map.mp he
  have hi' : i < 24 := List.mem_range.mp hi
  have hrow : i / 6 = 0 ∨ i / 6 = 1 ∨ i / 6 = 2 ∨ i / 6 = 3 := by omega
  simp only [Enemy.new]
  rcases hrow with h | h | h | h <;> rw [h]
  · left; norm_num
  · right; left; norm_num
  · right; right; left; norm_num
  · right; right; right; norm_num

/-- A respawn timer keeps a safe state safe. -/
theorem Game.Safe.safe_fireTimer (random : Nat → α) (h : α) (stored : List Nat) (g : Game α)
    (hs : Game.Safe h stored g) : Game.Safe h stored (g.fireTimer random) := by
  obtain ⟨ha, hgo, hht, hpy, hst, hrow⟩ := hs
  unfold Game.fireTimer
  split
  · exact ⟨ha, hgo, hht, hpy, hst, hrow⟩
  · unfold Game.respawnCallback
    split
    · rw [Game.createEnemyGrid_eq]
      exact ⟨ha, hgo, hht, hpy, hst, fun e he => Enemy.row_of_mem_grid random _ _ e he⟩
    · exact ⟨ha, hgo, hht, hpy, hst, hrow⟩

/-- The state left by `start()` is safe. -/
theorem Game.Safe.safe_start (random : Nat → α) (g : Game α) :
    Game.Safe g.height g.storage (g.start random) := by
  rw [Game.start_eq]
  refine ⟨rfl, rfl, rfl, ?_, rfl, fun e he => Enemy.row_of_mem_grid random _ _ e he⟩
  show g.height - 40 - 20 = g.height - 60
  ring

/-- Ticks keep a safe state safe, on a surface at least 350 high. -/
theorem Game.Safe.safe_play (sin : α → α) (random : Nat → α) (h : α) (stored : List Nat)
    (hh : 350 ≤ h) (ts : List (Tick α)) (g : Game α) (hs : Game.Safe h stored g) :
    Game.Safe h stored (g.play sin random ts) := by
  induction ts generalizing g with
  | nil => exact hs
  | cons t ts ih =>
    apply ih
    cases t with
    | frame k dt =>
      exact Game.Safe.safe_update sin random dt h stored hh (g.setKeys k) hs
    | timer => exact Game.Safe.safe_fireTimer random h stored g hs

/-- C17. Enemy-Player collision never triggers on a tall enough surface: for every
surface height `H >= 350` (any width) and no resize, in every state reached from
`start()` by any number of frames under any key inputs and of respawn-timer
firings, the state is Active and not Over, the store has received no write,
`player.y = H - 60`, every enemy has `y` in `{80, 140, 200, 260}` and no enemy's box
overlaps the Player's box. -/
theorem C17_player_out_of_reach (sin : α → α) (random : Nat → α) (g0 : Game α)
    (hH : 350 ≤ g0.height) (ts : List (Tick α)) :
    ((g0.start random).play sin random ts).gameActive = true ∧
    ((g0.start random).play sin random ts).gameOver = false ∧
    ((g0.start random).play sin random ts).storage = g0.storage ∧
    ((g0.start random).play sin random ts).height = g0.height ∧
    ((g0.start random).play sin random ts).player.y = g0.height - 60 ∧
    ∀ e ∈ ((g0.start random).play sin random ts).enemies,
      (e.y = 80 ∨ e.y = 140 ∨ e.y = 200 ∨ e.y = 260) ∧
        ¬ e.overlapsPlayer ((g0.start random).play sin random ts).player := by
  obtain ⟨ha, hgo, hht, hpy, hst, hrow⟩ :=
    Game.Safe.safe_play sin random g0.height g0.storage hH ts _ (Game.Safe.safe_start random g0)
  exact ⟨ha, hgo, hst, hht, hpy, fun e he =>
    ⟨hrow e he, Enemy.not_overlapsPlayer_of_row g0.height hH e _ hpy (hrow e he)⟩⟩

/-- C17, witness: the game constructed in a container of 800 by 600, under the
real sine, through a frame with the fire key held and a timer. -/
theorem C17_player_out_of_reach_witness :
    (350 : ℝ) ≤ (Game.new 300 150 800 600 none : Game ℝ).height ∧
    ((((Game.new 300 150 800 600 none : Game ℝ).start (fun _ => 1 / 2)).play Real.sin
        (fun _ => 1 / 2) [Tick.frame Keys.fire 16, Tick.timer]).gameActive = true ∧
    (((Game.new 300 150 800 600 none : Game ℝ).start (fun _ => 1 / 2)).play Real.sin
        (fun _ => 1 / 2) [Tick.frame Keys.fire 16, Tick.timer]).gameOver = false ∧
    (((Game.new 300 150 800 600 none : Game ℝ).start (fun _ => 1 / 2)).play Real.sin
        (fun _ => 1 / 2) [Tick.frame Keys.fire 16, Tick.timer]).storage
      = (Game.new 300 150 800 600 none : Game ℝ).storage ∧
    (((Game.new 300 150 800 600 none : Game ℝ).start (fun _ => 1 / 2)).play Real.sin
        (fun _ => 1 / 2) [Tick.frame Keys.fire 16, Tick.timer]).height
      = (Game.new 300 150 800 600 none : Game ℝ).height ∧
    (((Game.new 300 150 800 600 none : Game ℝ).start (fun _ => 1 / 2)).play Real.sin
        (fun _ => 1 / 2) [Tick.frame Keys.fire 16, Tick.timer]).player.y
      = (Game.new 300 150 800 600 none : Game ℝ).height - 60 ∧
    ∀ e ∈ (((Game.new 300 150 800 600 none : Game ℝ).start (fun _ => 1 / 2)).play Real.sin
        (fun _ => 1 / 2) [Tick.frame Keys.fire 16, Tick.timer]).enemies,
      (e.y = 80 ∨ e.y = 140 ∨ e.y = 200 ∨ e.y = 260) ∧
        ¬ e.overlapsPlayer
          (((Game.new 300 150 800 600 none : Game ℝ).start (fun _ => 1 / 2)).play Real.sin
            (fun _ => 1 / 2) [Tick.frame Keys.fire 16, Tick.timer]).player) := by
  have hH : (350 : ℝ) ≤ (Game.new 300 150 800 600 none : Game ℝ).height := by
    simp only [Game.new, Game.resize]
    norm_num
  exact ⟨hH, C17_player_out_of_reach Real.sin (fun _ => 1 / 2) _ hH _⟩

/-! ### C19: one bullet, one enemy -/

theorem Enemy.Apart.apart_update (sin : α → α) {e1 e2 : Enemy α} (h : Enemy.Apart e1 e2) :
    Enemy.Apart (e1.update sin) (e2.update sin) := by
  obtain ⟨ha, _, hp⟩ := h
  refine ⟨?_, ?_, hp⟩
  · show e1.angle + 5 / 100 = e2.angle + 5 / 100
    rw [ha]
  · show e1.initialX + sin e1.angle * 20 - e1.initialX
      = e2.initialX + sin e2.angle * 20 - e2.initialX
    rw [ha]
    ring

theorem Enemy.Apart.apart_markedFrom {e1 e2 m1 m2 : Enemy α} (h : Enemy.Apart e1 e2)
    (h1 : Enemy.MarkedFrom e1 m1) (h2 : Enemy.MarkedFrom e2 m2) : Enemy.Apart m1 m2 := by
  obtain ⟨ha, hx, hp⟩ := h
  rw [h1.1, h2.1]
  exact ⟨ha, hx, hp⟩

/-- Raising deletion flags keeps the enemies of a collection apart. -/
theorem Enemy.pairwise_apart_markedFrom {es es1 : List (Enemy α)}
    (h : List.Forall₂ Enemy.MarkedFrom es es1) (hp : List.Pairwise Enemy.Apart es) :
    List.Pairwise Enemy.Apart es1 := by
  induction h with
  | nil => exact List.Pairwise.nil
  | @cons a c l l1 hac htl ih =>
    obtain ⟨hhead, htail⟩ := List.pairwise_cons.mp hp
    refine List.pairwise_cons.mpr ⟨?_, ih htail⟩
    intro x hx
    obtain ⟨x0, hx0, hm⟩ := Enemy.exists_of_enemies_markedFrom htl hx
    exact (hhead x0 hx0).apart_markedFrom hac hm

/-- The enemies of a fresh grid are apart, in row-major order. -/
theorem Enemy.pairwise_apart_grid (random : Nat → α) (n : Nat) (w : α) :
    List.Pairwise Enemy.Apart ((List.range 24).map fun i =>
      Enemy.new random (n + i) ((w - 330) / 2 + ((i % 6 : Nat) : α) * 60)
        (80 + ((i / 6 : Nat) : α) * 60)) := by
  apply List.Pairwise.map _ _ (List.pairwise_lt_range 24)
  intro i j hij
  refine ⟨rfl, ?_, ?_⟩
  · simp [Enemy.new]
  · simp only [Enemy.new]
    have hcase : (i / 6 = j / 6 ∧ i % 6 + 1 ≤ j % 6) ∨ i / 6 + 1 ≤ j / 6 := by omega
    rcases hcase with ⟨_, hc⟩ | hr
    · left
      have : ((i % 6 : Nat) : α) + 1 ≤ ((j % 6 : Nat) : α) := by exact_mod_cast hc
      linarith
    · right
      have : ((i / 6 : Nat) : α) + 1 ≤ ((j / 6 : Nat) : α) := by exact_mod_cast hr
      linarith

/-- A frame keeps the enemies apart. -/
theorem Game.update_apart (sin : α → α) (random : Nat → α) (dt : α) (g : Game α)
    (h : List.Pairwise Enemy.Apart g.enemies) :
    List.Pairwise Enemy.Apart (g.update sin random dt).enemies := by
  rw [Game.update_advance]
  split
  · exact h
  · obtain ⟨_, _, _, fe, _, _⟩ := Game.checkCollisions_marks random (g.advance sin)
    apply Enemy.pairwise_apart_markedFrom fe
    rw [Game.advance_enemies, (Player.update_frame g).2.2.2.2.1]
    apply List.Pairwise.filter
    exact List.Pairwise.map _ (fun _ _ hab => hab.apart_update sin) h

/-- A respawn timer keeps the enemies apart. -/
theorem Game.fireTimer_apart (random : Nat → α) (g : Game α)
    (h : List.Pairwise Enemy.Apart g.enemies) :
    List.Pairwise Enemy.Apart (g.fireTimer random).enemies := by
  unfold Game.fireTimer
  split
  · exact h
  · unfold Game.respawnCallback
    split
    · rw [Game.createEnemyGrid_eq]
      exact Enemy.pairwise_apart_grid random _ _
    · exact h

theorem Game.play_apart (sin : α → α) (random : Nat → α) (ts : List (Tick α)) (g : Game α)
    (h : List.Pairwise Enemy.Apart g.enemies) :
    List.Pairwise Enemy.Apart (g.play sin random ts).enemies := by
  induction ts generalizing g with
  | nil => exact h
  | cons t ts ih =>
    apply ih
    cases t with
    | frame k dt => exact Game.update_apart sin random dt (g.setKeys k) h
    | timer => exact Game.fireTimer_apart random g h

/-- No bullet box, 4 wide and 10 high, overlaps two enemies that are apart. -/
theorem Enemy.Apart.not_both_overlap {e1 e2 : Enemy α} (h : Enemy.Apart e1 e2) (b : Bullet α) :
    ¬ (b.overlaps e1 ∧ b.overlaps e2) := by
  obtain ⟨_, hx, hp⟩ := h
  rintro ⟨⟨a1, _, a3, _⟩, ⟨_, b2, _, b4⟩⟩
  simp only [Bullet.width, Bullet.height, Enemy.width, Enemy.height] at a1 a3 b2 b4
  rcases hp with hp | hp
  · linarith
  · linarith

/-- C19. No bullet can hit two enemies at once: in every state reached from
`start()` by frames (under any keys) and respawn-timer firings, all enemies of the
collection share the same angle, any two of them keep the 60-pixel grid pitch
(the later one in the collection is at least 60 pixels to the right of the earlier
one, or at least 60 pixels below it, so their 30 by 30 boxes are disjoint), and no
bullet box overlaps the boxes of both. -/
theorem C19_one_enemy_per_bullet (sin : α → α) (random : Nat → α) (g0 : Game α)
    (ts : List (Tick α)) :
    (∀ e1 ∈ ((g0.start random).play sin random ts).enemies,
      ∀ e2 ∈ ((g0.start random).play sin random ts).enemies, e1.angle = e2.angle) ∧
    List.Pairwise
      (fun e1 e2 : Enemy α =>
        (e1.x + 60 ≤ e2.x ∨ e1.y + 60 ≤ e2.y) ∧
        (e1.x + e1.width ≤ e2.x ∨ e1.y + e1.height ≤ e2.y) ∧
        ∀ b : Bullet α, ¬ (b.overlaps e1 ∧ b.overlaps e2))
      ((g0.start random).play sin random ts).enemies := by
  have hstart : List.Pairwise Enemy.Apart (g0.start random).enemies := by
    rw [Game.start_eq]
    exact Enemy.pairwise_apart_grid random _ _
  have hp := Game.play_apart sin random ts _ hstart
  constructor
  · have hang : List.Pairwise (fun e1 e2 : Enemy α => e1.angle = e2.angle)
        ((g0.start random).play sin random ts).enemies :=
      hp.imp (fun h => h.1)
    exact List.Pairwise.forall_of_forall (R := fun e1 e2 : Enemy α => e1.angle = e2.angle)
      (fun _ _ h => h.symm) (fun _ _ => rfl) hang
  · refine hp.imp (fun {e1 e2} h => ?_)
    have hpitch : e1.x + 60 ≤ e2.x ∨ e1.y + 60 ≤ e2.y := by
      obtain ⟨_, hx, hd⟩ := h
      rcases hd with hd | hd
      · left; linarith
      · right; exact hd
    refine ⟨hpitch, ?_, h.not_both_overlap⟩
    simp only [Enemy.width, Enemy.height]
    rcases hpitch with hq | hq
    · left; linarith
    · right; linarith

end Galaga
